import Mathlib

/-!
QTR reflectance sensor driver (`QTRSensors.cpp`)

A shallow embedding of the driver: the object's fields become the record `QTRSensors`,
the Arduino primitives it calls (`pinMode`, `digitalWrite`, `digitalRead`, `analogRead`,
`micros`, `delayMicroseconds`, `noInterrupts`, `interrupts`, `realloc`) become operations on
an explicit `Hardware` state, and every member function becomes a function that passes the
object, the hardware and the caller's buffer explicitly.

Fixed-width integers are natural numbers or integers reduced explicitly: `uint8_t` modulo
`2^8`, `uint16_t` modulo `2^16`, `uint32_t` modulo `2^32`.  The width of `int` and the
constants of the header (`MaxSensors`, `NoEmitterPin`) are not fixed by the source file and
are the fields of `Platform`.

Loops whose exit depends on the clock or on a wrapping `uint8_t` counter take a `fuel`
argument and give `none` when it runs out; `none` is also the result where C leaves the
behaviour undefined (a null calibration array is dereferenced, a division by zero).
-/

namespace QTR

/-! ## Integers of fixed width -/

/-- Conversion to `uint8_t`. -/
def wrap8 (x : Nat) : Nat := x % 256

/-- Conversion to `uint16_t`. -/
def wrap16 (x : Nat) : Nat := x % 65536

/-- Conversion to `uint32_t`. -/
def wrap32 (x : Nat) : Nat := x % 4294967296

/-- Conversion of an integer to the unsigned type of `bits` bits. -/
def toUnsigned (bits : Nat) (x : Int) : Nat := (x % (2 : Int) ^ bits).toNat

/-- Conversion of an integer to the signed two's complement type of `bits` bits. -/
def toSigned (bits : Nat) (x : Int) : Int :=
  (x + (2 : Int) ^ (bits - 1)) % (2 : Int) ^ bits - (2 : Int) ^ (bits - 1)

/-- What the source file takes from the header and the compiler: the width of `int`, and the
constants `MaxSensors` and `NoEmitterPin`. -/
structure Platform where
  intBits : Nat
  MaxSensors : Nat
  NoEmitterPin : Nat
  deriving DecidableEq, Repr

/-! ## Data model -/

/-- A block of cells addressed by index, as reached through a C pointer. -/
abbrev Buffer := Nat → Nat

/-- The sensing mode, `enum class Type`; `Undefined` is the state before a type is chosen. -/
inductive SensorType
  | Undefined
  | RC
  | Analog
  deriving DecidableEq, Repr

/-- The emitter protocol of a read, `enum class ReadMode`. -/
inductive ReadMode
  | Off
  | On
  | OnAndOff
  | OddEven
  | OddEvenAndOff
  | Manual
  deriving DecidableEq, Repr

/-- The emitter bank selection, `enum class Emitters`. -/
inductive Emitters
  | All
  | Odd
  | Even
  | None
  deriving DecidableEq, Repr

/-- The fields of a `QTRSensors` object (the leading underscore of the private ones dropped).
A pointer field is `none` when it is `nullptr`. -/
structure QTRSensors where
  type : SensorType
  sensorPins : Option Buffer
  sensorCount : Nat
  maxValue : Nat
  timeout : Nat
  samplesPerSensor : Nat
  calibrationInitializedOn : Bool
  calibrationInitializedOff : Bool
  calibratedMinimumOn : Option Buffer
  calibratedMaximumOn : Option Buffer
  calibratedMinimumOff : Option Buffer
  calibratedMaximumOff : Option Buffer
  oddEmitterPin : Nat
  evenEmitterPin : Nat
  emitterPinCount : Nat
  dimmable : Bool
  dimmingLevel : Nat
  lastPosition : Nat

/-! ## Hardware abstraction -/

/-- Pin level `HIGH`. -/
abbrev HIGH : Bool := true

/-- Pin level `LOW`. -/
abbrev LOW : Bool := false

/-- Pin mode `OUTPUT`. -/
abbrev OUTPUT : Bool := true

/-- Pin mode `INPUT`. -/
abbrev INPUT : Bool := false

/-- The effects of the driver on the hardware, in the order they are issued. -/
inductive HwEvent
  | pinMode (pin : Nat) (output : Bool)
  | digitalWrite (pin : Nat) (high : Bool)
  | delayMicroseconds (us : Nat)
  | noInterrupts
  | interrupts
  deriving DecidableEq, Repr

/-- The hardware as the driver sees it.  The first five fields are the environment, indexed
by the number of hardware calls made so far: the level of the line at a pin, the result of an
analog conversion, the microseconds a call takes, whether an allocation succeeds, and the
contents of memory that was never written.  The others are the state: which pins are outputs,
the level last written to each pin, the number of calls made, the clock, whether interrupts
are masked, and the effects issued so far. -/
structure Hardware where
  line : Nat → Nat → Bool
  adc : Nat → Nat → Nat
  cost : Nat → Nat
  heap : Nat → Bool
  junk : Buffer
  output : Nat → Bool
  latch : Nat → Bool
  calls : Nat
  now : Nat
  masked : Bool
  log : List HwEvent

namespace Hardware

/-- One hardware call goes by: the call counter and the clock advance. -/
def tick (hw : Hardware) : Hardware :=
  { hw with calls := hw.calls + 1, now := hw.now + hw.cost hw.calls }

/-- Arduino `pinMode(pin, OUTPUT)` or `pinMode(pin, INPUT)`. -/
def pinMode (hw : Hardware) (pin : Nat) (out : Bool) : Hardware :=
  { hw.tick with
    output := Function.update hw.output pin out
    log := hw.log ++ [HwEvent.pinMode pin out] }

/-- Arduino `digitalWrite(pin, level)`. -/
def digitalWrite (hw : Hardware) (pin : Nat) (high : Bool) : Hardware :=
  { hw.tick with
    latch := Function.update hw.latch pin high
    log := hw.log ++ [HwEvent.digitalWrite pin high] }

/-- Arduino `digitalRead(pin)`: an output pin reads back the level last written, an input
pin reads its line. -/
def digitalRead (hw : Hardware) (pin : Nat) : Bool × Hardware :=
  (if hw.output pin then hw.latch pin else hw.line hw.calls pin, hw.tick)

/-- Arduino `analogRead(pin)`. -/
def analogRead (hw : Hardware) (pin : Nat) : Nat × Hardware :=
  (hw.adc hw.calls pin, hw.tick)

/-- Arduino `micros()`, an unsigned 32-bit count of microseconds. -/
def micros (hw : Hardware) : Nat × Hardware :=
  (wrap32 hw.now, hw.tick)

/-- Arduino `delayMicroseconds(us)`. -/
def delayMicroseconds (hw : Hardware) (us : Nat) : Hardware :=
  { hw.tick with
    now := hw.now + hw.cost hw.calls + us
    log := hw.log ++ [HwEvent.delayMicroseconds us] }

/-- Arduino `noInterrupts()`. -/
def noInterrupts (hw : Hardware) : Hardware :=
  { hw.tick with masked := true, log := hw.log ++ [HwEvent.noInterrupts] }

/-- Arduino `interrupts()`. -/
def interrupts (hw : Hardware) : Hardware :=
  { hw.tick with masked := false, log := hw.log ++ [HwEvent.interrupts] }

/-- Library `realloc`: whether the allocation succeeds. -/
def realloc (hw : Hardware) : Bool × Hardware :=
  (hw.heap hw.calls, hw.tick)

end Hardware

/-! ## Loops -/

/-- The loop `for (uint8_t i = 0; i < n; i++) body`, for `n` that fits `uint8_t`. -/
def forRange {σ : Type} (body : Nat → σ → σ) : Nat → σ → σ
  | 0, st => st
  | n + 1, st => body n (forRange body n st)

/-- The loop `for (uint8_t i = 0; i < n; i++) body` with a body that may give no result. -/
def forRangeM {σ : Type} (body : Nat → σ → Option σ) : Nat → σ → Option σ
  | 0, st => some st
  | n + 1, st => (forRangeM body n st).bind (body n)

/-- The loop `for (uint8_t i = start; i < count; i += step) body`, from the index `i`; the
counter wraps at 256. -/
def forStride {σ : Type} (count step : Nat) (body : Nat → σ → σ) : Nat → Nat → σ → Option σ
  | 0, _, _ => none
  | fuel + 1, i, st =>
    if i < count then forStride count step body fuel (wrap8 (i + step)) (body i st)
    else some st

/-- The loop `while ((uint16_t)(micros() - start) < limit) { delayMicroseconds(10); }`. -/
def waitSince (start limit : Nat) : Nat → Hardware → Option Hardware
  | 0, _ => none
  | fuel + 1, hw =>
    let r := hw.micros
    if wrap16 (r.1 + 65536 - start) < limit then
      waitSince start limit fuel (r.2.delayMicroseconds 10)
    else some r.2

/-! ## Emitter controller -/

/-- Source `QTRSensors::emittersOff(Emitters emitters, bool wait)`. -/
def emittersOff (P : Platform) (s : QTRSensors) (hw : Hardware) (emitters : Emitters)
    (wait : Bool) : Hardware :=
  let r1 : Bool × Hardware :=
    if emitters = Emitters.All ∨ (s.emitterPinCount = 2 ∧ emitters = Emitters.Odd) then
      if s.oddEmitterPin ≠ P.NoEmitterPin then
        let d := hw.digitalRead s.oddEmitterPin
        if d.1 = HIGH then (true, d.2.digitalWrite s.oddEmitterPin LOW) else (false, d.2)
      else (false, hw)
    else (false, hw)
  let r2 : Bool × Hardware :=
    if s.emitterPinCount = 2 ∧ (emitters = Emitters.All ∨ emitters = Emitters.Even) then
      if s.evenEmitterPin ≠ P.NoEmitterPin then
        let d := r1.2.digitalRead s.evenEmitterPin
        if d.1 = HIGH then (true, d.2.digitalWrite s.evenEmitterPin LOW) else (r1.1, d.2)
      else r1
    else r1
  if wait = true ∧ r2.1 = true then
    if s.dimmable then r2.2.delayMicroseconds 1200 else r2.2.delayMicroseconds 200
  else r2.2

/-- Source `QTRSensors::emittersOnWithPin(uint8_t pin)`: the time the pin was set high, as
`uint16_t`, and the hardware afterwards. -/
def emittersOnWithPin (s : QTRSensors) (hw : Hardware) (pin : Nat) : Nat × Hardware :=
  let hw1 : Hardware :=
    if s.dimmable then
      let d := hw.digitalRead pin
      if d.1 = HIGH then (d.2.digitalWrite pin LOW).delayMicroseconds 1200 else d.2
    else hw
  let m := (hw1.digitalWrite pin HIGH).micros
  let hw3 : Hardware :=
    if s.dimmable = true ∧ 0 < s.dimmingLevel then
      (forRange
        (fun _ h =>
          (((h.delayMicroseconds 1).digitalWrite pin LOW).delayMicroseconds 1).digitalWrite
            pin HIGH)
        s.dimmingLevel m.2.noInterrupts).interrupts
    else m.2
  (wrap16 m.1, hw3)

/-- Source `QTRSensors::emittersOn(Emitters emitters, bool wait)`.  The local
`emittersOnStart` is read only after it was assigned; it starts here as 0. -/
def emittersOn (P : Platform) (s : QTRSensors) (hw : Hardware) (fuel : Nat)
    (emitters : Emitters) (wait : Bool) : Option Hardware :=
  let r1 : Bool × Nat × Hardware :=
    if emitters = Emitters.All ∨ (s.emitterPinCount = 2 ∧ emitters = Emitters.Odd) then
      if s.oddEmitterPin ≠ P.NoEmitterPin then
        if s.dimmable then
          let e := emittersOnWithPin s hw s.oddEmitterPin
          (true, e.1, e.2)
        else
          let d := hw.digitalRead s.oddEmitterPin
          if d.1 = LOW then
            let e := emittersOnWithPin s d.2 s.oddEmitterPin
            (true, e.1, e.2)
          else (false, 0, d.2)
      else (false, 0, hw)
    else (false, 0, hw)
  let r2 : Bool × Nat × Hardware :=
    if s.emitterPinCount = 2 ∧ (emitters = Emitters.All ∨ emitters = Emitters.Even) then
      if s.evenEmitterPin ≠ P.NoEmitterPin then
        if s.dimmable then
          let e := emittersOnWithPin s r1.2.2 s.evenEmitterPin
          (true, e.1, e.2)
        else
          let d := r1.2.2.digitalRead s.evenEmitterPin
          if d.1 = LOW then
            let e := emittersOnWithPin s d.2 s.evenEmitterPin
            (true, e.1, e.2)
          else (r1.1, r1.2.1, d.2)
      else r1
    else r1
  if wait = true ∧ r2.1 = true then
    if s.dimmable then waitSince r2.2.1 300 fuel r2.2.2
    else some (r2.2.2.delayMicroseconds 200)
  else some r2.2.2

/-- Source `QTRSensors::emittersSelect(Emitters emitters)`. -/
def emittersSelect (P : Platform) (s : QTRSensors) (hw : Hardware) (fuel : Nat)
    (emitters : Emitters) : Option Hardware :=
  let switch (offEmitters : Emitters) : Option Hardware :=
    let m := (emittersOff P s hw offEmitters false).micros
    (emittersOn P s m.2 fuel emitters true).bind fun hw2 =>
      if s.dimmable then waitSince (wrap16 m.1) 1200 fuel hw2 else some hw2
  match emitters with
  | Emitters.Odd => switch Emitters.Even
  | Emitters.Even => switch Emitters.Odd
  | Emitters.All => emittersOn P s hw fuel Emitters.All true
  | Emitters.None => some (emittersOff P s hw Emitters.All true)

/-! ## Acquisition engine -/

/-- The polling loop `while (time < _maxValue)` of the RC branch of `readPrivate`: at each
pass the elapsed time is taken and every targeted line that reads low for the first time
records it. -/
def rcPoll (s : QTRSensors) (pins : Buffer) (startTime start step fuel0 : Nat) :
    Nat → Nat → Buffer × Hardware → Option (Buffer × Hardware)
  | 0, _, _ => none
  | fuel + 1, time, st =>
    if time < s.maxValue then
      let m := st.2.noInterrupts.micros
      let time1 := wrap16 (wrap32 (m.1 + 4294967296 - startTime))
      (forStride s.sensorCount step
        (fun i a =>
          let d := a.2.digitalRead (pins i)
          if d.1 = LOW ∧ time1 < a.1 i then (Function.update a.1 i time1, d.2) else (a.1, d.2))
        fuel0 start (st.1, m.2)).bind
        fun a => rcPoll s pins startTime start step fuel0 fuel time1 (a.1, a.2.interrupts)
    else some st

/-- Source `QTRSensors::readPrivate(uint16_t * sensorValues, uint8_t start, uint8_t step)`. -/
def readPrivate (P : Platform) (s : QTRSensors) (hw : Hardware) (fuel : Nat)
    (sensorValues : Buffer) (start step : Nat) : Option (Buffer × Hardware) :=
  match s.sensorPins with
  | none => some (sensorValues, hw)
  | some pins =>
    match s.type with
    | SensorType.RC =>
      (forStride s.sensorCount step
        (fun i a =>
          (Function.update a.1 i s.maxValue,
            (a.2.pinMode (pins i) OUTPUT).digitalWrite (pins i) HIGH))
        fuel start (sensorValues, hw)).bind fun a =>
      let m := ((a.2.delayMicroseconds 10).noInterrupts).micros
      (forStride s.sensorCount step (fun i h => h.pinMode (pins i) INPUT)
        fuel start m.2).bind fun h =>
      rcPoll s pins m.1 start step fuel fuel 0 (a.1, h.interrupts)
    | SensorType.Analog =>
      (forStride s.sensorCount step (fun i a => (Function.update a.1 i 0, a.2))
        fuel start (sensorValues, hw)).bind fun a =>
      (forRangeM
        (fun _ b =>
          forStride s.sensorCount step
            (fun i c =>
              let r := c.2.analogRead (pins i)
              (Function.update c.1 i (wrap16 (c.1 i + r.1)), r.2))
            fuel start b)
        s.samplesPerSensor a).bind fun b =>
      if s.samplesPerSensor = 0 ∧ start < s.sensorCount then none
      else
        forStride s.sensorCount step
          (fun i c =>
            let t := c.1 i + s.samplesPerSensor / 2
            let u := if P.intBits ≤ 16 then wrap16 t else t
            (Function.update c.1 i (wrap16 (u / s.samplesPerSensor)), c.2))
          fuel start b
    | SensorType.Undefined => some (sensorValues, hw)

/-! ## Read orchestration -/

/-- The loop at the end of `read`, `sensorValues[i] += _maxValue - offValues[i]`. -/
def combineOnOff (s : QTRSensors) (sensorValues offValues : Buffer) : Buffer :=
  forRange
    (fun i b => Function.update b i (wrap16 (b i + s.maxValue + 65536 - offValues i)))
    s.sensorCount sensorValues

/-- Source `QTRSensors::read(uint16_t * sensorValues, ReadMode mode)`.  The local array
`offValues` starts with the contents of unwritten memory. -/
def read (P : Platform) (s : QTRSensors) (hw : Hardware) (fuel : Nat)
    (sensorValues : Buffer) (mode : ReadMode) : Option (Buffer × Hardware) :=
  let onPart : Option (Buffer × Hardware) :=
    match mode with
    | ReadMode.Off =>
      readPrivate P s (emittersOff P s hw Emitters.All true) fuel sensorValues 0 1
    | ReadMode.Manual => readPrivate P s hw fuel sensorValues 0 1
    | ReadMode.On | ReadMode.OnAndOff =>
      (emittersOn P s hw fuel Emitters.All true).bind fun h1 =>
      (readPrivate P s h1 fuel sensorValues 0 1).bind fun a =>
      some (a.1, emittersOff P s a.2 Emitters.All true)
    | ReadMode.OddEven | ReadMode.OddEvenAndOff =>
      (emittersSelect P s hw fuel Emitters.Odd).bind fun h1 =>
      (readPrivate P s h1 fuel sensorValues 0 2).bind fun a =>
      (emittersSelect P s a.2 fuel Emitters.Even).bind fun h2 =>
      (readPrivate P s h2 fuel a.1 1 2).bind fun b =>
      some (b.1, emittersOff P s b.2 Emitters.All true)
  if mode = ReadMode.OnAndOff ∨ mode = ReadMode.OddEvenAndOff then
    onPart.bind fun a =>
    (readPrivate P s a.2 fuel a.2.junk 0 1).bind fun off =>
    some (combineOnOff s a.1 off.1, off.2)
  else onPart

/-! ## Calibration engine -/

/-- The loop `for (uint8_t j = 0; j < 10; j++)` of `calibrateOnOrOff`: ten reads, keeping
for every channel the largest and the smallest value read.  The state is the local arrays
`sensorValues`, `maxSensorValues`, `minSensorValues` and the hardware. -/
def calibrateSample (P : Platform) (s : QTRSensors) (fuel : Nat) (mode : ReadMode)
    (st : Buffer × Buffer × Buffer × Hardware) : Option (Buffer × Buffer × Buffer × Hardware) :=
  forRangeM
    (fun j a =>
      (read P s a.2.2.2 fuel a.1 mode).bind fun r =>
        let mm : Buffer × Buffer :=
          forRange
            (fun i m =>
              let mx := if j = 0 ∨ m.1 i < r.1 i then Function.update m.1 i (r.1 i) else m.1
              let mn := if j = 0 ∨ r.1 i < m.2 i then Function.update m.2 i (r.1 i) else m.2
              (mx, mn))
            s.sensorCount (a.2.1, a.2.2.1)
        some (r.1, mm.1, mm.2, r.2))
    10 st

/-- The last loop of `calibrateOnOrOff`: the stored maximum rises to the smallest value of
the batch when that is above it, the stored minimum falls to the largest value of the batch
when that is below it.  The state is the pair (`calibratedMinimum`, `calibratedMaximum`). -/
def calibrateRecord (s : QTRSensors) (maxSensorValues minSensorValues : Buffer)
    (cal : Buffer × Buffer) : Buffer × Buffer :=
  forRange
    (fun i c =>
      let cmax := if c.2 i < minSensorValues i then Function.update c.2 i (minSensorValues i)
        else c.2
      let cmin := if maxSensorValues i < c.1 i then Function.update c.1 i (maxSensorValues i)
        else c.1
      (cmin, cmax))
    s.sensorCount cal

/-- Source `QTRSensors::calibrateOnOrOff(uint16_t * & calibratedMinimum,
uint16_t * & calibratedMaximum, bool & initialized, ReadMode mode)`.  The three reference
parameters are passed in and handed back, with the hardware.  A reallocated array keeps its
contents, a new one holds unwritten memory; the three local arrays start as unwritten
memory. -/
def calibrateOnOrOff (P : Platform) (s : QTRSensors) (hw : Hardware) (fuel : Nat)
    (calibratedMinimum calibratedMaximum : Option Buffer) (initialized : Bool)
    (mode : ReadMode) : Option ((Option Buffer × Option Buffer × Bool) × Hardware) :=
  let sampleAndRecord (cmin cmax : Option Buffer) (init : Bool) (h : Hardware) :
      Option ((Option Buffer × Option Buffer × Bool) × Hardware) :=
    (calibrateSample P s fuel mode (h.junk, h.junk, h.junk, h)).bind fun a =>
      match cmin, cmax with
      | some mn, some mx =>
        let c := calibrateRecord s a.2.1 a.2.2.1 (mn, mx)
        some ((some c.1, some c.2, init), a.2.2.2)
      | _, _ => if s.sensorCount = 0 then some ((cmin, cmax, init), a.2.2.2) else none
  if initialized = false then
    let r1 := hw.realloc
    if r1.1 = false then some ((calibratedMinimum, none, initialized), r1.2)
    else
      let newMax : Buffer := calibratedMaximum.getD hw.junk
      let r2 := r1.2.realloc
      if r2.1 = false then some ((none, some newMax, initialized), r2.2)
      else
        let newMin : Buffer := calibratedMinimum.getD hw.junk
        let c : Buffer × Buffer :=
          forRange
            (fun i c => (Function.update c.1 i s.maxValue, Function.update c.2 i 0))
            s.sensorCount (newMin, newMax)
        sampleAndRecord (some c.1) (some c.2) true r2.2
  else sampleAndRecord calibratedMinimum calibratedMaximum initialized hw

/-- Source `QTRSensors::calibrate(ReadMode mode)`. -/
def calibrate (P : Platform) (s : QTRSensors) (hw : Hardware) (fuel : Nat) (mode : ReadMode) :
    Option (QTRSensors × Hardware) :=
  if mode = ReadMode.Manual then some (s, hw)
  else
    let onPart : Option (QTRSensors × Hardware) :=
      if mode = ReadMode.On ∨ mode = ReadMode.OnAndOff then
        (calibrateOnOrOff P s hw fuel s.calibratedMinimumOn s.calibratedMaximumOn
          s.calibrationInitializedOn ReadMode.On).map fun r =>
          ({ s with
              calibratedMinimumOn := r.1.1
              calibratedMaximumOn := r.1.2.1
              calibrationInitializedOn := r.1.2.2 }, r.2)
      else if mode = ReadMode.OddEven ∨ mode = ReadMode.OddEvenAndOff then
        (calibrateOnOrOff P s hw fuel s.calibratedMinimumOn s.calibratedMaximumOn
          s.calibrationInitializedOn ReadMode.OddEven).map fun r =>
          ({ s with
              calibratedMinimumOn := r.1.1
              calibratedMaximumOn := r.1.2.1
              calibrationInitializedOn := r.1.2.2 }, r.2)
      else some (s, hw)
    onPart.bind fun a =>
      if mode = ReadMode.OnAndOff ∨ mode = ReadMode.OddEvenAndOff ∨ mode = ReadMode.Off then
        (calibrateOnOrOff P a.1 a.2 fuel a.1.calibratedMinimumOff a.1.calibratedMaximumOff
          a.1.calibrationInitializedOff ReadMode.Off).map fun r =>
          ({ a.1 with
              calibratedMinimumOff := r.1.1
              calibratedMaximumOff := r.1.2.1
              calibrationInitializedOff := r.1.2.2 }, r.2)
      else some a

/-! ## Normalization -/

/-- The bounds `(calmin, calmax)` that `readCalibrated` selects for channel `i`; `none` when
an array it reads is `nullptr`. -/
def selectCalibration (s : QTRSensors) (mode : ReadMode) (i : Nat) : Option (Nat × Nat) :=
  if mode = ReadMode.On ∨ mode = ReadMode.OddEven then
    s.calibratedMaximumOn.bind fun mx => s.calibratedMinimumOn.bind fun mn => some (mn i, mx i)
  else if mode = ReadMode.Off then
    s.calibratedMaximumOff.bind fun mx => s.calibratedMinimumOff.bind fun mn => some (mn i, mx i)
  else
    s.calibratedMinimumOff.bind fun offMin => s.calibratedMinimumOn.bind fun onMin =>
    s.calibratedMaximumOff.bind fun offMax => s.calibratedMaximumOn.bind fun onMax =>
      let calmin :=
        if offMin i < onMin i then s.maxValue
        else wrap16 (onMin i + s.maxValue + 65536 - offMin i)
      let calmax :=
        if offMax i < onMax i then s.maxValue
        else wrap16 (onMax i + s.maxValue + 65536 - offMax i)
      some (calmin, calmax)

/-- The value `readCalibrated` writes back for a raw reading: the `uint16_t` denominator,
the quotient taken in `int32_t` and stored in the `int16_t` variable `value` (a narrowing
conversion, which reduces modulo `2^16`), the two comparisons, and the store into the
`uint16_t` cell. -/
def calibratedValue (raw calmin calmax : Nat) : Nat :=
  let denominator : Nat := wrap16 (calmax + 65536 - calmin)
  let value : Int :=
    if denominator ≠ 0 then
      toSigned 16 (Int.tdiv (toSigned 32 (((raw : Int) - (calmin : Int)) * 1000))
        (denominator : Int))
    else 0
  let clamped : Int := if value < 0 then 0 else if 1000 < value then 1000 else value
  toUnsigned 16 clamped

/-- Source `QTRSensors::readCalibrated(uint16_t * sensorValues, ReadMode mode)`. -/
def readCalibrated (P : Platform) (s : QTRSensors) (hw : Hardware) (fuel : Nat)
    (sensorValues : Buffer) (mode : ReadMode) : Option (Buffer × Hardware) :=
  if mode = ReadMode.Manual then some (sensorValues, hw)
  else if (mode = ReadMode.On ∨ mode = ReadMode.OnAndOff ∨ mode = ReadMode.OddEvenAndOff) ∧
      s.calibrationInitializedOn = false then some (sensorValues, hw)
  else if (mode = ReadMode.Off ∨ mode = ReadMode.OnAndOff ∨ mode = ReadMode.OddEvenAndOff) ∧
      s.calibrationInitializedOff = false then some (sensorValues, hw)
  else
    (read P s hw fuel sensorValues mode).bind fun a =>
      (forRangeM
        (fun i b =>
          (selectCalibration s mode i).map fun c =>
            Function.update b i (calibratedValue (b i) c.1 c.2))
        s.sensorCount a.1).map fun b => (b, a.2)

/-! ## Position estimator -/

/-- The comparison `u < x` of a `uint16_t` with an `int`: where `int` has 16 bits both
sides become `unsigned int`, on wider platforms both become `int`. -/
def ltUInt16Int (P : Platform) (u : Nat) (x : Int) : Bool :=
  if P.intBits ≤ 16 then decide (u < toUnsigned 16 x) else decide ((u : Int) < x)

/-- The `uint16_t` local `value` of the loop of `readLinePrivate`: the calibrated value of
the channel, or `1000 - value` when the readings are inverted. -/
def lineValue (invertReadings : Bool) (v : Nat) : Nat :=
  if invertReadings then toUnsigned 16 (1000 - (v : Int)) else v

/-- The loop of `readLinePrivate` over the channels: whether the line is seen (`onLine`),
the weighted total (`avg`, a `uint32_t`) and the denominator (`sum`, a `uint16_t`). -/
def lineSums (P : Platform) (s : QTRSensors) (sensorValues : Buffer) (invertReadings : Bool) :
    Bool × Nat × Nat :=
  forRange
    (fun i acc =>
      let value : Nat := lineValue invertReadings (sensorValues i)
      let onLine : Bool := if 200 < value then true else acc.1
      if 50 < value then
        (onLine,
          wrap32 (acc.2.1 +
            wrap32 (value * toUnsigned 32 (toSigned P.intBits ((i : Int) * 1000)))),
          wrap16 (acc.2.2 + value))
      else (onLine, acc.2.1, acc.2.2))
    s.sensorCount (false, 0, 0)

/-- Source `QTRSensors::readLinePrivate(uint16_t * sensorValues, ReadMode mode,
bool invertReadings)`: the value returned (none in `Manual` mode, where the function returns
without a value), the object, the buffer and the hardware afterwards. -/
def readLinePrivate (P : Platform) (s : QTRSensors) (hw : Hardware) (fuel : Nat)
    (sensorValues : Buffer) (mode : ReadMode) (invertReadings : Bool) :
    Option (Option Int × QTRSensors × Buffer × Hardware) :=
  if mode = ReadMode.Manual then some (none, s, sensorValues, hw)
  else
    (readCalibrated P s hw fuel sensorValues mode).bind fun a =>
      let acc := lineSums P s a.1 invertReadings
      if acc.1 = false then
        if ltUInt16Int P s.lastPosition
            (Int.tdiv (toSigned P.intBits (((s.sensorCount : Int) - 1) * 1000)) 2) then
          some (some 0, s, a.1, a.2)
        else
          some (some (toSigned P.intBits (((s.sensorCount : Int) - 1) * 1000)), s, a.1, a.2)
      else if acc.2.2 = 0 then none
      else
        let position : Nat := wrap16 (acc.2.1 / acc.2.2)
        some (some (toSigned P.intBits (position : Int)),
          { s with lastPosition := position }, a.1, a.2)

/-! ## Statements of the specification -/

/-- The quotient `(raw − calmin) × 1000 / (calmax − calmin)` of the specification, in exact
integers with truncating division. -/
def exactQuotient (raw calmin calmax : Nat) : Int :=
  Int.tdiv (((raw : Int) - (calmin : Int)) * 1000) ((calmax : Int) - (calmin : Int))

/-- The normalization of the specification: `clamp(0, 1000, quotient)`, and 0 when
`calmax == calmin`. -/
def clampFormula (raw calmin calmax : Nat) : Int :=
  if calmax = calmin then 0 else max 0 (min 1000 (exactQuotient raw calmin calmax))

/-- The combined bound of the specification: `on + MaxValue − off`, and `MaxValue` when
`off < on`. -/
def combinedBound (onBound offBound maxValue : Nat) : Nat :=
  if offBound < onBound then maxValue else onBound + maxValue - offBound

/-! ## Concrete configurations -/

/-- An AVR-like platform: 16-bit `int`, at most 31 sensors, `NoEmitterPin` 255. -/
def demoPlatform : Platform := { intBits := 16, MaxSensors := 31, NoEmitterPin := 255 }

/-- Hardware at power-up with the given environment: no call made, clock at 0, allocations
succeed, unwritten memory reads 0. -/
def demoHardware (line : Nat → Nat → Bool) (adc : Nat → Nat → Nat) (cost : Nat → Nat) :
    Hardware :=
  { line := line, adc := adc, cost := cost, heap := fun _ => true, junk := fun _ => 0,
    output := fun _ => false, latch := fun _ => false, calls := 0, now := 0, masked := false,
    log := [] }

/-- A driver with `count` sensors on pins 14, 15, ..., one sample per sensor, no emitter pin,
and the given calibration state. -/
def demoSensors (type : SensorType) (count maxValue : Nat) (initialized : Bool)
    (minOn maxOn minOff maxOff : Buffer) : QTRSensors :=
  { type := type, sensorPins := some (fun i => 14 + i), sensorCount := count,
    maxValue := maxValue, timeout := maxValue, samplesPerSensor := 1,
    calibrationInitializedOn := initialized, calibrationInitializedOff := initialized,
    calibratedMinimumOn := some minOn, calibratedMaximumOn := some maxOn,
    calibratedMinimumOff := some minOff, calibratedMaximumOff := some maxOff,
    oddEmitterPin := 255, evenEmitterPin := 255, emitterPinCount := 0,
    dimmable := false, dimmingLevel := 0, lastPosition := 0 }

/-- Analog hardware whose every conversion gives 500. -/
def flatHardware : Hardware := demoHardware (fun _ _ => true) (fun _ _ => 500) (fun _ => 1)

/-- Four analog channels with the on-context bounds (0, 1000), (100, 110), (1000, 0) and
(510, 500). -/
def mixedSensors : QTRSensors :=
  demoSensors SensorType.Analog 4 1023 true
    (fun i => if i = 0 then 0 else if i = 1 then 100 else if i = 2 then 1000 else 510)
    (fun i => if i = 0 then 1000 else if i = 1 then 110 else if i = 2 then 0 else 500)
    (fun _ => 0) (fun _ => 1000)

/-- The bounds of `mixedSensors`, per channel. -/
def mixedBounds (i : Nat) : Nat × Nat :=
  (if i = 0 then 0 else if i = 1 then 100 else if i = 2 then 1000 else 510,
    if i = 0 then 1000 else if i = 1 then 110 else if i = 2 then 0 else 500)

/-- The raw reading of `mixedSensors` on `flatHardware` in mode `On`. -/
def mixedRaw : Buffer × Hardware :=
  (read demoPlatform mixedSensors flatHardware 8 (fun _ => 0) ReadMode.On).getD
    (fun _ => 0, flatHardware)

/-! ## Runs of calibration passes -/

/-- A run of `k` passes of `calibrateOnOrOff` on an initialized context, from the bounds
`(calibratedMinimum, calibratedMaximum)` and the hardware of `st`.  The result carries, for
every pass in order, the arrays `maxSensorValues` and `minSensorValues` of its batch (the
largest and the smallest of the ten readings of every channel), taken from the sampling loop
`calibrateSample` run on the state the pass starts from. -/
def calibrateRun (P : Platform) (s : QTRSensors) (fuel : Nat) (mode : ReadMode) :
    Nat → Buffer × Buffer × Hardware → Option ((Buffer × Buffer × Hardware) × List (Buffer × Buffer))
  | 0, st => some (st, [])
  | k + 1, st =>
    (calibrateRun P s fuel mode k st).bind fun a =>
    (calibrateSample P s fuel mode
      (a.1.2.2.junk, a.1.2.2.junk, a.1.2.2.junk, a.1.2.2)).bind fun e =>
    (calibrateOnOrOff P s a.1.2.2 fuel (some a.1.1) (some a.1.2.1) true mode).bind fun r =>
      match r.1.1, r.1.2.1 with
      | some mn, some mx => some ((mn, mx, r.2), a.2 ++ [(e.2.1, e.2.2.1)])
      | _, _ => none

/-- Analog hardware whose conversion at the call number `k` gives `500 + k`. -/
def rampHardware : Hardware := demoHardware (fun _ _ => true) (fun k _ => 500 + k) (fun _ => 1)

/-- One analog channel whose two contexts are initialized and hold the initial bounds:
minimum `MaxValue`, maximum 0. -/
def freshSensors : QTRSensors :=
  demoSensors SensorType.Analog 1 1023 true (fun _ => 1023) (fun _ => 0) (fun _ => 1023)
    (fun _ => 0)

/-- Four analog channels whose calibration arrays are allocated, with bounds (0, 1000), but
whose contexts are not initialized: the state after `setSensorPins` on a calibrated object. -/
def staleSensors : QTRSensors :=
  demoSensors SensorType.Analog 4 1023 false (fun _ => 0) (fun _ => 1000) (fun _ => 0)
    (fun _ => 1000)

/-- Four analog channels of an object that was never calibrated: the four arrays are
`nullptr`. -/
def uncalibratedSensors : QTRSensors :=
  { staleSensors with
    calibratedMinimumOn := none, calibratedMaximumOn := none,
    calibratedMinimumOff := none, calibratedMaximumOff := none }

/-- The result of two passes of `freshSensors` on `rampHardware` in mode `Off`. -/
def rampRun : (Buffer × Buffer × Hardware) × List (Buffer × Buffer) :=
  (calibrateRun demoPlatform freshSensors 4 ReadMode.Off 2
    (fun _ => 1023, fun _ => 0, rampHardware)).getD
    ((fun _ => 0, fun _ => 0, rampHardware), [])

/-- Three analog channels with the on-context bounds (500, 900), (100, 500) and the reversed
pair (510, 500). -/
def endpointSensors : QTRSensors :=
  demoSensors SensorType.Analog 3 1023 true
    (fun i => if i = 0 then 500 else if i = 1 then 100 else 510)
    (fun i => if i = 0 then 900 else 500)
    (fun _ => 0) (fun _ => 1000)

/-- The bounds of `endpointSensors`, per channel. -/
def endpointBounds (i : Nat) : Nat × Nat :=
  (if i = 0 then 500 else if i = 1 then 100 else 510, if i = 0 then 900 else 500)

/-- The raw reading of `endpointSensors` on `flatHardware` in mode `On`. -/
def endpointRaw : Buffer × Hardware :=
  (read demoPlatform endpointSensors flatHardware 8 (fun _ => 0) ReadMode.On).getD
    (fun _ => 0, flatHardware)

/-- Hardware on which every call takes 500 microseconds and no line ever reads low. -/
def slowHardware : Hardware := demoHardware (fun _ _ => true) (fun _ _ => 0) (fun _ => 500)

/-- Two RC channels with timeout 1000; minima on/off are 100/150 and 150/100, maxima on/off
are 900/900. -/
def combinedSensors : QTRSensors :=
  demoSensors SensorType.RC 2 1000 true (fun i => if i = 0 then 100 else 150) (fun _ => 900)
    (fun i => if i = 0 then 150 else 100) (fun _ => 900)

/-- The raw reading of `combinedSensors` on `slowHardware` in mode `OnAndOff`. -/
def combinedRaw : Buffer × Hardware :=
  (read demoPlatform combinedSensors slowHardware 4 (fun _ => 0) ReadMode.OnAndOff).getD
    (fun _ => 0, slowHardware)

/-- One RC channel with timeout 40000. -/
def longSensors : QTRSensors :=
  demoSensors SensorType.RC 1 40000 true (fun _ => 0) (fun _ => 40000) (fun _ => 0)
    (fun _ => 40000)

/-- Hardware whose line reads high up to the call number 19 and low from then on, and whose
calls number 7 and 22 take 40000 microseconds, the others 1. -/
def burstHardware : Hardware :=
  demoHardware (fun k _ => decide (k < 20)) (fun _ _ => 0)
    (fun k => if k = 7 ∨ k = 22 then 40000 else 1)

/-- The reading of `longSensors` on `burstHardware` with the emitters on. -/
def burstOn : Buffer × Hardware :=
  (read demoPlatform longSensors burstHardware 4 (fun _ => 0) ReadMode.On).getD
    (fun _ => 0, burstHardware)

/-- The reading of `longSensors` with the emitters off that follows `burstOn`. -/
def burstOff : Buffer × Hardware :=
  (readPrivate demoPlatform longSensors burstOn.2 4 burstOn.2.junk 0 1).getD
    (fun _ => 0, burstHardware)

/-- The weighted sum of the specification: the sum of `value[i] * i * 1000` over the channels
below `n` with `value[i] > 50`. -/
def weightedSum (v : Nat → Nat) (n : Nat) : Nat :=
  ∑ i ∈ (Finset.range n).filter (fun i => 50 < v i), v i * i * 1000

/-- The plain sum of the specification: the sum of `value[i]` over the channels below `n`
with `value[i] > 50`. -/
def plainSum (v : Nat → Nat) (n : Nat) : Nat :=
  ∑ i ∈ (Finset.range n).filter (fun i => 50 < v i), v i

/-- The on-phase reading of `combinedSensors` on `slowHardware`. -/
def slowOn : Buffer × Hardware :=
  (read demoPlatform combinedSensors slowHardware 4 (fun _ => 0) ReadMode.On).getD
    (fun _ => 0, slowHardware)

/-- The off-phase reading of `combinedSensors` that follows `slowOn`. -/
def slowOff : Buffer × Hardware :=
  (readPrivate demoPlatform combinedSensors slowOn.2 4 slowOn.2.junk 0 1).getD
    (fun _ => 0, slowHardware)

/-- Six analog channels, both contexts initialized with bounds (0, 1000). -/
def lineSensors : QTRSensors :=
  demoSensors SensorType.Analog 6 1023 true (fun _ => 0) (fun _ => 1000) (fun _ => 0)
    (fun _ => 1000)

/-- Analog hardware on which the pins 17 and 18 (channels 3 and 4) convert to 1000 and the
others to 0. -/
def lineHardware : Hardware :=
  demoHardware (fun _ _ => true) (fun _ p => if p = 17 ∨ p = 18 then 1000 else 0) (fun _ => 1)

/-- The calibrated reading of `lineSensors` on `lineHardware` in mode `On`. -/
def lineCalibrated : Buffer × Hardware :=
  (readCalibrated demoPlatform lineSensors lineHardware 8 (fun _ => 0) ReadMode.On).getD
    (fun _ => 0, lineHardware)

/-- Analog hardware on which every conversion gives 0. -/
def darkHardware : Hardware := demoHardware (fun _ _ => true) (fun _ _ => 0) (fun _ => 1)

/-- The driver `lineSensors` with the last position 4000. -/
def rightSensors : QTRSensors := { lineSensors with lastPosition := 4000 }

/-- The calibrated reading of `rightSensors` on `darkHardware` in mode `On`. -/
def darkCalibrated : Buffer × Hardware :=
  (readCalibrated demoPlatform rightSensors darkHardware 8 (fun _ => 0) ReadMode.On).getD
    (fun _ => 0, darkHardware)

/-! ## Configuration -/

/-- Source `QTRSensors::setTypeRC()`. -/
def setTypeRC (s : QTRSensors) : QTRSensors :=
  { s with type := SensorType.RC, maxValue := s.timeout }

/-- Source `QTRSensors::setTypeAnalog()`. -/
def setTypeAnalog (s : QTRSensors) : QTRSensors :=
  { s with type := SensorType.Analog, maxValue := 1023 }

/-- Source `QTRSensors::setSensorPins(uint8_t * pins, uint8_t sensorCount)`.  A reallocated
array keeps its contents, a new one holds unwritten memory.  When `realloc` returns a null
pointer for a size of 0 and a pin array was allocated, the library may have freed that array
(`realloc(p, 0)` may free `p` and return null), and the `free(oldSensorPins)` that follows
is then a double free: the behaviour is undefined, `none`. -/
def setSensorPins (P : Platform) (s : QTRSensors) (hw : Hardware) (pins : Buffer)
    (sensorCount : Nat) : Option (QTRSensors × Hardware) :=
  let count : Nat := if P.MaxSensors < sensorCount then P.MaxSensors else sensorCount
  let r := hw.realloc
  if r.1 = false then
    if count = 0 ∧ s.sensorPins.isSome = true then none
    else some ({ s with sensorPins := none }, r.2)
  else
    let newPins : Buffer :=
      forRange (fun i b => Function.update b i (pins i)) count (s.sensorPins.getD hw.junk)
    some ({ s with
        sensorPins := some newPins
        sensorCount := count
        calibrationInitializedOn := false
        calibrationInitializedOff := false }, r.2)

/-- Source `QTRSensors::setTimeout(uint16_t timeout)`. -/
def setTimeout (s : QTRSensors) (timeout : Nat) : QTRSensors :=
  if s.type = SensorType.RC then { s with timeout := timeout, maxValue := timeout }
  else { s with timeout := timeout }

/-- Source `QTRSensors::setSamplesPerSensor(uint8_t samples)`. -/
def setSamplesPerSensor (s : QTRSensors) (samples : Nat) : QTRSensors :=
  { s with samplesPerSensor := if 64 < samples then 64 else samples }

/-- Source `QTRSensors::releaseEmitterPins()`. -/
def releaseEmitterPins (P : Platform) (s : QTRSensors) (hw : Hardware) :
    QTRSensors × Hardware :=
  let h1 : Hardware :=
    if s.oddEmitterPin ≠ P.NoEmitterPin then hw.pinMode s.oddEmitterPin INPUT else hw
  let h2 : Hardware :=
    if s.evenEmitterPin ≠ P.NoEmitterPin then h1.pinMode s.evenEmitterPin INPUT else h1
  ({ s with
      oddEmitterPin := P.NoEmitterPin
      evenEmitterPin := P.NoEmitterPin
      emitterPinCount := 0 }, h2)

/-- Source `QTRSensors::setEmitterPin(uint8_t emitterPin)`. -/
def setEmitterPin (P : Platform) (s : QTRSensors) (hw : Hardware) (emitterPin : Nat) :
    QTRSensors × Hardware :=
  let r := releaseEmitterPins P s hw
  ({ r.1 with oddEmitterPin := emitterPin, emitterPinCount := 1 },
    r.2.pinMode emitterPin OUTPUT)

/-- Source `QTRSensors::setEmitterPins(uint8_t oddEmitterPin, uint8_t evenEmitterPin)`. -/
def setEmitterPins (P : Platform) (s : QTRSensors) (hw : Hardware)
    (oddEmitterPin evenEmitterPin : Nat) : QTRSensors × Hardware :=
  let r := releaseEmitterPins P s hw
  ({ r.1 with
      oddEmitterPin := oddEmitterPin
      evenEmitterPin := evenEmitterPin
      emitterPinCount := 2 },
    (r.2.pinMode oddEmitterPin OUTPUT).pinMode evenEmitterPin OUTPUT)

/-- Source `QTRSensors::setDimmingLevel(uint8_t dimmingLevel)`. -/
def setDimmingLevel (s : QTRSensors) (dimmingLevel : Nat) : QTRSensors :=
  { s with dimmingLevel := if 31 < dimmingLevel then 31 else dimmingLevel }

/-- Source `QTRSensors::resetCalibration()`. -/
def resetCalibration (s : QTRSensors) : QTRSensors :=
  forRange
    (fun i t =>
      { t with
        calibratedMaximumOn := t.calibratedMaximumOn.map fun b => Function.update b i 0
        calibratedMaximumOff := t.calibratedMaximumOff.map fun b => Function.update b i 0
        calibratedMinimumOn := t.calibratedMinimumOn.map fun b => Function.update b i s.maxValue
        calibratedMinimumOff :=
          t.calibratedMinimumOff.map fun b => Function.update b i s.maxValue })
    s.sensorCount s

/-! ## Configuration sequences -/

/-- One call of `setTypeRC`, `setTypeAnalog` or `setTimeout`. -/
inductive ConfigCall
  | setTypeRC
  | setTypeAnalog
  | setTimeout (timeout : Nat)
  deriving DecidableEq, Repr

/-- The effect of one configuration call on the object. -/
def ConfigCall.apply (s : QTRSensors) : ConfigCall → QTRSensors
  | ConfigCall.setTypeRC => QTR.setTypeRC s
  | ConfigCall.setTypeAnalog => QTR.setTypeAnalog s
  | ConfigCall.setTimeout t => QTR.setTimeout s t

/-- A sequence of configuration calls, performed from left to right. -/
def configure (s : QTRSensors) (calls : List ConfigCall) : QTRSensors :=
  calls.foldl ConfigCall.apply s

/-- Whether the call selects the sensor type. -/
def ConfigCall.selectsType : ConfigCall → Bool
  | ConfigCall.setTypeRC => true
  | ConfigCall.setTypeAnalog => true
  | ConfigCall.setTimeout _ => false

/-- Specification side: the argument of the last `setTimeout` of the sequence, or `initial`
when there is none. -/
def lastTimeout (initial : Nat) (calls : List ConfigCall) : Nat :=
  calls.foldl (fun t c => match c with
    | ConfigCall.setTimeout v => v
    | _ => t) initial

/-- Specification side: the type selected by the last type selection of the sequence, or
`initial` when there is none. -/
def lastType (initial : SensorType) (calls : List ConfigCall) : SensorType :=
  calls.foldl (fun t c => match c with
    | ConfigCall.setTypeRC => SensorType.RC
    | ConfigCall.setTypeAnalog => SensorType.Analog
    | ConfigCall.setTimeout _ => t) initial

/-- The relation between type, timeout and `MaxValue` that the three setters maintain. -/
def MaxValueTracks (s : QTRSensors) : Prop :=
  (s.type = SensorType.RC → s.maxValue = s.timeout) ∧
    (s.type = SensorType.Analog → s.maxValue = 1023) ∧ s.type ≠ SensorType.Undefined

/-! ## Demonstration configurations: setters and calibration passes -/

/-- Hardware on which no allocation succeeds. -/
def fullHardware : Hardware := { flatHardware with heap := fun _ => false }

/-- The arrays of the sampling loop of one calibration pass of `freshSensors` on
`rampHardware` in mode `On`: the ten readings are 500, 501, ..., 509. -/
def rampSample : Buffer × Buffer × Buffer × Hardware :=
  (calibrateSample demoPlatform freshSensors 8 ReadMode.On
    (rampHardware.junk, rampHardware.junk, rampHardware.junk, rampHardware)).getD
    (fun _ => 0, fun _ => 0, fun _ => 0, rampHardware)

/-! ## The readings of a calibration batch -/

/-- The first `j` reads of a calibration batch, from the local array `sensorValues` and the
hardware of `st`: the buffers read, in order, then the last buffer and the hardware. -/
def calibrateReadings (P : Platform) (s : QTRSensors) (fuel : Nat) (mode : ReadMode) :
    Nat → Buffer × Hardware → Option (List Buffer × Buffer × Hardware)
  | 0, st => some ([], st)
  | j + 1, st =>
    (calibrateReadings P s fuel mode j st).bind fun a =>
      (read P s a.2.2 fuel a.2.1 mode).map fun r => (a.1 ++ [r.1], r.1, r.2)

/-- The value `v` is the largest of the readings `rs` of channel `k`. -/
def IsLargest (rs : List Buffer) (k v : Nat) : Prop :=
  (∃ r, r ∈ rs ∧ v = r k) ∧ ∀ r, r ∈ rs → r k ≤ v

/-- The value `v` is the smallest of the readings `rs` of channel `k`. -/
def IsSmallest (rs : List Buffer) (k v : Nat) : Prop :=
  (∃ r, r ∈ rs ∧ v = r k) ∧ ∀ r, r ∈ rs → v ≤ r k

/-- The ten readings of one calibration pass of `freshSensors` on `rampHardware` in mode
`On`: 500, 501, ..., 509 on channel 0. -/
def rampReadings : List Buffer × Buffer × Hardware :=
  (calibrateReadings demoPlatform freshSensors 8 ReadMode.On 10
    (rampHardware.junk, rampHardware)).getD ([], fun _ => 0, rampHardware)

/-! ## Strided acquisition: slots, sampling instants and conversions -/

/-- Slot `k` is one of `start`, `start + step`, `start + 2 * step`, ... below `count`. -/
def Strided (count start step k : Nat) : Prop :=
  k < count ∧ start ≤ k ∧ (k - start) % step = 0

instance decidableStrided (count start step k : Nat) :
    Decidable (Strided count start step k) := by
  unfold Strided
  infer_instance

/-- The hardware after `j` passes of a strided loop whose body acts on it by `nxt`, from the
index `i`. -/
def strideHardware (nxt : Nat → Hardware → Hardware) (step : Nat) :
    Nat → Nat → Hardware → Hardware
  | 0, _, h => h
  | j + 1, i, h => strideHardware nxt step j (i + step) (nxt i h)

/-- The sampling instants of the polling loop of the RC branch, from the elapsed time `time`
and the hardware: for every pass of the loop the elapsed time it takes and the level it reads
on the line of every targeted channel (`HIGH` for the others). -/
def rcSamples (s : QTRSensors) (pins : Buffer) (startTime start step fuel0 : Nat) :
    Nat → Nat → Hardware → Option (List (Nat × (Nat → Bool)) × Hardware)
  | 0, _, _ => none
  | fuel + 1, time, hw =>
    if time < s.maxValue then
      let m := hw.noInterrupts.micros
      let time1 := wrap16 (wrap32 (m.1 + 4294967296 - startTime))
      (forStride s.sensorCount step
        (fun i (a : (Nat → Bool) × Hardware) =>
          (Function.update a.1 i (a.2.digitalRead (pins i)).1, (a.2.digitalRead (pins i)).2))
        fuel0 start (fun _ => HIGH, m.2)).bind
        fun a =>
          (rcSamples s pins startTime start step fuel0 fuel time1 a.2.interrupts).map
            fun r => ((time1, a.1) :: r.1, r.2)
    else some ([], hw)

/-- The sampling instants of one RC acquisition: the hardware goes through the charging of
the lines and their switch to inputs, then through the polling loop. -/
def rcTrace (s : QTRSensors) (pins : Buffer) (hw : Hardware) (fuel start step : Nat) :
    Option (List (Nat × (Nat → Bool)) × Hardware) :=
  (forStride s.sensorCount step
    (fun i h => (h.pinMode (pins i) OUTPUT).digitalWrite (pins i) HIGH) fuel start hw).bind
    fun h1 =>
      (forStride s.sensorCount step (fun i h => h.pinMode (pins i) INPUT) fuel start
        ((h1.delayMicroseconds 10).noInterrupts).micros.2).bind fun h2 =>
        rcSamples s pins ((h1.delayMicroseconds 10).noInterrupts).micros.1 start step fuel fuel 0
          h2.interrupts

/-- The value the polling loop leaves in channel `k` that held `v`, after the sampling
instants `trace`: an instant at which the line reads low and whose time is below the value
held replaces it. -/
def decayFold (k : Nat) (trace : List (Nat × (Nat → Bool))) (v : Nat) : Nat :=
  trace.foldl (fun v smp => if smp.2 k = LOW ∧ smp.1 < v then smp.1 else v) v

/-- The decay time of the specification: the elapsed time of the first sampling instant at
which the line of channel `k` reads low with the elapsed time below `maxValue`, and
`maxValue` when there is none. -/
def decayTime (maxValue k : Nat) : List (Nat × (Nat → Bool)) → Nat
  | [] => maxValue
  | smp :: rest =>
    if smp.2 k = LOW ∧ smp.1 < maxValue then smp.1 else decayTime maxValue k rest

/-- The conversions of the first `j` sampling rounds of the analog branch, from the hardware:
for every round the conversion read for every targeted channel (0 for the others). -/
def analogSamples (s : QTRSensors) (pins : Buffer) (start step fuel0 : Nat) :
    Nat → Hardware → Option (List Buffer × Hardware)
  | 0, hw => some ([], hw)
  | j + 1, hw =>
    (analogSamples s pins start step fuel0 j hw).bind fun a =>
      (forStride s.sensorCount step
        (fun i (c : Buffer × Hardware) =>
          (Function.update c.1 i (c.2.analogRead (pins i)).1, (c.2.analogRead (pins i)).2))
        fuel0 start (fun _ => 0, a.2)).map fun c => (a.1 ++ [c.1], c.2)

/-- The conversions of one analog acquisition: the rounds of `analogSamples` between the
loop that resets the values and the loop that averages them, neither of which touches the
hardware. -/
def analogTrace (s : QTRSensors) (pins : Buffer) (hw : Hardware) (fuel start step : Nat) :
    Option (List Buffer × Hardware) :=
  (forStride s.sensorCount step (fun _ (h : Hardware) => h) fuel start hw).bind fun h0 =>
    (analogSamples s pins start step fuel s.samplesPerSensor h0).bind fun r =>
      if s.samplesPerSensor = 0 ∧ start < s.sensorCount then none
      else
        (forStride s.sensorCount step (fun _ (h : Hardware) => h) fuel start r.2).map
          fun h3 => (r.1, h3)

/-- The `uint16_t` accumulator of channel `k` that held `v`, after the rounds `rounds`. -/
def accumulate (k : Nat) (rounds : List Buffer) (v : Nat) : Nat :=
  rounds.foldl (fun v c => wrap16 (v + c k)) v

/-- The last loop of the analog branch on an accumulator:
`(acc + (samples >> 1)) / samples`, stored as `uint16_t`. -/
def roundedAverage (P : Platform) (samples acc : Nat) : Nat :=
  wrap16 ((if P.intBits ≤ 16 then wrap16 (acc + samples / 2) else acc + samples / 2) / samples)

/-- Six analog channels of which only two are in use. -/
def pairSensors : QTRSensors := { lineSensors with sensorCount := 2 }

/-- Six analog channels whose pin array is not allocated. -/
def unpinnedSensors : QTRSensors := { lineSensors with sensorPins := none }

/-- The acquisition of the odd channels of `lineSensors` on `flatHardware`, into a buffer
that holds 7 everywhere. -/
def strideRaw : Buffer × Hardware :=
  (readPrivate demoPlatform lineSensors flatHardware 8 (fun _ => 7) 1 2).getD
    (fun _ => 0, flatHardware)

/-! ## Demonstration configurations: decay times and averages -/

/-- RC hardware on which every call takes 50 microseconds, the line of pin 14 reads low from
the call number 16 on, and the line of pin 15 never does. -/
def decayHardware : Hardware :=
  demoHardware (fun k p => decide (p = 15 ∨ k < 16)) (fun _ _ => 0) (fun _ => 50)

/-- The sampling instants of the acquisition of `combinedSensors` on `decayHardware`: the
elapsed times 250, 500, 750 and 1000. -/
def decayTrace : List (Nat × (Nat → Bool)) × Hardware :=
  (rcTrace combinedSensors (fun i => 14 + i) decayHardware 8 0 1).getD ([], decayHardware)

/-- Six analog channels read four times per acquisition. -/
def averageSensors : QTRSensors := setSamplesPerSensor lineSensors 4

/-- The conversions of the acquisition of the even channels of `averageSensors` on
`rampHardware`: four rounds of three conversions, 500 to 511. -/
def averageTrace : List Buffer × Hardware :=
  (analogTrace averageSensors (fun i => 14 + i) rampHardware 8 0 2).getD ([], rampHardware)

/-! ## Emitters: pulse trains and banks -/

/-- The events of `d` dimming pulses on a pin. -/
def pulseTrain (pin : Nat) : Nat → List HwEvent
  | 0 => []
  | d + 1 =>
    pulseTrain pin d ++
      [HwEvent.delayMicroseconds 1, HwEvent.digitalWrite pin LOW, HwEvent.delayMicroseconds 1,
        HwEvent.digitalWrite pin HIGH]

/-- The odd emitter pin is driven by a call with this selection: the selection reaches the
odd bank and the pin is configured. -/
def oddTargeted (P : Platform) (s : QTRSensors) (emitters : Emitters) : Prop :=
  (emitters = Emitters.All ∨ (s.emitterPinCount = 2 ∧ emitters = Emitters.Odd)) ∧
    s.oddEmitterPin ≠ P.NoEmitterPin

/-- The even emitter pin is driven by a call with this selection. -/
def evenTargeted (P : Platform) (s : QTRSensors) (emitters : Emitters) : Prop :=
  (s.emitterPinCount = 2 ∧ (emitters = Emitters.All ∨ emitters = Emitters.Even)) ∧
    s.evenEmitterPin ≠ P.NoEmitterPin

/-- The pin reads `level` whenever it is read: as an output it holds that level, as an input
its line carries it at every call. -/
def ReadsLevel (hw : Hardware) (pin : Nat) (level : Bool) : Prop :=
  ∀ k, (if hw.output pin then hw.latch pin else hw.line k pin) = level

instance decidableOddTargeted (P : Platform) (s : QTRSensors) (e : Emitters) :
    Decidable (oddTargeted P s e) := by
  unfold oddTargeted
  infer_instance

instance decidableEvenTargeted (P : Platform) (s : QTRSensors) (e : Emitters) :
    Decidable (evenTargeted P s e) := by
  unfold evenTargeted
  infer_instance

/-- One bank of `emittersOff`: the pin is read and, when it reads high, written low. -/
def emittersOffBank (hw : Hardware) (pin : Nat) (changed : Bool) : Bool × Hardware :=
  let d := hw.digitalRead pin
  if d.1 = HIGH then (true, d.2.digitalWrite pin LOW) else (changed, d.2)

/-- The two banks of `emittersOff` in turn: whether a pin changed, and the hardware. -/
def emittersOffBanks (P : Platform) (s : QTRSensors) (hw : Hardware) (emitters : Emitters) :
    Bool × Hardware :=
  let r1 : Bool × Hardware :=
    if oddTargeted P s emitters then emittersOffBank hw s.oddEmitterPin false else (false, hw)
  if evenTargeted P s emitters then emittersOffBank r1.2 s.evenEmitterPin r1.1 else r1

/-- One bank of `emittersOn`: dimmable emitters are always turned on again, others only when
the pin reads low. -/
def emittersOnBank (s : QTRSensors) (hw : Hardware) (pin : Nat) (changed : Bool)
    (start : Nat) : Bool × Nat × Hardware :=
  if s.dimmable then
    let e := emittersOnWithPin s hw pin
    (true, e.1, e.2)
  else
    let d := hw.digitalRead pin
    if d.1 = LOW then
      let e := emittersOnWithPin s d.2 pin
      (true, e.1, e.2)
    else (changed, start, d.2)

/-- The two banks of `emittersOn` in turn: whether a pin changed, the time it was set high,
and the hardware. -/
def emittersOnBanks (P : Platform) (s : QTRSensors) (hw : Hardware) (emitters : Emitters) :
    Bool × Nat × Hardware :=
  let r1 : Bool × Nat × Hardware :=
    if oddTargeted P s emitters then emittersOnBank s hw s.oddEmitterPin false 0
    else (false, 0, hw)
  if evenTargeted P s emitters then emittersOnBank s r1.2.2 s.evenEmitterPin r1.1 r1.2.1
  else r1

/-- Six analog channels with dimmable emitters. -/
def dimmableSensors : QTRSensors := { lineSensors with dimmable := true }

/-- The object and the hardware after `setEmitterPins(3, 4)` on `lineSensors`, whose
emitters are not dimmable: both pins are outputs and drive low. -/
def emitterConfig : QTRSensors × Hardware :=
  setEmitterPins demoPlatform lineSensors flatHardware 3 4

/-- The hardware of `emitterConfig` once both emitter pins were written high. -/
def litHardware : Hardware := (emitterConfig.2.digitalWrite 3 HIGH).digitalWrite 4 HIGH

/-! ## Runs of position estimates -/

/-- The value `readLinePrivate` returns when the line is not seen, from the branch
`if (!onLine)`: 0 when the last position is left of the center, the largest position
otherwise, with the comparison and the products in the types of C. -/
def lostLineValue (P : Platform) (s : QTRSensors) : Int :=
  if ltUInt16Int P s.lastPosition
      (Int.tdiv (toSigned P.intBits (((s.sensorCount : Int) - 1) * 1000)) 2) then 0
  else toSigned P.intBits (((s.sensorCount : Int) - 1) * 1000)

/-- The first `k` calibrated reads of a run of position estimates during which the object
does not change, from the buffer and the hardware of `st`: the calibrated buffers, in
order, then the last buffer and the hardware. -/
def readCalibratedRun (P : Platform) (s : QTRSensors) (fuel : Nat) (mode : ReadMode) :
    Nat → Buffer × Hardware → Option (List Buffer × Buffer × Hardware)
  | 0, st => some ([], st)
  | k + 1, st =>
    (readCalibratedRun P s fuel mode k st).bind fun a =>
      (readCalibrated P s a.2.2 fuel a.2.1 mode).map fun r => (a.1 ++ [r.1], r.1, r.2)

/-- A run of `k` consecutive calls of `readLinePrivate` on the same buffer: the values
returned, in order, then the object, the buffer and the hardware. -/
def readLineRun (P : Platform) (fuel : Nat) (mode : ReadMode) (invertReadings : Bool) :
    Nat → QTRSensors × Buffer × Hardware →
      Option (List (Option Int) × QTRSensors × Buffer × Hardware)
  | 0, st => some ([], st)
  | k + 1, st =>
    (readLineRun P fuel mode invertReadings k st).bind fun a =>
      (readLinePrivate P a.2.1 a.2.2.2 fuel a.2.2.1 mode invertReadings).map fun r =>
        (a.1 ++ [r.1], r.2)

/-- Three calibrated reads of `rightSensors` on `darkHardware` in mode `On`. -/
def darkRun : List Buffer × Buffer × Hardware :=
  (readCalibratedRun demoPlatform rightSensors 8 ReadMode.On 3 (fun _ => 0, darkHardware)).getD
    ([], fun _ => 0, darkHardware)

/-! ## Verification: fixed-width arithmetic and loops -/

theorem eq_some_getD {α β : Type} (o : Option (α × β)) (d : α × β) (h : o.isSome = true) :
    o = some ((o.getD d).1, (o.getD d).2) := by
  cases o with
  | none => exact absurd h Bool.false_ne_true
  | some a => rfl

theorem toSigned16_of_range (x : Int) (h1 : -32768 ≤ x) (h2 : x ≤ 32767) : toSigned 16 x = x := by
  unfold toSigned
  norm_num
  omega

theorem toSigned32_of_range (x : Int) (h1 : -2147483648 ≤ x) (h2 : x ≤ 2147483647) :
    toSigned 32 x = x := by
  unfold toSigned
  norm_num
  omega

theorem toUnsigned16_of_range (x : Int) (h1 : 0 ≤ x) (h2 : x < 65536) :
    (toUnsigned 16 x : Int) = x := by
  unfold toUnsigned
  norm_num
  omega

theorem calibratedValue_eq (raw calmin calmax : Nat) (hraw : raw < 65536)
    (hmin : calmin < 65536) (hmax : calmax < 65536) (hlt : calmin < calmax)
    (hlo : -32768 ≤ exactQuotient raw calmin calmax)
    (hhi : exactQuotient raw calmin calmax ≤ 32767) :
    (calibratedValue raw calmin calmax : Int) = clampFormula raw calmin calmax := by
  have hden : wrap16 (calmax + 65536 - calmin) = calmax - calmin := by
    unfold wrap16; omega
  have hden0 : calmax - calmin ≠ 0 := by omega
  have hcast : ((calmax - calmin : Nat) : Int) = (calmax : Int) - calmin := by omega
  have hprod : toSigned 32 (((raw : Int) - calmin) * 1000) = ((raw : Int) - calmin) * 1000 := by
    apply toSigned32_of_range <;> omega
  have hne : ¬ (calmax = calmin) := by omega
  unfold exactQuotient at hlo hhi
  unfold calibratedValue clampFormula exactQuotient
  simp only [hden, hprod, hcast, ne_eq, hden0, not_false_eq_true, if_true]
  generalize Int.tdiv (((raw : Int) - calmin) * 1000) ((calmax : Int) - calmin) = q at hlo hhi ⊢
  rw [toSigned16_of_range q hlo hhi, if_neg hne, toUnsigned16_of_range]
  · split_ifs <;> omega
  · split_ifs <;> omega
  · split_ifs <;> omega

theorem calibratedValue_at_min (c calmax : Nat) : calibratedValue c c calmax = 0 := by
  unfold calibratedValue
  have h0 : toSigned 32 (((c : Int) - (c : Int)) * 1000) = 0 := by
    rw [sub_self, zero_mul]
    exact toSigned32_of_range 0 (by norm_num) (by norm_num)
  have h1 : toSigned 16 0 = 0 := toSigned16_of_range 0 (by norm_num) (by norm_num)
  simp only [h0, Int.zero_tdiv, h1, ite_self]
  simp [toUnsigned]

theorem calibratedValue_at_max (calmin calmax : Nat) (hmin : calmin < 65536)
    (hmax : calmax < 65536) (hlt : calmin < calmax) :
    calibratedValue calmax calmin calmax = 1000 := by
  have hq : exactQuotient calmax calmin calmax = 1000 := by
    unfold exactQuotient
    have hpos : ((calmax : Int) - (calmin : Int)) ≠ 0 := by omega
    rw [mul_comm, Int.mul_tdiv_cancel _ hpos]
  have h := calibratedValue_eq calmax calmin calmax hmax hmin hmax hlt (by rw [hq]; norm_num)
    (by rw [hq]; norm_num)
  have hne : ¬ (calmax = calmin) := by omega
  unfold clampFormula at h
  rw [if_neg hne, hq] at h
  norm_num at h
  exact_mod_cast h

theorem calibratedValue_degenerate (raw c : Nat) : calibratedValue raw c c = 0 := by
  have hden : wrap16 (c + 65536 - c) = 0 := by unfold wrap16; omega
  unfold calibratedValue
  rw [hden]
  simp [toUnsigned]

theorem calibratedValue_le (raw calmin calmax : Nat) : calibratedValue raw calmin calmax ≤ 1000 := by
  unfold calibratedValue
  generalize wrap16 (calmax + 65536 - calmin) = d
  generalize toSigned 16 (Int.tdiv (toSigned 32 (((raw : Int) - (calmin : Int)) * 1000)) (d : Int)) = q
  have key : ∀ v : Int, toUnsigned 16 (if v < 0 then 0 else if 1000 < v then 1000 else v) ≤ 1000 := by
    intro v
    unfold toUnsigned
    norm_num
    split_ifs <;> omega
  exact key _

theorem forRange_update_apply (g : Nat → Nat → Nat) (n : Nat) (b : Buffer) :
    ∀ k, forRange (fun i c => Function.update c i (g i (c i))) n b k
      = if k < n then g k (b k) else b k := by
  induction n with
  | zero => intro k; simp [forRange]
  | succ n ih =>
    intro k
    have hn := ih n
    simp only [lt_irrefl, if_false] at hn
    simp only [forRange]
    by_cases hk : k = n
    · subst hk
      simp [hn]
    · rw [Function.update_noteq hk, ih k]
      by_cases h1 : k < n
      · rw [if_pos h1, if_pos (Nat.lt_succ_of_lt h1)]
      · have h2 : ¬ k < n + 1 := fun h =>
          (Nat.lt_succ_iff_lt_or_eq.mp h).elim h1 hk
        rw [if_neg h1, if_neg h2]

theorem forRangeM_update_eq {α : Type} (sel : Nat → Option α) (g : Nat → α → Nat → Nat)
    (c : Nat → α) (n : Nat) (b : Buffer) (h : ∀ k, k < n → sel k = some (c k)) :
    forRangeM (fun i d => (sel i).map fun a => Function.update d i (g i a (d i))) n b
      = some (forRange (fun i d => Function.update d i (g i (c i) (d i))) n b) := by
  induction n with
  | zero => simp [forRangeM, forRange]
  | succ n ih =>
    have h1 := ih (fun k hk => h k (Nat.lt_succ_of_lt hk))
    simp only [forRangeM, forRange, h1, Option.some_bind, h n (Nat.lt_succ_self n), Option.map_some']

theorem readCalibrated_of_read (P : Platform) (s : QTRSensors) (hw : Hardware) (fuel : Nat)
    (sensorValues : Buffer) (mode : ReadMode) (raw : Buffer) (hw1 : Hardware)
    (bounds : Nat → Nat × Nat)
    (hmode : mode ≠ ReadMode.Manual)
    (hon : mode = ReadMode.On ∨ mode = ReadMode.OnAndOff ∨ mode = ReadMode.OddEvenAndOff →
      s.calibrationInitializedOn = true)
    (hoff : mode = ReadMode.Off ∨ mode = ReadMode.OnAndOff ∨ mode = ReadMode.OddEvenAndOff →
      s.calibrationInitializedOff = true)
    (hread : read P s hw fuel sensorValues mode = some (raw, hw1))
    (hsel : ∀ i, i < s.sensorCount → selectCalibration s mode i = some (bounds i)) :
    readCalibrated P s hw fuel sensorValues mode
      = some (fun i => if i < s.sensorCount
          then calibratedValue (raw i) (bounds i).1 (bounds i).2 else raw i, hw1) := by
  have h1 : ¬ ((mode = ReadMode.On ∨ mode = ReadMode.OnAndOff ∨ mode = ReadMode.OddEvenAndOff) ∧
      s.calibrationInitializedOn = false) := by
    rintro ⟨hm, hf⟩
    rw [hon hm] at hf
    exact Bool.noConfusion hf
  have h2 : ¬ ((mode = ReadMode.Off ∨ mode = ReadMode.OnAndOff ∨ mode = ReadMode.OddEvenAndOff) ∧
      s.calibrationInitializedOff = false) := by
    rintro ⟨hm, hf⟩
    rw [hoff hm] at hf
    exact Bool.noConfusion hf
  unfold readCalibrated
  rw [if_neg hmode, if_neg h1, if_neg h2, hread]
  simp only [Option.some_bind]
  rw [forRangeM_update_eq (selectCalibration s mode)
    (fun _ a v => calibratedValue v a.1 a.2) bounds s.sensorCount raw hsel]
  simp only [Option.map_some']
  congr 2
  funext i
  exact forRange_update_apply (fun i v => calibratedValue v (bounds i).1 (bounds i).2)
    s.sensorCount raw i


/-! ## Verification: normalization (`readCalibrated`) -/

/-- C1, as stated, fails on the code: on an analog channel that reads 500 with bounds
(100, 110) the exact quotient is 40000 and the specification's clamp gives 1000, while the
code narrows the quotient to `int16_t` and writes 0; with the reversed bounds (1000, 0) the
specification's formula gives 500 while the code, whose denominator is a `uint16_t`,
writes 0. -/
theorem readCalibrated_clamp_counterexample :
    (read demoPlatform mixedSensors flatHardware 8 (fun _ => 0) ReadMode.On).map
        (fun a => [a.1 1, a.1 2]) = some [500, 500] ∧
      selectCalibration mixedSensors ReadMode.On 1 = some (100, 110) ∧
      selectCalibration mixedSensors ReadMode.On 2 = some (1000, 0) ∧
      (readCalibrated demoPlatform mixedSensors flatHardware 8 (fun _ => 0) ReadMode.On).map
        (fun a => [a.1 1, a.1 2]) = some [0, 0] ∧
      clampFormula 500 100 110 = 1000 ∧ clampFormula 500 1000 0 = 500 := by
  decide

/-- C1 (amended): when the mode is not `Manual`, the contexts the guards test are
initialized, the read returns `raw` and the selected bounds of channel `i` are
`(calmin, calmax)`, all 16-bit, then `readCalibrated` returns and writes for every channel:
0 when `calmax = calmin`, and `clamp(0, 1000, (raw − calmin) × 1000 / (calmax − calmin))`
when `calmin < calmax` and that exact quotient lies in the signed 16-bit range. -/
theorem readCalibrated_clamp (P : Platform) (s : QTRSensors) (hw : Hardware) (fuel : Nat)
    (sensorValues : Buffer) (mode : ReadMode) (raw : Buffer) (hw1 : Hardware)
    (bounds : Nat → Nat × Nat)
    (hmode : mode ≠ ReadMode.Manual)
    (hon : mode = ReadMode.On ∨ mode = ReadMode.OnAndOff ∨ mode = ReadMode.OddEvenAndOff →
      s.calibrationInitializedOn = true)
    (hoff : mode = ReadMode.Off ∨ mode = ReadMode.OnAndOff ∨ mode = ReadMode.OddEvenAndOff →
      s.calibrationInitializedOff = true)
    (hread : read P s hw fuel sensorValues mode = some (raw, hw1))
    (hsel : ∀ i, i < s.sensorCount → selectCalibration s mode i = some (bounds i))
    (hraw : ∀ i, i < s.sensorCount → raw i < 65536)
    (hbounds : ∀ i, i < s.sensorCount → (bounds i).1 < 65536 ∧ (bounds i).2 < 65536) :
    ∃ cal, readCalibrated P s hw fuel sensorValues mode = some (cal, hw1) ∧
      ∀ i, i < s.sensorCount →
        ((bounds i).2 = (bounds i).1 → cal i = 0) ∧
        ((bounds i).1 < (bounds i).2 →
          -32768 ≤ exactQuotient (raw i) (bounds i).1 (bounds i).2 →
          exactQuotient (raw i) (bounds i).1 (bounds i).2 ≤ 32767 →
          (cal i : Int) = clampFormula (raw i) (bounds i).1 (bounds i).2) := by
  refine ⟨_, readCalibrated_of_read P s hw fuel sensorValues mode raw hw1 bounds hmode hon hoff
    hread hsel, ?_⟩
  intro i hi
  simp only [if_pos hi]
  constructor
  · intro heq
    rw [heq]
    exact calibratedValue_degenerate _ _
  · intro hlt hlo hhi
    exact calibratedValue_eq _ _ _ (hraw i hi) (hbounds i hi).1 (hbounds i hi).2 hlt hlo hhi

/-- C1 (amended), on four analog channels that read 500: the call returns, and the channel
with bounds (0, 1000) holds 500. -/
theorem readCalibrated_clamp_witness :
    ∃ cal, readCalibrated demoPlatform mixedSensors flatHardware 8 (fun _ => 0) ReadMode.On
        = some (cal, mixedRaw.2) ∧
      ∀ i, i < mixedSensors.sensorCount →
        ((mixedBounds i).2 = (mixedBounds i).1 → cal i = 0) ∧
        ((mixedBounds i).1 < (mixedBounds i).2 →
          -32768 ≤ exactQuotient (mixedRaw.1 i) (mixedBounds i).1 (mixedBounds i).2 →
          exactQuotient (mixedRaw.1 i) (mixedBounds i).1 (mixedBounds i).2 ≤ 32767 →
          (cal i : Int) = clampFormula (mixedRaw.1 i) (mixedBounds i).1 (mixedBounds i).2) :=
  readCalibrated_clamp demoPlatform mixedSensors flatHardware 8 (fun _ => 0) ReadMode.On
    mixedRaw.1 mixedRaw.2 mixedBounds (by decide) (by decide) (by decide)
    (eq_some_getD _ _ (by decide)) (by decide) (by decide) (by decide)

/-- Where a guard of `readCalibrated` fires, the call returns at once: the buffer and the
hardware are untouched. -/
theorem readCalibrated_guarded (P : Platform) (s : QTRSensors) (hw : Hardware) (fuel : Nat)
    (sensorValues : Buffer) (mode : ReadMode)
    (h : mode = ReadMode.Manual ∨
      ((mode = ReadMode.On ∨ mode = ReadMode.OnAndOff ∨ mode = ReadMode.OddEvenAndOff) ∧
        s.calibrationInitializedOn = false) ∨
      ((mode = ReadMode.Off ∨ mode = ReadMode.OnAndOff ∨ mode = ReadMode.OddEvenAndOff) ∧
        s.calibrationInitializedOff = false)) :
    readCalibrated P s hw fuel sensorValues mode = some (sensorValues, hw) := by
  unfold readCalibrated
  rcases h with h | h | h
  · rw [if_pos h]
  · split_ifs <;> rfl
  · split_ifs <;> rfl

/-- C2, the code at the failing input: in mode `OddEven` with the on-context not
initialized, `readCalibrated` is no no-op.  With the arrays still allocated it makes six
hardware calls and overwrites the four slots of the buffer; on a never calibrated object it
reads through a null array, which has no defined result.  In mode `On` the same object
leaves buffer and hardware alone. -/
theorem readCalibrated_OddEven_uninitialized :
    staleSensors.calibrationInitializedOn = false ∧
      (readCalibrated demoPlatform staleSensors flatHardware 8 (fun _ => 7) ReadMode.OddEven).map
        (fun a => ([a.1 0, a.1 1, a.1 2, a.1 3], a.2.calls)) = some ([500, 500, 500, 500], 6) ∧
      (readCalibrated demoPlatform uncalibratedSensors flatHardware 8 (fun _ => 7)
        ReadMode.OddEven).isSome = false ∧
      (readCalibrated demoPlatform staleSensors flatHardware 8 (fun _ => 7) ReadMode.On).map
        (fun a => ([a.1 0, a.1 1, a.1 2, a.1 3], a.2.calls)) = some ([7, 7, 7, 7], 0) := by
  decide

/-! ## Verification: calibration (`calibrateOnOrOff`) -/

theorem calibrateRecord_apply (s : QTRSensors) (mx mn : Buffer) (cal : Buffer × Buffer) :
    ∀ k,
      (calibrateRecord s mx mn cal).1 k
        = (if k < s.sensorCount then (if mx k < cal.1 k then mx k else cal.1 k) else cal.1 k) ∧
      (calibrateRecord s mx mn cal).2 k
        = (if k < s.sensorCount then (if cal.2 k < mn k then mn k else cal.2 k) else cal.2 k) := by
  unfold calibrateRecord
  induction s.sensorCount with
  | zero => intro k; simp [forRange]
  | succ n ih =>
    intro k
    have hn := ih n
    simp only [lt_irrefl, if_false] at hn
    simp only [forRange]
    by_cases hk : k = n
    · subst hk
      rw [hn.1, hn.2]
      constructor
      · split_ifs <;> simp_all
      · split_ifs <;> simp_all
    · have h2 : k < n + 1 ↔ k < n := by
        constructor
        · intro h
          exact (Nat.lt_succ_iff_lt_or_eq.mp h).elim id (fun h3 => absurd h3 hk)
        · exact Nat.lt_succ_of_lt
      simp only [h2]
      rw [← (ih k).1, ← (ih k).2]
      constructor
      · split_ifs
        · rw [Function.update_noteq hk]
        · rfl
      · split_ifs
        · rw [Function.update_noteq hk]
        · rfl

theorem calibrateOnOrOff_initialized (P : Platform) (s : QTRSensors) (hw : Hardware)
    (fuel : Nat) (cmin cmax : Buffer) (mode : ReadMode) :
    calibrateOnOrOff P s hw fuel (some cmin) (some cmax) true mode
      = (calibrateSample P s fuel mode (hw.junk, hw.junk, hw.junk, hw)).bind fun a =>
          some ((some (calibrateRecord s a.2.1 a.2.2.1 (cmin, cmax)).1,
            some (calibrateRecord s a.2.1 a.2.2.1 (cmin, cmax)).2, true), a.2.2.2) := by
  simp [calibrateOnOrOff]


theorem calibrateRun_succ (P : Platform) (s : QTRSensors) (fuel : Nat) (mode : ReadMode)
    (k : Nat) (st : Buffer × Buffer × Hardware)
    (res : (Buffer × Buffer × Hardware) × List (Buffer × Buffer))
    (h : calibrateRun P s fuel mode (k + 1) st = some res) :
    ∃ a e, calibrateRun P s fuel mode k st = some a ∧
      calibrateSample P s fuel mode (a.1.2.2.junk, a.1.2.2.junk, a.1.2.2.junk, a.1.2.2) = some e ∧
      res = (((calibrateRecord s e.2.1 e.2.2.1 (a.1.1, a.1.2.1)).1,
        (calibrateRecord s e.2.1 e.2.2.1 (a.1.1, a.1.2.1)).2, e.2.2.2),
        a.2 ++ [(e.2.1, e.2.2.1)]) := by
  simp only [calibrateRun, Option.bind_eq_some] at h
  obtain ⟨a, ha, e, he, r, hr, hres⟩ := h
  refine ⟨a, e, ha, he, ?_⟩
  rw [calibrateOnOrOff_initialized, he] at hr
  simp only [Option.some_bind, Option.some.injEq] at hr
  subst hr
  simp only [Option.some.injEq] at hres
  exact hres.symm

theorem calibrateRun_bounds (P : Platform) (s : QTRSensors) (fuel : Nat) (mode : ReadMode)
    (k : Nat) (st : Buffer × Buffer × Hardware) :
    ∀ res, calibrateRun P s fuel mode k st = some res →
      res.2.length = k ∧ ∀ i, i < s.sensorCount →
        (∀ e, e ∈ res.2 → res.1.1 i ≤ e.1 i) ∧
        (res.1.1 i = st.1 i ∨ ∃ e, e ∈ res.2 ∧ res.1.1 i = e.1 i) ∧
        (∀ e, e ∈ res.2 → e.2 i ≤ res.1.2.1 i) ∧
        (res.1.2.1 i = st.2.1 i ∨ ∃ e, e ∈ res.2 ∧ res.1.2.1 i = e.2 i) := by
  induction k with
  | zero =>
    intro res h
    simp only [calibrateRun, Option.some.injEq] at h
    subst h
    simp
  | succ k ih =>
    intro res h
    obtain ⟨a, e, ha, -, hres⟩ := calibrateRun_succ P s fuel mode k st res h
    obtain ⟨hlen, hinv⟩ := ih a ha
    subst hres
    refine ⟨by simp [hlen], ?_⟩
    intro i hi
    obtain ⟨h1, h2, h3, h4⟩ := hinv i hi
    have hr := calibrateRecord_apply s e.2.1 e.2.2.1 (a.1.1, a.1.2.1) i
    simp only [if_pos hi] at hr
    simp only [hr.1, hr.2, List.mem_append, List.mem_singleton]
    refine ⟨?_, ?_, ?_, ?_⟩
    · rintro x (hx | rfl)
      · have := h1 x hx
        split_ifs <;> omega
      · simp only
        split_ifs <;> omega
    · by_cases hc : e.2.1 i < a.1.1 i
      · right
        exact ⟨(e.2.1, e.2.2.1), Or.inr rfl, by simp [hc]⟩
      · rw [if_neg hc]
        rcases h2 with h2 | ⟨x, hx, hx2⟩
        · left; exact h2
        · right; exact ⟨x, Or.inl hx, hx2⟩
    · rintro x (hx | rfl)
      · have := h3 x hx
        split_ifs <;> omega
      · simp only
        split_ifs <;> omega
    · by_cases hc : a.1.2.1 i < e.2.2.1 i
      · right
        exact ⟨(e.2.1, e.2.2.1), Or.inr rfl, by simp [hc]⟩
      · rw [if_neg hc]
        rcases h4 with h4 | ⟨x, hx, hx2⟩
        · left; exact h4
        · right; exact ⟨x, Or.inl hx, hx2⟩

/-- C3, as stated, fails on the code: one pass from the initial bounds (minimum 1023,
maximum 0) over the readings 500, 501, ..., 509 leaves minimum 509 above maximum 500; and
`calibrate` in mode `Off` on a never calibrated object, reading 502, ..., 511, leaves
minimum 511 above maximum 502. -/
theorem calibrateRun_order_counterexample :
    (calibrateRun demoPlatform freshSensors 4 ReadMode.Off 1
        (fun _ => 1023, fun _ => 0, rampHardware)).map
        (fun r => (r.1.1 0, r.1.2.1 0, r.2.map fun e => (e.1 0, e.2 0)))
      = some (509, 500, [(509, 500)]) ∧
      (calibrate demoPlatform { uncalibratedSensors with sensorCount := 1 } rampHardware 4
        ReadMode.Off).map
        (fun r => (r.1.calibrationInitializedOff, r.1.calibratedMinimumOff.map (fun b => b 0),
          r.1.calibratedMaximumOff.map (fun b => b 0)))
      = some (true, some 511, some 502) := by
  decide

/-- C3 (amended): after a run of one or more passes from the initial bounds (minimum
`MaxValue`, maximum 0) whose readings are at most `MaxValue`, a channel has
`minimum ≤ maximum` exactly when the largest reading of some pass is at most the smallest
reading of some pass. -/
theorem calibrateRun_order_iff (P : Platform) (s : QTRSensors) (fuel : Nat) (mode : ReadMode)
    (k : Nat) (st : Buffer × Buffer × Hardware)
    (res : (Buffer × Buffer × Hardware) × List (Buffer × Buffer))
    (hk : 0 < k)
    (hfresh : ∀ i, i < s.sensorCount → st.1 i = s.maxValue ∧ st.2.1 i = 0)
    (hrun : calibrateRun P s fuel mode k st = some res)
    (hrange : ∀ e, e ∈ res.2 → ∀ i, i < s.sensorCount → e.1 i ≤ s.maxValue) :
    ∀ i, i < s.sensorCount →
      (res.1.1 i ≤ res.1.2.1 i ↔ ∃ a, a ∈ res.2 ∧ ∃ b, b ∈ res.2 ∧ a.1 i ≤ b.2 i) := by
  intro i hi
  obtain ⟨hlen, hinv⟩ := calibrateRun_bounds P s fuel mode k st res hrun
  obtain ⟨h1, h2, h3, h4⟩ := hinv i hi
  obtain ⟨hmin, hmax⟩ := hfresh i hi
  have hne : res.2 ≠ [] := by
    intro h0
    rw [h0] at hlen
    simp at hlen
    omega
  obtain ⟨e0, he0⟩ := List.exists_mem_of_ne_nil _ hne
  constructor
  · intro hle
    have hmin2 : ∃ e, e ∈ res.2 ∧ res.1.1 i = e.1 i := by
      rcases h2 with h2 | h2
      · refine ⟨e0, he0, ?_⟩
        have := h1 e0 he0
        have := hrange e0 he0 i hi
        omega
      · exact h2
    obtain ⟨a, ha, hae⟩ := hmin2
    rcases h4 with h4 | ⟨b, hb, hbe⟩
    · exact ⟨a, ha, e0, he0, by omega⟩
    · exact ⟨a, ha, b, hb, by omega⟩
  · rintro ⟨a, ha, b, hb, hab⟩
    have := h1 a ha
    have := h3 b hb
    omega

/-- C3 (amended), on two passes over the readings 500, ..., 509 and 510, ..., 519: the run
returns minimum 509 and maximum 510. -/
theorem calibrateRun_order_iff_witness :
    (calibrateRun demoPlatform freshSensors 4 ReadMode.Off 2
        (fun _ => 1023, fun _ => 0, rampHardware)).map
        (fun r => (r.1.1 0, r.1.2.1 0, r.2.map fun e => (e.1 0, e.2 0)))
      = some (509, 510, [(509, 500), (519, 510)]) ∧
      ∀ i, i < freshSensors.sensorCount →
        ((rampRun.1.1 i ≤ rampRun.1.2.1 i) ↔
          ∃ a, a ∈ rampRun.2 ∧ ∃ b, b ∈ rampRun.2 ∧ a.1 i ≤ b.2 i) :=
  ⟨by decide,
    calibrateRun_order_iff demoPlatform freshSensors 4 ReadMode.Off 2
      (fun _ => 1023, fun _ => 0, rampHardware) rampRun (by decide) (by decide)
      (eq_some_getD _ ((fun _ => 0, fun _ => 0, rampHardware), []) (by decide)) (by decide)⟩

/-! ## Verification: normalization endpoints, range and combined bounds -/

/-- C4, as stated, fails on the code: on the channel with the reversed bounds (510, 500)
the raw reading 500 equals `calmax` and differs from `calmin`, and the value written is 0,
not 1000. -/
theorem readCalibrated_endpoints_counterexample :
    (read demoPlatform endpointSensors flatHardware 8 (fun _ => 0) ReadMode.On).map
        (fun a => a.1 2) = some 500 ∧
      selectCalibration endpointSensors ReadMode.On 2 = some (510, 500) ∧
      (readCalibrated demoPlatform endpointSensors flatHardware 8 (fun _ => 0) ReadMode.On).map
        (fun a => a.1 2) = some 0 := by
  decide

/-- C4 (amended): under the conditions of `readCalibrated_clamp`, a channel whose raw
reading equals `calmin` gets 0, and a channel with `calmin < calmax` whose raw reading
equals `calmax` gets 1000. -/
theorem readCalibrated_endpoints (P : Platform) (s : QTRSensors) (hw : Hardware) (fuel : Nat)
    (sensorValues : Buffer) (mode : ReadMode) (raw : Buffer) (hw1 : Hardware)
    (bounds : Nat → Nat × Nat)
    (hmode : mode ≠ ReadMode.Manual)
    (hon : mode = ReadMode.On ∨ mode = ReadMode.OnAndOff ∨ mode = ReadMode.OddEvenAndOff →
      s.calibrationInitializedOn = true)
    (hoff : mode = ReadMode.Off ∨ mode = ReadMode.OnAndOff ∨ mode = ReadMode.OddEvenAndOff →
      s.calibrationInitializedOff = true)
    (hread : read P s hw fuel sensorValues mode = some (raw, hw1))
    (hsel : ∀ i, i < s.sensorCount → selectCalibration s mode i = some (bounds i))
    (hbounds : ∀ i, i < s.sensorCount → (bounds i).1 < 65536 ∧ (bounds i).2 < 65536) :
    ∃ cal, readCalibrated P s hw fuel sensorValues mode = some (cal, hw1) ∧
      ∀ i, i < s.sensorCount →
        (raw i = (bounds i).1 → cal i = 0) ∧
        ((bounds i).1 < (bounds i).2 → raw i = (bounds i).2 → cal i = 1000) := by
  refine ⟨_, readCalibrated_of_read P s hw fuel sensorValues mode raw hw1 bounds hmode hon hoff
    hread hsel, ?_⟩
  intro i hi
  simp only [if_pos hi]
  constructor
  · intro heq
    rw [heq]
    exact calibratedValue_at_min _ _
  · intro hlt heq
    rw [heq]
    exact calibratedValue_at_max _ _ (hbounds i hi).1 (hbounds i hi).2 hlt

/-- C4 (amended), on analog channels that read 500 with bounds (500, 900) and (100, 500):
the first gets 0, the second 1000. -/
theorem readCalibrated_endpoints_witness :
    (readCalibrated demoPlatform endpointSensors flatHardware 8 (fun _ => 0) ReadMode.On).map
        (fun a => [a.1 0, a.1 1]) = some [0, 1000] ∧
      ∃ cal, readCalibrated demoPlatform endpointSensors flatHardware 8 (fun _ => 0)
          ReadMode.On = some (cal, endpointRaw.2) ∧
        ∀ i, i < endpointSensors.sensorCount →
          (endpointRaw.1 i = (endpointBounds i).1 → cal i = 0) ∧
          ((endpointBounds i).1 < (endpointBounds i).2 →
            endpointRaw.1 i = (endpointBounds i).2 → cal i = 1000) :=
  ⟨by decide,
    readCalibrated_endpoints demoPlatform endpointSensors flatHardware 8 (fun _ => 0)
      ReadMode.On endpointRaw.1 endpointRaw.2 endpointBounds (by decide) (by decide)
      (by decide) (eq_some_getD _ _ (by decide)) (by decide) (by decide)⟩

/-- C5: when `readCalibrated` gets past its guards, the read returns and the arrays it
selects are allocated, it returns, and every value it writes is at most 1000, whatever the
raw readings and the bounds (the values are unsigned, so they are at least 0). -/
theorem readCalibrated_range (P : Platform) (s : QTRSensors) (hw : Hardware) (fuel : Nat)
    (sensorValues : Buffer) (mode : ReadMode) (raw : Buffer) (hw1 : Hardware)
    (bounds : Nat → Nat × Nat)
    (hmode : mode ≠ ReadMode.Manual)
    (hon : mode = ReadMode.On ∨ mode = ReadMode.OnAndOff ∨ mode = ReadMode.OddEvenAndOff →
      s.calibrationInitializedOn = true)
    (hoff : mode = ReadMode.Off ∨ mode = ReadMode.OnAndOff ∨ mode = ReadMode.OddEvenAndOff →
      s.calibrationInitializedOff = true)
    (hread : read P s hw fuel sensorValues mode = some (raw, hw1))
    (hsel : ∀ i, i < s.sensorCount → selectCalibration s mode i = some (bounds i)) :
    ∃ cal, readCalibrated P s hw fuel sensorValues mode = some (cal, hw1) ∧
      (∀ i, i < s.sensorCount → cal i ≤ 1000) ∧ ∀ i, s.sensorCount ≤ i → cal i = raw i := by
  refine ⟨_, readCalibrated_of_read P s hw fuel sensorValues mode raw hw1 bounds hmode hon hoff
    hread hsel, ?_, ?_⟩
  · intro i hi
    simp only [if_pos hi]
    exact calibratedValue_le _ _ _
  · intro i hi
    simp only [if_neg (Nat.not_lt.mpr hi)]

/-- C5, on four analog channels that read 500 with ordinary, narrow and reversed bounds:
the values written are 500, 0, 0 and 0. -/
theorem readCalibrated_range_witness :
    (readCalibrated demoPlatform mixedSensors flatHardware 8 (fun _ => 0) ReadMode.On).map
        (fun a => [a.1 0, a.1 1, a.1 2, a.1 3]) = some [500, 0, 0, 0] ∧
      ∃ cal, readCalibrated demoPlatform mixedSensors flatHardware 8 (fun _ => 0) ReadMode.On
          = some (cal, mixedRaw.2) ∧
        (∀ i, i < mixedSensors.sensorCount → cal i ≤ 1000) ∧
        ∀ i, mixedSensors.sensorCount ≤ i → cal i = mixedRaw.1 i :=
  ⟨by decide,
    readCalibrated_range demoPlatform mixedSensors flatHardware 8 (fun _ => 0) ReadMode.On
      mixedRaw.1 mixedRaw.2 mixedBounds (by decide) (by decide) (by decide)
      (eq_some_getD _ _ (by decide)) (by decide)⟩

/-- The bounds selected in the combined modes, for stored bounds in `[0, MaxValue]`. -/
theorem selectCalibration_combined (s : QTRSensors) (mode : ReadMode)
    (onMin onMax offMin offMax : Buffer) (i : Nat)
    (hmode : mode = ReadMode.OnAndOff ∨ mode = ReadMode.OddEvenAndOff)
    (h1 : s.calibratedMinimumOn = some onMin) (h2 : s.calibratedMaximumOn = some onMax)
    (h3 : s.calibratedMinimumOff = some offMin) (h4 : s.calibratedMaximumOff = some offMax)
    (hmax : s.maxValue < 65536)
    (hrange : onMin i ≤ s.maxValue ∧ onMax i ≤ s.maxValue ∧ offMin i ≤ s.maxValue ∧
      offMax i ≤ s.maxValue) :
    selectCalibration s mode i
      = some (combinedBound (onMin i) (offMin i) s.maxValue,
          combinedBound (onMax i) (offMax i) s.maxValue) := by
  have hm1 : ¬ (mode = ReadMode.On ∨ mode = ReadMode.OddEven) := by
    rcases hmode with h | h <;> rw [h] <;> decide
  have hm2 : ¬ (mode = ReadMode.Off) := by
    rcases hmode with h | h <;> rw [h] <;> decide
  obtain ⟨r1, r2, r3, r4⟩ := hrange
  have e1 : ¬ offMin i < onMin i →
      wrap16 (onMin i + s.maxValue + 65536 - offMin i) = onMin i + s.maxValue - offMin i := by
    intro h
    unfold wrap16
    omega
  have e2 : ¬ offMax i < onMax i →
      wrap16 (onMax i + s.maxValue + 65536 - offMax i) = onMax i + s.maxValue - offMax i := by
    intro h
    unfold wrap16
    omega
  unfold selectCalibration combinedBound
  rw [if_neg hm1, if_neg hm2, h1, h2, h3, h4]
  simp only [Option.some_bind]
  by_cases c1 : offMin i < onMin i <;> by_cases c2 : offMax i < onMax i
  · simp only [if_pos c1, if_pos c2]
  · simp only [if_pos c1, if_neg c2, e2 c2]
  · simp only [if_neg c1, if_pos c2, e1 c1]
  · simp only [if_neg c1, if_neg c2, e1 c1, e2 c2]

/-- C9: in the modes `OnAndOff` and `OddEvenAndOff`, with both contexts initialized and the
stored bounds in `[0, MaxValue]`, the bounds `readCalibrated` selects for a channel are
`calmin = onMin + MaxValue − offMin`, or `MaxValue` when `offMin < onMin`, and
`calmax = onMax + MaxValue − offMax`, or `MaxValue` when `offMax < onMax`; and the value it
writes is the normalization of the raw reading with these two bounds. -/
theorem readCalibrated_combined (P : Platform) (s : QTRSensors) (hw : Hardware) (fuel : Nat)
    (sensorValues : Buffer) (mode : ReadMode) (raw : Buffer) (hw1 : Hardware)
    (onMin onMax offMin offMax : Buffer)
    (hmode : mode = ReadMode.OnAndOff ∨ mode = ReadMode.OddEvenAndOff)
    (hon : s.calibrationInitializedOn = true) (hoff : s.calibrationInitializedOff = true)
    (h1 : s.calibratedMinimumOn = some onMin) (h2 : s.calibratedMaximumOn = some onMax)
    (h3 : s.calibratedMinimumOff = some offMin) (h4 : s.calibratedMaximumOff = some offMax)
    (hmax : s.maxValue < 65536)
    (hrange : ∀ i, i < s.sensorCount → onMin i ≤ s.maxValue ∧ onMax i ≤ s.maxValue ∧
      offMin i ≤ s.maxValue ∧ offMax i ≤ s.maxValue)
    (hread : read P s hw fuel sensorValues mode = some (raw, hw1)) :
    (∀ i, i < s.sensorCount →
      selectCalibration s mode i
        = some (combinedBound (onMin i) (offMin i) s.maxValue,
            combinedBound (onMax i) (offMax i) s.maxValue)) ∧
      readCalibrated P s hw fuel sensorValues mode
        = some (fun i => if i < s.sensorCount
            then calibratedValue (raw i) (combinedBound (onMin i) (offMin i) s.maxValue)
              (combinedBound (onMax i) (offMax i) s.maxValue)
            else raw i, hw1) := by
  have hsel : ∀ i, i < s.sensorCount →
      selectCalibration s mode i
        = some (combinedBound (onMin i) (offMin i) s.maxValue,
            combinedBound (onMax i) (offMax i) s.maxValue) :=
    fun i hi => selectCalibration_combined s mode onMin onMax offMin offMax i hmode h1 h2 h3 h4
      hmax (hrange i hi)
  have hne : mode ≠ ReadMode.Manual := by
    rcases hmode with h | h <;> rw [h] <;> decide
  exact ⟨hsel, readCalibrated_of_read P s hw fuel sensorValues mode raw hw1
    (fun i => (combinedBound (onMin i) (offMin i) s.maxValue,
      combinedBound (onMax i) (offMax i) s.maxValue)) hne (fun _ => hon) (fun _ => hoff) hread
    hsel⟩

/-- C9, on two RC channels with `MaxValue` 1000: minima on 100, off 150 give `calmin` 950;
minima on 150, off 100 give `calmin` 1000. -/
theorem readCalibrated_combined_witness :
    combinedBound 100 150 1000 = 950 ∧ combinedBound 150 100 1000 = 1000 ∧
      (∀ i, i < combinedSensors.sensorCount →
        selectCalibration combinedSensors ReadMode.OnAndOff i
          = some (combinedBound (if i = 0 then 100 else 150) (if i = 0 then 150 else 100)
              combinedSensors.maxValue,
              combinedBound 900 900 combinedSensors.maxValue)) ∧
      readCalibrated demoPlatform combinedSensors slowHardware 4 (fun _ => 0) ReadMode.OnAndOff
        = some (fun i => if i < combinedSensors.sensorCount
            then calibratedValue (combinedRaw.1 i)
              (combinedBound (if i = 0 then 100 else 150) (if i = 0 then 150 else 100)
                combinedSensors.maxValue)
              (combinedBound 900 900 combinedSensors.maxValue)
            else combinedRaw.1 i, combinedRaw.2) :=
  ⟨by decide, by decide,
    readCalibrated_combined demoPlatform combinedSensors slowHardware 4 (fun _ => 0)
      ReadMode.OnAndOff combinedRaw.1 combinedRaw.2 (fun i => if i = 0 then 100 else 150)
      (fun _ => 900) (fun i => if i = 0 then 150 else 100) (fun _ => 900) (Or.inl rfl) rfl rfl
      rfl rfl rfl rfl (by decide) (by decide) (eq_some_getD _ _ (by decide))⟩

/-! ## Verification: combined reads (`read`) -/

theorem read_OnAndOff (P : Platform) (s : QTRSensors) (hw : Hardware) (fuel : Nat)
    (sensorValues : Buffer) :
    read P s hw fuel sensorValues ReadMode.OnAndOff
      = (read P s hw fuel sensorValues ReadMode.On).bind fun a =>
          (readPrivate P s a.2 fuel a.2.junk 0 1).bind fun off =>
            some (combineOnOff s a.1 off.1, off.2) := rfl

theorem read_OddEvenAndOff (P : Platform) (s : QTRSensors) (hw : Hardware) (fuel : Nat)
    (sensorValues : Buffer) :
    read P s hw fuel sensorValues ReadMode.OddEvenAndOff
      = (read P s hw fuel sensorValues ReadMode.OddEven).bind fun a =>
          (readPrivate P s a.2 fuel a.2.junk 0 1).bind fun off =>
            some (combineOnOff s a.1 off.1, off.2) := rfl

theorem combineOnOff_apply (s : QTRSensors) (onValues offValues : Buffer) (i : Nat) :
    combineOnOff s onValues offValues i
      = if i < s.sensorCount then wrap16 (onValues i + s.maxValue + 65536 - offValues i)
        else onValues i :=
  forRange_update_apply (fun i v => wrap16 (v + s.maxValue + 65536 - offValues i))
    s.sensorCount onValues i

/-- C10, as stated, fails on the code: with the timeout 40000, an on-reading of 40000 and an
off-reading of 4, the exact value 40000 + 40000 − 4 = 79996 does not fit the `uint16_t`
buffer, which is left holding 14460. -/
theorem read_combined_counterexample :
    longSensors.maxValue = 40000 ∧
      (read demoPlatform longSensors burstHardware 4 (fun _ => 0) ReadMode.On).map
        (fun a => a.1 0) = some 40000 ∧
      (readPrivate demoPlatform longSensors burstOn.2 4 burstOn.2.junk 0 1).map
        (fun a => a.1 0) = some 4 ∧
      (read demoPlatform longSensors burstHardware 4 (fun _ => 0) ReadMode.OnAndOff).map
        (fun a => a.1 0) = some 14460 ∧
      40000 + 40000 - 4 = 79996 := by
  decide

/-- C10 (amended): in the modes `OnAndOff` and `OddEvenAndOff`, when the on-phase and the
off-phase acquisitions return, `read` returns, and for every channel whose on-reading and
off-reading lie in `[0, MaxValue]` the value left in the buffer is
`(onValue + MaxValue − offValue) mod 65536`: the exact integer whenever that is below 65536,
as it always is when `MaxValue ≤ 32767`. -/
theorem read_combined (P : Platform) (s : QTRSensors) (hw : Hardware) (fuel : Nat)
    (sensorValues : Buffer) (mode onMode : ReadMode) (onValues : Buffer) (hw1 : Hardware)
    (offValues : Buffer) (hw2 : Hardware)
    (hmode : (mode = ReadMode.OnAndOff ∧ onMode = ReadMode.On) ∨
      (mode = ReadMode.OddEvenAndOff ∧ onMode = ReadMode.OddEven))
    (hon : read P s hw fuel sensorValues onMode = some (onValues, hw1))
    (hoff : readPrivate P s hw1 fuel hw1.junk 0 1 = some (offValues, hw2)) :
    ∃ res, read P s hw fuel sensorValues mode = some (res, hw2) ∧
      ∀ i, i < s.sensorCount → onValues i ≤ s.maxValue → offValues i ≤ s.maxValue →
        res i = (onValues i + s.maxValue - offValues i) % 65536 ∧
        (onValues i + s.maxValue - offValues i < 65536 →
          res i = onValues i + s.maxValue - offValues i) ∧
        (s.maxValue ≤ 32767 → res i = onValues i + s.maxValue - offValues i) := by
  refine ⟨combineOnOff s onValues offValues, ?_, ?_⟩
  · rcases hmode with ⟨h1, h2⟩ | ⟨h1, h2⟩
    · rw [h1, read_OnAndOff, ← h2, hon]
      simp only [Option.some_bind, hoff]
    · rw [h1, read_OddEvenAndOff, ← h2, hon]
      simp only [Option.some_bind, hoff]
  · intro i hi h1 h2
    rw [combineOnOff_apply, if_pos hi]
    unfold wrap16
    refine ⟨?_, ?_, ?_⟩
    · omega
    · intro h; omega
    · intro h; omega

/-- C10 (amended), on two RC channels with timeout 1000 whose lines never read low: both
readings are 1000 and the buffer holds 1000 + 1000 − 1000. -/
theorem read_combined_witness :
    (read demoPlatform combinedSensors slowHardware 4 (fun _ => 0) ReadMode.OnAndOff).map
        (fun a => [a.1 0, a.1 1]) = some [1000, 1000] ∧
      ∃ res, read demoPlatform combinedSensors slowHardware 4 (fun _ => 0) ReadMode.OnAndOff
          = some (res, slowOff.2) ∧
        ∀ i, i < combinedSensors.sensorCount → slowOn.1 i ≤ combinedSensors.maxValue →
          slowOff.1 i ≤ combinedSensors.maxValue →
          res i = (slowOn.1 i + combinedSensors.maxValue - slowOff.1 i) % 65536 ∧
          (slowOn.1 i + combinedSensors.maxValue - slowOff.1 i < 65536 →
            res i = slowOn.1 i + combinedSensors.maxValue - slowOff.1 i) ∧
          (combinedSensors.maxValue ≤ 32767 →
            res i = slowOn.1 i + combinedSensors.maxValue - slowOff.1 i) :=
  ⟨by decide,
    read_combined demoPlatform combinedSensors slowHardware 4 (fun _ => 0) ReadMode.OnAndOff
      ReadMode.On slowOn.1 slowOn.2 slowOff.1 slowOff.2 (Or.inl ⟨rfl, rfl⟩)
      (eq_some_getD _ _ (by decide)) (eq_some_getD _ _ (by decide))⟩

/-! ## Verification: position estimator (`readLinePrivate`) -/

theorem weightedSum_succ (v : Nat → Nat) (n : Nat) :
    weightedSum v (n + 1) = weightedSum v n + (if 50 < v n then v n * n * 1000 else 0) := by
  unfold weightedSum
  rw [Finset.sum_filter, Finset.sum_filter, Finset.sum_range_succ]

theorem plainSum_succ (v : Nat → Nat) (n : Nat) :
    plainSum v (n + 1) = plainSum v n + (if 50 < v n then v n else 0) := by
  unfold plainSum
  rw [Finset.sum_filter, Finset.sum_filter, Finset.sum_range_succ]

theorem toSigned_of_fits (bits : Nat) (x : Int) (hb : 1 ≤ bits)
    (h1 : -((2 : Int) ^ (bits - 1)) ≤ x) (h2 : x < (2 : Int) ^ (bits - 1)) :
    toSigned bits x = x := by
  unfold toSigned
  have hp : (2 : Int) ^ bits = 2 * (2 : Int) ^ (bits - 1) := by
    rw [← pow_succ']
    congr 1
    omega
  rw [hp]
  generalize (2 : Int) ^ (bits - 1) = p at h1 h2 ⊢
  rw [Int.emod_eq_of_lt (by omega) (by omega)]
  omega

theorem toUnsigned32_of_range (x : Int) (h1 : 0 ≤ x) (h2 : x < 4294967296) :
    (toUnsigned 32 x : Int) = x := by
  unfold toUnsigned
  norm_num
  omega


theorem lineIndex_fits (P : Platform) (m n : Nat) (hb : 16 ≤ P.intBits) (hm : m < n)
    (hfit : ((n : Int) - 1) * 1000 < (2 : Int) ^ (P.intBits - 1)) (hn : n ≤ 64) :
    toUnsigned 32 (toSigned P.intBits ((m : Int) * 1000)) = m * 1000 := by
  have hpos : (0 : Int) ≤ (2 : Int) ^ (P.intBits - 1) := by positivity
  have h1 : toSigned P.intBits ((m : Int) * 1000) = (m : Int) * 1000 := by
    apply toSigned_of_fits
    · omega
    · omega
    · omega
  rw [h1]
  have h2 := toUnsigned32_of_range ((m : Int) * 1000) (by omega) (by omega)
  omega

theorem lineSums_seen_iff (inv : Bool) (cal : Buffer) (m : Nat) :
    (∃ i, i < m + 1 ∧ 200 < lineValue inv (cal i))
      ↔ (200 < lineValue inv (cal m) ∨ ∃ i, i < m ∧ 200 < lineValue inv (cal i)) := by
  constructor
  · rintro ⟨i, hi, hv⟩
    rcases Nat.lt_succ_iff_lt_or_eq.mp hi with h | h
    · exact Or.inr ⟨i, h, hv⟩
    · subst h
      exact Or.inl hv
  · rintro (h | ⟨i, hi, hv⟩)
    · exact ⟨m, Nat.lt_succ_self m, h⟩
    · exact ⟨i, Nat.lt_succ_of_lt hi, hv⟩

theorem lineSums_aux (P : Platform) (cal : Buffer) (inv : Bool) (n : Nat)
    (hb : 16 ≤ P.intBits) (hn : n ≤ 64)
    (hfit : ((n : Int) - 1) * 1000 < (2 : Int) ^ (P.intBits - 1)) :
    ∀ m, m ≤ n → (∀ i, i < m → lineValue inv (cal i) ≤ 1000) →
      forRange
        (fun i (acc : Bool × Nat × Nat) =>
          let value : Nat := lineValue inv (cal i)
          let onLine : Bool := if 200 < value then true else acc.1
          if 50 < value then
            (onLine,
              wrap32 (acc.2.1 +
                wrap32 (value * toUnsigned 32 (toSigned P.intBits ((i : Int) * 1000)))),
              wrap16 (acc.2.2 + value))
          else (onLine, acc.2.1, acc.2.2))
        m (false, 0, 0)
        = (decide (∃ i, i < m ∧ 200 < lineValue inv (cal i)),
            weightedSum (fun i => lineValue inv (cal i)) m,
            plainSum (fun i => lineValue inv (cal i)) m) ∧
      plainSum (fun i => lineValue inv (cal i)) m ≤ 1000 * m ∧
      weightedSum (fun i => lineValue inv (cal i)) m
        ≤ 1000 * (m - 1) * plainSum (fun i => lineValue inv (cal i)) m := by
  intro m
  induction m with
  | zero =>
    intro _ _
    simp [forRange, weightedSum, plainSum]
  | succ m ih =>
    intro hm hv
    obtain ⟨ih1, ih2, ih3⟩ := ih (Nat.le_of_succ_le hm) (fun i hi => hv i (Nat.lt_succ_of_lt hi))
    have hx := hv m (Nat.lt_succ_self m)
    have hidx := lineIndex_fits P m n hb hm hfit hn
    have hm63 : m ≤ 63 := by omega
    rw [weightedSum_succ, plainSum_succ]
    simp only [forRange]
    rw [ih1]
    simp only [hidx]
    generalize hS : plainSum (fun i => lineValue inv (cal i)) m = S at ih2 ih3 ⊢
    generalize hW : weightedSum (fun i => lineValue inv (cal i)) m = W at ih3 ⊢
    generalize hxe : lineValue inv (cal m) = x at hx ⊢
    have hseen : decide (∃ i, i < m + 1 ∧ 200 < lineValue inv (cal i))
        = (if 200 < x then true else decide (∃ i, i < m ∧ 200 < lineValue inv (cal i))) := by
      by_cases h200 : 200 < x
      · rw [if_pos h200]
        exact decide_eq_true ((lineSums_seen_iff inv cal m).mpr (Or.inl (hxe ▸ h200)))
      · rw [if_neg h200]
        apply decide_eq_decide.mpr
        rw [lineSums_seen_iff, hxe]
        exact ⟨fun h => h.elim (fun h1 => absurd h1 h200) id, Or.inr⟩
    rw [hseen]
    have hW1 : 1000 * (m - 1) * S ≤ 1000 * m * S :=
      Nat.mul_le_mul_right S (Nat.mul_le_mul_left 1000 (Nat.sub_le m 1))
    have hprod : x * (m * 1000) ≤ 1000 * (63 * 1000) :=
      Nat.mul_le_mul hx (Nat.mul_le_mul_right 1000 hm63)
    have hWb : W ≤ 1000 * m * S := le_trans ih3 hW1
    have hWc : 1000 * m * S ≤ 1000 * 63 * (1000 * 63) :=
      Nat.mul_le_mul (Nat.mul_le_mul_left 1000 hm63) (le_trans ih2 (Nat.mul_le_mul_left 1000 hm63))
    by_cases h50 : 50 < x
    · simp only [if_pos h50]
      have e1 : wrap32 (x * (m * 1000)) = x * (m * 1000) := by
        unfold wrap32; omega
      have e2 : wrap32 (W + x * (m * 1000)) = W + x * (m * 1000) := by
        unfold wrap32; omega
      have e3 : wrap16 (S + x) = S + x := by
        unfold wrap16; omega
      rw [e1, e2, e3]
      have e4 : x * m * 1000 = x * (m * 1000) := Nat.mul_assoc x m 1000
      rw [e4]
      refine ⟨rfl, by omega, ?_⟩
      have e5 : 1000 * (m + 1 - 1) * (S + x) = 1000 * m * S + x * (m * 1000) := by
        rw [Nat.add_sub_cancel]; ring
      rw [e5]
      omega
    · simp only [if_neg h50, Nat.add_zero, true_and]
      refine ⟨by omega, ?_⟩
      rw [Nat.add_sub_cancel]
      exact hWb


theorem lineSums_onLine (P : Platform) (s : QTRSensors) (cal : Buffer) (inv : Bool) :
    (lineSums P s cal inv).1 = decide (∃ i, i < s.sensorCount ∧ 200 < lineValue inv (cal i)) := by
  unfold lineSums
  induction s.sensorCount with
  | zero => simp [forRange]
  | succ m ih =>
    simp only [forRange]
    have hfst : ∀ (b : Bool) (c : Prop) [Decidable c] (x y : Nat × Nat),
        (if c then (b, x) else (b, y)).1 = b := by
      intro b c _ x y
      split_ifs <;> rfl
    rw [hfst, ih]
    by_cases h200 : 200 < lineValue inv (cal m)
    · rw [if_pos h200]
      exact (decide_eq_true ((lineSums_seen_iff inv cal m).mpr (Or.inl h200))).symm
    · rw [if_neg h200]
      apply decide_eq_decide.mpr
      rw [lineSums_seen_iff]
      exact ⟨Or.inr, fun h => h.elim (fun h1 => absurd h1 h200) id⟩

theorem plainSum_pos (v : Nat → Nat) (n : Nat) (h : ∃ i, i < n ∧ 200 < v i) :
    0 < plainSum v n := by
  obtain ⟨i, hi, hv⟩ := h
  have hmem : i ∈ (Finset.range n).filter (fun i => 50 < v i) := by
    rw [Finset.mem_filter, Finset.mem_range]
    exact ⟨hi, by omega⟩
  have hle : v i ≤ plainSum v n :=
    Finset.single_le_sum (f := v) (fun _ _ => Nat.zero_le _) hmem
  omega

theorem readLinePrivate_seen (P : Platform) (s : QTRSensors) (hw : Hardware) (fuel : Nat)
    (sensorValues : Buffer) (mode : ReadMode) (inv : Bool) (cal : Buffer) (hw1 : Hardware)
    (hmode : mode ≠ ReadMode.Manual) (hb : 16 ≤ P.intBits)
    (hfit : ((s.sensorCount : Int) - 1) * 1000 < (2 : Int) ^ (P.intBits - 1))
    (hn : s.sensorCount ≤ 64)
    (hcal : readCalibrated P s hw fuel sensorValues mode = some (cal, hw1))
    (hv : ∀ i, i < s.sensorCount → lineValue inv (cal i) ≤ 1000)
    (hseen : ∃ i, i < s.sensorCount ∧ 200 < lineValue inv (cal i)) :
    readLinePrivate P s hw fuel sensorValues mode inv
      = some (some ((weightedSum (fun i => lineValue inv (cal i)) s.sensorCount
            / plainSum (fun i => lineValue inv (cal i)) s.sensorCount : Nat) : Int),
          { s with lastPosition := weightedSum (fun i => lineValue inv (cal i)) s.sensorCount
              / plainSum (fun i => lineValue inv (cal i)) s.sensorCount }, cal, hw1) ∧
      0 < plainSum (fun i => lineValue inv (cal i)) s.sensorCount ∧
      plainSum (fun i => lineValue inv (cal i)) s.sensorCount ≤ 64000 ∧
      weightedSum (fun i => lineValue inv (cal i)) s.sensorCount < 4294967296 ∧
      weightedSum (fun i => lineValue inv (cal i)) s.sensorCount
        / plainSum (fun i => lineValue inv (cal i)) s.sensorCount ≤ (s.sensorCount - 1) * 1000 := by
  obtain ⟨hsum, hS, hW⟩ := lineSums_aux P cal inv s.sensorCount hb hn hfit s.sensorCount
    (Nat.le_refl _) hv
  have hpos := plainSum_pos (fun i => lineValue inv (cal i)) s.sensorCount hseen
  have hls : lineSums P s cal inv
      = (true, weightedSum (fun i => lineValue inv (cal i)) s.sensorCount,
          plainSum (fun i => lineValue inv (cal i)) s.sensorCount) := by
    unfold lineSums
    rw [hsum, decide_eq_true hseen]
  generalize plainSum (fun i => lineValue inv (cal i)) s.sensorCount = S at *
  generalize weightedSum (fun i => lineValue inv (cal i)) s.sensorCount = W at *
  have hn1 : 1 ≤ s.sensorCount := by
    obtain ⟨i, hi, _⟩ := hseen
    omega
  have hdiv : W / S ≤ (s.sensorCount - 1) * 1000 := by
    apply Nat.div_le_of_le_mul
    calc W ≤ 1000 * (s.sensorCount - 1) * S := hW
      _ = S * ((s.sensorCount - 1) * 1000) := by ring
  have hS64 : S ≤ 64000 := by omega
  have hW32 : W < 4294967296 := by
    have h1 : 1000 * (s.sensorCount - 1) * S ≤ 1000 * 63 * 64000 :=
      Nat.mul_le_mul (Nat.mul_le_mul_left 1000 (by omega)) hS64
    omega
  refine ⟨?_, hpos, hS64, hW32, hdiv⟩
  have hS0 : S ≠ 0 := by omega
  unfold readLinePrivate
  rw [if_neg hmode, hcal]
  simp only [Option.some_bind, hls]
  rw [if_neg (by decide), if_neg hS0]
  generalize W / S = q at hdiv ⊢
  have hwrap : wrap16 q = q := by
    unfold wrap16; omega
  have hsigned : toSigned P.intBits (q : Int) = (q : Int) := by
    have hpow : (0 : Int) ≤ (2 : Int) ^ (P.intBits - 1) := by positivity
    apply toSigned_of_fits
    · omega
    · omega
    · omega
  rw [hwrap, hsigned]

theorem readLinePrivate_lost (P : Platform) (s : QTRSensors) (hw : Hardware) (fuel : Nat)
    (sensorValues : Buffer) (mode : ReadMode) (inv : Bool) (cal : Buffer) (hw1 : Hardware)
    (hmode : mode ≠ ReadMode.Manual) (hb : 16 ≤ P.intBits)
    (hfit : ((s.sensorCount : Int) - 1) * 1000 < (2 : Int) ^ (P.intBits - 1))
    (hn : 1 ≤ s.sensorCount)
    (hcal : readCalibrated P s hw fuel sensorValues mode = some (cal, hw1))
    (hlost : ∀ i, i < s.sensorCount → lineValue inv (cal i) ≤ 200) :
    readLinePrivate P s hw fuel sensorValues mode inv
      = some (some (if s.lastPosition < (s.sensorCount - 1) * 1000 / 2 then (0 : Int)
            else (((s.sensorCount - 1) * 1000 : Nat) : Int)), s, cal, hw1) := by
  have hline : (lineSums P s cal inv).1 = false := by
    rw [lineSums_onLine]
    apply decide_eq_false
    rintro ⟨i, hi, hv⟩
    have := hlost i hi
    omega
  have hc : ((s.sensorCount : Int) - 1) * 1000 = (((s.sensorCount - 1) * 1000 : Nat) : Int) := by
    omega
  rw [hc] at hfit
  have hpow : (0 : Int) ≤ (2 : Int) ^ (P.intBits - 1) := by positivity
  have hsigned : toSigned P.intBits ((((s.sensorCount - 1) * 1000 : Nat) : Int))
      = (((s.sensorCount - 1) * 1000 : Nat) : Int) := by
    apply toSigned_of_fits
    · omega
    · omega
    · exact hfit
  have hlt : ltUInt16Int P s.lastPosition
      (Int.tdiv ((((s.sensorCount - 1) * 1000 : Nat) : Int)) 2)
      = decide (s.lastPosition < (s.sensorCount - 1) * 1000 / 2) := by
    have hdiv : Int.tdiv ((((s.sensorCount - 1) * 1000 : Nat) : Int)) 2
        = ((((s.sensorCount - 1) * 1000 / 2 : Nat)) : Int) :=
      (Int.ofNat_tdiv ((s.sensorCount - 1) * 1000) 2).symm
    rw [hdiv]
    unfold ltUInt16Int
    by_cases h16 : P.intBits ≤ 16
    · rw [if_pos h16]
      have hb16 : P.intBits = 16 := by omega
      rw [hb16] at hfit
      norm_num at hfit
      have hu : toUnsigned 16 ((((s.sensorCount - 1) * 1000 / 2 : Nat)) : Int)
          = (s.sensorCount - 1) * 1000 / 2 := by
        unfold toUnsigned
        norm_num
        omega
      rw [hu]
    · rw [if_neg h16]
      apply decide_eq_decide.mpr
      exact Int.ofNat_lt
  unfold readLinePrivate
  rw [if_neg hmode, hcal]
  simp only [Option.some_bind]
  rw [if_pos hline, hc, hsigned, hlt]
  by_cases hlast : s.lastPosition < (s.sensorCount - 1) * 1000 / 2
  · simp only [hlast, decide_True, if_true]
  · simp only [hlast, decide_False, if_false, Bool.false_eq_true]

theorem lineValue_le (inv : Bool) (v : Nat) (h : v ≤ 1000) : lineValue inv v ≤ 1000 := by
  unfold lineValue
  cases inv
  · simpa using h
  · simp only [if_true]
    unfold toUnsigned
    norm_num
    omega

/-- C6: for a mode other than `Manual`, a sensor count of at most 64 whose largest position
`(sensorCount − 1) × 1000` fits `int`, and (optionally inverted) calibrated values in
`[0, 1000]` of which one exceeds 200, `readLinePrivate` returns `S_w / S`, rounded down, and
stores it as the last position, where `S_w` sums `value[i] × i × 1000` and `S` sums
`value[i]` over the channels with `value[i] > 50`; no sum wraps: `0 < S ≤ 64000`,
`S_w < 2^32`, and the quotient is at most `(sensorCount − 1) × 1000`. -/
theorem readLinePrivate_centroid (P : Platform) (s : QTRSensors) (hw : Hardware) (fuel : Nat)
    (sensorValues : Buffer) (mode : ReadMode) (inv : Bool) (cal : Buffer) (hw1 : Hardware)
    (hmode : mode ≠ ReadMode.Manual) (hb : 16 ≤ P.intBits)
    (hfit : ((s.sensorCount : Int) - 1) * 1000 < (2 : Int) ^ (P.intBits - 1))
    (hn : s.sensorCount ≤ 64)
    (hcal : readCalibrated P s hw fuel sensorValues mode = some (cal, hw1))
    (hv : ∀ i, i < s.sensorCount → lineValue inv (cal i) ≤ 1000)
    (hseen : ∃ i, i < s.sensorCount ∧ 200 < lineValue inv (cal i)) :
    readLinePrivate P s hw fuel sensorValues mode inv
      = some (some ((weightedSum (fun i => lineValue inv (cal i)) s.sensorCount
            / plainSum (fun i => lineValue inv (cal i)) s.sensorCount : Nat) : Int),
          { s with lastPosition := weightedSum (fun i => lineValue inv (cal i)) s.sensorCount
              / plainSum (fun i => lineValue inv (cal i)) s.sensorCount }, cal, hw1) ∧
      0 < plainSum (fun i => lineValue inv (cal i)) s.sensorCount ∧
      plainSum (fun i => lineValue inv (cal i)) s.sensorCount ≤ 64000 ∧
      weightedSum (fun i => lineValue inv (cal i)) s.sensorCount < 4294967296 ∧
      weightedSum (fun i => lineValue inv (cal i)) s.sensorCount
        / plainSum (fun i => lineValue inv (cal i)) s.sensorCount ≤ (s.sensorCount - 1) * 1000 :=
  readLinePrivate_seen P s hw fuel sensorValues mode inv cal hw1 hmode hb hfit hn hcal hv hseen

/-- C6, on six sensors with the calibrated values 0, 0, 0, 1000, 1000, 0 and no inversion:
the sums are 7000000 and 2000, and the position returned and stored is 3500. -/
theorem readLinePrivate_centroid_witness :
    (readLinePrivate demoPlatform lineSensors lineHardware 8 (fun _ => 0) ReadMode.On false).map
        (fun r => (r.1, r.2.1.lastPosition, (List.range 6).map r.2.2.1))
      = some (some 3500, 3500, [0, 0, 0, 1000, 1000, 0]) ∧
      weightedSum (fun i => lineValue false (lineCalibrated.1 i)) 6 = 7000000 ∧
      plainSum (fun i => lineValue false (lineCalibrated.1 i)) 6 = 2000 ∧
      (readLinePrivate demoPlatform lineSensors lineHardware 8 (fun _ => 0) ReadMode.On false
        = some (some ((weightedSum (fun i => lineValue false (lineCalibrated.1 i))
              lineSensors.sensorCount
              / plainSum (fun i => lineValue false (lineCalibrated.1 i))
                lineSensors.sensorCount : Nat) : Int),
            { lineSensors with
              lastPosition := weightedSum (fun i => lineValue false (lineCalibrated.1 i))
                lineSensors.sensorCount
                / plainSum (fun i => lineValue false (lineCalibrated.1 i))
                  lineSensors.sensorCount }, lineCalibrated.1, lineCalibrated.2) ∧
        0 < plainSum (fun i => lineValue false (lineCalibrated.1 i)) lineSensors.sensorCount ∧
        plainSum (fun i => lineValue false (lineCalibrated.1 i)) lineSensors.sensorCount
          ≤ 64000 ∧
        weightedSum (fun i => lineValue false (lineCalibrated.1 i)) lineSensors.sensorCount
          < 4294967296 ∧
        weightedSum (fun i => lineValue false (lineCalibrated.1 i)) lineSensors.sensorCount
          / plainSum (fun i => lineValue false (lineCalibrated.1 i)) lineSensors.sensorCount
          ≤ (lineSensors.sensorCount - 1) * 1000) :=
  ⟨by decide, by decide, by decide,
    readLinePrivate_centroid demoPlatform lineSensors lineHardware 8 (fun _ => 0) ReadMode.On
      false lineCalibrated.1 lineCalibrated.2 (by decide) (by decide) (by decide) (by decide)
      (eq_some_getD _ _ (by decide)) (by decide) (by decide)⟩

/-- C7: for a mode other than `Manual` and a sensor count of at least 1 whose largest
position fits `int`, when every (optionally inverted) calibrated value is at most 200,
`readLinePrivate` returns 0 if the last position is below `(sensorCount − 1) × 1000 / 2`,
and `(sensorCount − 1) × 1000` otherwise; the object, and so the last position, is
unchanged. -/
theorem readLinePrivate_hysteresis (P : Platform) (s : QTRSensors) (hw : Hardware)
    (fuel : Nat) (sensorValues : Buffer) (mode : ReadMode) (inv : Bool) (cal : Buffer)
    (hw1 : Hardware)
    (hmode : mode ≠ ReadMode.Manual) (hb : 16 ≤ P.intBits)
    (hfit : ((s.sensorCount : Int) - 1) * 1000 < (2 : Int) ^ (P.intBits - 1))
    (hn : 1 ≤ s.sensorCount)
    (hcal : readCalibrated P s hw fuel sensorValues mode = some (cal, hw1))
    (hlost : ∀ i, i < s.sensorCount → lineValue inv (cal i) ≤ 200) :
    readLinePrivate P s hw fuel sensorValues mode inv
      = some (some (if s.lastPosition < (s.sensorCount - 1) * 1000 / 2 then (0 : Int)
            else (((s.sensorCount - 1) * 1000 : Nat) : Int)), s, cal, hw1) :=
  readLinePrivate_lost P s hw fuel sensorValues mode inv cal hw1 hmode hb hfit hn hcal hlost

/-- C7, on six sensors that all read 0: from the last position 0 the estimate is 0, from
the last position 4000 (the center is 2500) it is 5000. -/
theorem readLinePrivate_hysteresis_witness :
    (readLinePrivate demoPlatform lineSensors darkHardware 8 (fun _ => 0) ReadMode.On false).map
        (fun r => (r.1, r.2.1.lastPosition)) = some (some 0, 0) ∧
      (readLinePrivate demoPlatform rightSensors darkHardware 8 (fun _ => 0) ReadMode.On
        false).map (fun r => (r.1, r.2.1.lastPosition)) = some (some 5000, 4000) ∧
      readLinePrivate demoPlatform rightSensors darkHardware 8 (fun _ => 0) ReadMode.On false
        = some (some (if rightSensors.lastPosition < (rightSensors.sensorCount - 1) * 1000 / 2
              then (0 : Int) else (((rightSensors.sensorCount - 1) * 1000 : Nat) : Int)),
            rightSensors, darkCalibrated.1, darkCalibrated.2) :=
  ⟨by decide, by decide,
    readLinePrivate_hysteresis demoPlatform rightSensors darkHardware 8 (fun _ => 0)
      ReadMode.On false darkCalibrated.1 darkCalibrated.2 (by decide) (by decide) (by decide)
      (by decide) (eq_some_getD _ _ (by decide)) (by decide)⟩

/-- C8: for a mode other than `Manual`, a sensor count from 1 to 64 whose largest position
fits `int`, calibrated values in `[0, 1000]`, either inversion setting and a last position
in range, `readLinePrivate` returns a value in `[0, (sensorCount − 1) × 1000]` and leaves a
last position in that range. -/
theorem readLinePrivate_range (P : Platform) (s : QTRSensors) (hw : Hardware) (fuel : Nat)
    (sensorValues : Buffer) (mode : ReadMode) (inv : Bool) (cal : Buffer) (hw1 : Hardware)
    (hmode : mode ≠ ReadMode.Manual) (hb : 16 ≤ P.intBits)
    (hfit : ((s.sensorCount : Int) - 1) * 1000 < (2 : Int) ^ (P.intBits - 1))
    (hn1 : 1 ≤ s.sensorCount) (hn : s.sensorCount ≤ 64)
    (hcal : readCalibrated P s hw fuel sensorValues mode = some (cal, hw1))
    (hv : ∀ i, i < s.sensorCount → cal i ≤ 1000)
    (hlast : s.lastPosition ≤ (s.sensorCount - 1) * 1000) :
    ∃ r s1, readLinePrivate P s hw fuel sensorValues mode inv = some (some r, s1, cal, hw1) ∧
      0 ≤ r ∧ r ≤ (((s.sensorCount - 1) * 1000 : Nat) : Int) ∧
      s1.lastPosition ≤ (s.sensorCount - 1) * 1000 := by
  have hv1 : ∀ i, i < s.sensorCount → lineValue inv (cal i) ≤ 1000 :=
    fun i hi => lineValue_le inv (cal i) (hv i hi)
  by_cases hseen : ∃ i, i < s.sensorCount ∧ 200 < lineValue inv (cal i)
  · obtain ⟨heq, -, -, -, hdiv⟩ := readLinePrivate_seen P s hw fuel sensorValues mode inv cal
      hw1 hmode hb hfit hn hcal hv1 hseen
    refine ⟨_, _, heq, ?_, ?_, hdiv⟩
    · exact Int.ofNat_nonneg _
    · exact_mod_cast hdiv
  · have hlost : ∀ i, i < s.sensorCount → lineValue inv (cal i) ≤ 200 := by
      intro i hi
      by_contra hgt
      exact hseen ⟨i, hi, by omega⟩
    refine ⟨_, _, readLinePrivate_lost P s hw fuel sensorValues mode inv cal hw1 hmode hb hfit
      hn1 hcal hlost, ?_, ?_, hlast⟩
    · split_ifs
      · exact le_refl _
      · exact Int.ofNat_nonneg _
    · split_ifs
      · exact Int.ofNat_nonneg _
      · exact le_refl _

/-- C8, on six sensors with the calibrated values 0, 0, 0, 1000, 1000, 0, inverted: the
position is 2000, within `[0, 5000]`. -/
theorem readLinePrivate_range_witness :
    (readLinePrivate demoPlatform lineSensors lineHardware 8 (fun _ => 0) ReadMode.On true).map
        (fun r => (r.1, r.2.1.lastPosition)) = some (some 2000, 2000) ∧
      ∃ r s1, readLinePrivate demoPlatform lineSensors lineHardware 8 (fun _ => 0) ReadMode.On
          true = some (some r, s1, lineCalibrated.1, lineCalibrated.2) ∧
        0 ≤ r ∧ r ≤ (((lineSensors.sensorCount - 1) * 1000 : Nat) : Int) ∧
        s1.lastPosition ≤ (lineSensors.sensorCount - 1) * 1000 :=
  ⟨by decide,
    readLinePrivate_range demoPlatform lineSensors lineHardware 8 (fun _ => 0) ReadMode.On
      true lineCalibrated.1 lineCalibrated.2 (by decide) (by decide) (by decide) (by decide)
      (by decide) (eq_some_getD _ _ (by decide)) (by decide) (by decide)⟩

/-! ## Verification: configuration sequences -/

theorem apply_tracks (s : QTRSensors) (c : ConfigCall)
    (h : MaxValueTracks s ∨ c.selectsType = true) : MaxValueTracks (c.apply s) := by
  cases c with
  | setTypeRC => simp [ConfigCall.apply, QTR.setTypeRC, MaxValueTracks]
  | setTypeAnalog => simp [ConfigCall.apply, QTR.setTypeAnalog, MaxValueTracks]
  | setTimeout t =>
    rcases h with h | h
    · obtain ⟨h1, h2, h3⟩ := h
      unfold ConfigCall.apply QTR.setTimeout MaxValueTracks
      by_cases hrc : s.type = SensorType.RC
      · simp [hrc]
      · simp only [if_neg hrc]
        exact ⟨fun h => absurd h hrc, h2, h3⟩
    · exact absurd h Bool.false_ne_true

theorem configure_tracks (calls : List ConfigCall) :
    ∀ s, (MaxValueTracks s ∨ ∃ c, c ∈ calls ∧ c.selectsType = true) →
      MaxValueTracks (configure s calls) := by
  induction calls with
  | nil =>
    intro s h
    rcases h with h | ⟨c, hc, _⟩
    · exact h
    · exact absurd hc (List.not_mem_nil c)
  | cons c cs ih =>
    intro s h
    show MaxValueTracks (configure (c.apply s) cs)
    apply ih
    rcases h with h | ⟨d, hd, hsel⟩
    · exact Or.inl (apply_tracks s c (Or.inl h))
    · rcases List.mem_cons.mp hd with rfl | hd
      · exact Or.inl (apply_tracks s d (Or.inr hsel))
      · exact Or.inr ⟨d, hd, hsel⟩

theorem setTimeout_timeout (s : QTRSensors) (t : Nat) : (QTR.setTimeout s t).timeout = t := by
  unfold QTR.setTimeout
  split_ifs <;> rfl

theorem setTimeout_type (s : QTRSensors) (t : Nat) : (QTR.setTimeout s t).type = s.type := by
  unfold QTR.setTimeout
  split_ifs <;> rfl

theorem configure_timeout (calls : List ConfigCall) :
    ∀ s, (configure s calls).timeout = lastTimeout s.timeout calls ∧
      (configure s calls).type = lastType s.type calls := by
  induction calls with
  | nil => intro s; exact ⟨rfl, rfl⟩
  | cons c cs ih =>
    intro s
    show (configure (c.apply s) cs).timeout = lastTimeout _ cs ∧
      (configure (c.apply s) cs).type = lastType _ cs
    rw [(ih (c.apply s)).1, (ih (c.apply s)).2]
    cases c with
    | setTypeRC => exact ⟨rfl, rfl⟩
    | setTypeAnalog => exact ⟨rfl, rfl⟩
    | setTimeout t =>
      exact ⟨congrArg (fun v => lastTimeout v cs) (setTimeout_timeout s t),
        congrArg (fun v => lastType v cs) (setTimeout_type s t)⟩

/-- C19: after any sequence of `setTypeRC`, `setTypeAnalog` and `setTimeout` calls that holds
at least one type selection, from any prior state, the type is RC or Analog and is the one
selected last; when it is RC, `MaxValue` is the timeout configured last (the prior timeout
when the sequence holds no `setTimeout`), and when it is Analog, `MaxValue` is 1023. -/
theorem configure_maxValue (s : QTRSensors) (calls : List ConfigCall)
    (h : ∃ c, c ∈ calls ∧ c.selectsType = true) :
    ((configure s calls).type = SensorType.RC ∨ (configure s calls).type = SensorType.Analog) ∧
      (configure s calls).type = lastType s.type calls ∧
      ((configure s calls).type = SensorType.RC →
        (configure s calls).maxValue = lastTimeout s.timeout calls) ∧
      ((configure s calls).type = SensorType.Analog → (configure s calls).maxValue = 1023) := by
  obtain ⟨h1, h2, h3⟩ := configure_tracks calls s (Or.inr h)
  obtain ⟨h4, h5⟩ := configure_timeout calls s
  refine ⟨?_, h5, ?_, h2⟩
  · cases ht : (configure s calls).type with
    | Undefined => exact absurd ht h3
    | RC => exact Or.inl rfl
    | Analog => exact Or.inr rfl
  · intro hrc
    rw [h1 hrc, h4]

/-- C19, on an analog object with timeout 1023: `setTimeout 2500`, `setTypeRC`,
`setTimeout 3000` leave type RC and `MaxValue` 3000, the timeout configured last. -/
theorem configure_maxValue_witness :
    (∃ c, c ∈ [ConfigCall.setTimeout 2500, ConfigCall.setTypeRC, ConfigCall.setTimeout 3000] ∧
        c.selectsType = true) ∧
      (configure lineSensors
        [ConfigCall.setTimeout 2500, ConfigCall.setTypeRC, ConfigCall.setTimeout 3000]).type
        = SensorType.RC ∧
      (configure lineSensors
        [ConfigCall.setTimeout 2500, ConfigCall.setTypeRC, ConfigCall.setTimeout 3000]).maxValue
        = 3000 ∧
      lastTimeout lineSensors.timeout
        [ConfigCall.setTimeout 2500, ConfigCall.setTypeRC, ConfigCall.setTimeout 3000] = 3000 ∧
      (((configure lineSensors
          [ConfigCall.setTimeout 2500, ConfigCall.setTypeRC, ConfigCall.setTimeout 3000]).type
          = SensorType.RC ∨
        (configure lineSensors
          [ConfigCall.setTimeout 2500, ConfigCall.setTypeRC, ConfigCall.setTimeout 3000]).type
          = SensorType.Analog) ∧
      (configure lineSensors
        [ConfigCall.setTimeout 2500, ConfigCall.setTypeRC, ConfigCall.setTimeout 3000]).type
        = lastType lineSensors.type
          [ConfigCall.setTimeout 2500, ConfigCall.setTypeRC, ConfigCall.setTimeout 3000] ∧
      ((configure lineSensors
          [ConfigCall.setTimeout 2500, ConfigCall.setTypeRC, ConfigCall.setTimeout 3000]).type
          = SensorType.RC →
        (configure lineSensors
          [ConfigCall.setTimeout 2500, ConfigCall.setTypeRC, ConfigCall.setTimeout 3000]).maxValue
          = lastTimeout lineSensors.timeout
            [ConfigCall.setTimeout 2500, ConfigCall.setTypeRC, ConfigCall.setTimeout 3000]) ∧
      ((configure lineSensors
          [ConfigCall.setTimeout 2500, ConfigCall.setTypeRC, ConfigCall.setTimeout 3000]).type
          = SensorType.Analog →
        (configure lineSensors
          [ConfigCall.setTimeout 2500, ConfigCall.setTypeRC, ConfigCall.setTimeout 3000]).maxValue
          = 1023)) :=
  ⟨⟨ConfigCall.setTypeRC, by decide, rfl⟩, by decide, by decide, by decide,
    configure_maxValue lineSensors
      [ConfigCall.setTimeout 2500, ConfigCall.setTypeRC, ConfigCall.setTimeout 3000]
      ⟨ConfigCall.setTypeRC, by decide, rfl⟩⟩

/-! ## Verification: `setSensorPins` -/

/-- C13, refuted as stated: on a calibrated object with six sensors, a `setSensorPins` call
for four pins whose allocation fails returns early: the pin array is gone, the sensor count
is still 6 and both calibration-initialized flags are still true. -/
theorem setSensorPins_failure_counterexample :
    lineSensors.calibrationInitializedOn = true ∧
      lineSensors.calibrationInitializedOff = true ∧
      (setSensorPins demoPlatform lineSensors fullHardware (fun i => 20 + i) 4).map
          (fun r => (r.1.calibrationInitializedOn, r.1.calibrationInitializedOff,
            r.1.sensorPins.isSome, r.1.sensorCount))
        = some (true, true, false, 6) := by
  decide

/-- C13, amended: for every requested sensor count and every prior state, when `realloc`
gives the pin array, `setSensorPins` returns and leaves both calibration-initialized flags
false, the sensor count the requested one capped at `MaxSensors`, and the pins copied; when
`realloc` returns a null pointer and the capped count is not 0 or no pin array was
allocated, it returns and only drops the pin array: the flags, the sensor count and every
other field keep their prior values; when `realloc` returns a null pointer for the capped
count 0 while a pin array was allocated, the behaviour is undefined (the array may be freed
twice). -/
theorem setSensorPins_invalidates (P : Platform) (s : QTRSensors) (hw : Hardware)
    (pins : Buffer) (sensorCount : Nat) :
    (hw.heap hw.calls = true →
      ∃ s1 hw1, setSensorPins P s hw pins sensorCount = some (s1, hw1) ∧
        s1.calibrationInitializedOn = false ∧ s1.calibrationInitializedOff = false ∧
        s1.sensorCount = min sensorCount P.MaxSensors ∧
        ∃ newPins, s1.sensorPins = some newPins ∧
          ∀ i, i < min sensorCount P.MaxSensors → newPins i = pins i) ∧
    (hw.heap hw.calls = false →
      (0 < min sensorCount P.MaxSensors ∨ s.sensorPins.isSome = false) →
      ∃ hw1, setSensorPins P s hw pins sensorCount
        = some ({ s with sensorPins := none }, hw1)) ∧
    (hw.heap hw.calls = false → min sensorCount P.MaxSensors = 0 →
      s.sensorPins.isSome = true → setSensorPins P s hw pins sensorCount = none) := by
  have hcount : (if P.MaxSensors < sensorCount then P.MaxSensors else sensorCount)
      = min sensorCount P.MaxSensors := by
    split_ifs <;> omega
  refine ⟨?_, ?_, ?_⟩
  · intro h
    have hr : (hw.realloc).1 = true := h
    have hne : ¬ ((hw.realloc).1 = false) := by rw [hr]; exact Bool.noConfusion
    unfold setSensorPins
    simp only [if_neg hne, hcount]
    refine ⟨_, _, rfl, rfl, rfl, rfl, _, rfl, ?_⟩
    intro i hi
    rw [forRange_update_apply (fun i _ => pins i), if_pos hi]
  · intro h hsafe
    have hr : (hw.realloc).1 = false := h
    have hne : ¬ (min sensorCount P.MaxSensors = 0 ∧ s.sensorPins.isSome = true) := by
      rintro ⟨h0, hp⟩
      rcases hsafe with hpos | hnone
      · omega
      · rw [hp] at hnone
        exact Bool.noConfusion hnone
    unfold setSensorPins
    simp only [if_pos hr, hcount, if_neg hne]
    exact ⟨_, rfl⟩
  · intro h h0 hp
    have hr : (hw.realloc).1 = false := h
    unfold setSensorPins
    simp only [if_pos hr, hcount, h0, hp, and_self, if_true]

/-- C13, on a calibrated object with six sensors: a call for 40 pins whose allocation
succeeds leaves both flags false and 31 sensors on the pins 20, 21, ...; a call for four
pins whose allocation fails only drops the pin array; a call for no pin that gets a null
pointer is undefined. -/
theorem setSensorPins_invalidates_witness :
    flatHardware.heap flatHardware.calls = true ∧
      fullHardware.heap fullHardware.calls = false ∧
      lineSensors.calibrationInitializedOn = true ∧
      (setSensorPins demoPlatform lineSensors flatHardware (fun i => 20 + i) 40).map
          (fun r => (r.1.calibrationInitializedOn, r.1.calibrationInitializedOff,
            r.1.sensorCount, r.1.sensorPins.map fun b => [b 0, b 30]))
        = some (false, false, 31, some [20, 50]) ∧
      (setSensorPins demoPlatform lineSensors flatHardware (fun i => 20 + i) 0).map
          (fun r => (r.1.calibrationInitializedOn, r.1.calibrationInitializedOff,
            r.1.sensorCount))
        = some (false, false, 0) ∧
      (∃ s1 hw1,
        setSensorPins demoPlatform lineSensors flatHardware (fun i => 20 + i) 40
          = some (s1, hw1) ∧
        s1.calibrationInitializedOn = false ∧ s1.calibrationInitializedOff = false ∧
        s1.sensorCount = min 40 demoPlatform.MaxSensors ∧
        ∃ newPins, s1.sensorPins = some newPins ∧
          ∀ i, i < min 40 demoPlatform.MaxSensors → newPins i = (fun i => 20 + i) i) ∧
      (∃ hw1, setSensorPins demoPlatform lineSensors fullHardware (fun i => 20 + i) 4
        = some ({ lineSensors with sensorPins := none }, hw1)) ∧
      setSensorPins demoPlatform lineSensors fullHardware (fun i => 20 + i) 0 = none :=
  ⟨by decide, by decide, by decide, by decide, by decide,
    (setSensorPins_invalidates demoPlatform lineSensors flatHardware (fun i => 20 + i) 40).1
      (by decide),
    (setSensorPins_invalidates demoPlatform lineSensors fullHardware (fun i => 20 + i)
      4).2.1 (by decide) (Or.inl (by decide)),
    (setSensorPins_invalidates demoPlatform lineSensors fullHardware (fun i => 20 + i)
      0).2.2 (by decide) (by decide) (by decide)⟩

/-! ## Verification: calibration passes -/

/-- C11: a calibration pass of `calibrateOnOrOff` on an initialized context whose ten
acquisitions complete returns, and leaves in every channel a stored maximum at least the
prior one and a stored minimum at most the prior one, whatever the ten acquisitions read. -/
theorem calibrateOnOrOff_monotone (P : Platform) (s : QTRSensors) (hw : Hardware) (fuel : Nat)
    (cmin cmax : Buffer) (mode : ReadMode) (e : Buffer × Buffer × Buffer × Hardware)
    (hsample : calibrateSample P s fuel mode (hw.junk, hw.junk, hw.junk, hw) = some e) :
    ∃ cmin1 cmax1, calibrateOnOrOff P s hw fuel (some cmin) (some cmax) true mode
        = some ((some cmin1, some cmax1, true), e.2.2.2) ∧
      ∀ i, cmax i ≤ cmax1 i ∧ cmin1 i ≤ cmin i := by
  refine ⟨(calibrateRecord s e.2.1 e.2.2.1 (cmin, cmax)).1,
    (calibrateRecord s e.2.1 e.2.2.1 (cmin, cmax)).2, ?_, ?_⟩
  · rw [calibrateOnOrOff_initialized, hsample]
    rfl
  · intro i
    have h := calibrateRecord_apply s e.2.1 e.2.2.1 (cmin, cmax) i
    dsimp only at h
    rw [h.1, h.2]
    constructor
    · split_ifs <;> omega
    · split_ifs <;> omega

/-- C11, on one analog channel whose ten readings are 500, ..., 509: from the bounds
(600, 400) the pass stores the minimum 509 and the maximum 500. -/
theorem calibrateOnOrOff_monotone_witness :
    calibrateSample demoPlatform freshSensors 8 ReadMode.On
        (rampHardware.junk, rampHardware.junk, rampHardware.junk, rampHardware)
        = some rampSample ∧
      (calibrateOnOrOff demoPlatform freshSensors rampHardware 8 (some fun _ => 600)
          (some fun _ => 400) true ReadMode.On).map
          (fun r => (r.1.1.map fun b => b 0, r.1.2.1.map fun b => b 0))
        = some (some 509, some 500) ∧
      ∃ cmin1 cmax1,
        calibrateOnOrOff demoPlatform freshSensors rampHardware 8 (some fun _ => 600)
            (some fun _ => 400) true ReadMode.On
          = some ((some cmin1, some cmax1, true), rampSample.2.2.2) ∧
        ∀ i, (fun _ => 400 : Buffer) i ≤ cmax1 i ∧ cmin1 i ≤ (fun _ => 600 : Buffer) i :=
  ⟨eq_some_getD _ (fun _ => 0, fun _ => 0, fun _ => 0, rampHardware) (by decide), by decide,
    calibrateOnOrOff_monotone demoPlatform freshSensors rampHardware 8 (fun _ => 600)
      (fun _ => 400) ReadMode.On rampSample
      (eq_some_getD _ (fun _ => 0, fun _ => 0, fun _ => 0, rampHardware) (by decide))⟩

/-! ## Verification: the divisor of the centroid -/

theorem lineSums_sum (P : Platform) (cal : Buffer) (inv : Bool) :
    ∀ m, m ≤ 65 → (∀ i, i < m → lineValue inv (cal i) ≤ 1000) →
      (forRange
        (fun i (acc : Bool × Nat × Nat) =>
          let value : Nat := lineValue inv (cal i)
          let onLine : Bool := if 200 < value then true else acc.1
          if 50 < value then
            (onLine,
              wrap32 (acc.2.1 +
                wrap32 (value * toUnsigned 32 (toSigned P.intBits ((i : Int) * 1000)))),
              wrap16 (acc.2.2 + value))
          else (onLine, acc.2.1, acc.2.2))
        m (false, 0, 0)).2.2 = plainSum (fun i => lineValue inv (cal i)) m ∧
      plainSum (fun i => lineValue inv (cal i)) m ≤ 1000 * m := by
  intro m
  induction m with
  | zero =>
    intro _ _
    simp [forRange, plainSum]
  | succ m ih =>
    intro hm hv
    obtain ⟨ih1, ih2⟩ := ih (Nat.le_of_succ_le hm) (fun i hi => hv i (Nat.lt_succ_of_lt hi))
    have hx := hv m (Nat.lt_succ_self m)
    rw [plainSum_succ]
    simp only [forRange]
    generalize hS : plainSum (fun i => lineValue inv (cal i)) m = S at ih1 ih2 ⊢
    generalize hxe : lineValue inv (cal m) = x at hx ⊢
    by_cases h50 : 50 < x
    · simp only [if_pos h50, ih1]
      have e3 : wrap16 (S + x) = S + x := by
        unfold wrap16; omega
      rw [e3]
      exact ⟨rfl, by omega⟩
    · simp only [if_neg h50, ih1, Nat.add_zero, true_and]
      omega

/-- C20: for a mode other than `Manual`, a sensor count of at most 64 and (optionally
inverted) calibrated values in `[0, 1000]` of which one exceeds 200, the line is seen, the
16-bit sum that `readLinePrivate` divides by is the plain sum of the values above 50, not
wrapped, at most 64000 and strictly positive, and `readLinePrivate` returns the quotient of
the two sums: the division is defined. -/
theorem readLinePrivate_divisor (P : Platform) (s : QTRSensors) (hw : Hardware) (fuel : Nat)
    (sensorValues : Buffer) (mode : ReadMode) (inv : Bool) (cal : Buffer) (hw1 : Hardware)
    (hmode : mode ≠ ReadMode.Manual) (hn : s.sensorCount ≤ 64)
    (hcal : readCalibrated P s hw fuel sensorValues mode = some (cal, hw1))
    (hv : ∀ i, i < s.sensorCount → lineValue inv (cal i) ≤ 1000)
    (hseen : ∃ i, i < s.sensorCount ∧ 200 < lineValue inv (cal i)) :
    (lineSums P s cal inv).1 = true ∧
      (lineSums P s cal inv).2.2 = plainSum (fun i => lineValue inv (cal i)) s.sensorCount ∧
      (lineSums P s cal inv).2.2 ≤ 64000 ∧ 0 < (lineSums P s cal inv).2.2 ∧
      ∃ r, readLinePrivate P s hw fuel sensorValues mode inv
        = some (some (toSigned P.intBits
            ((wrap16 ((lineSums P s cal inv).2.1 / (lineSums P s cal inv).2.2) : Nat) : Int)),
          r, cal, hw1) := by
  have hline : (lineSums P s cal inv).1 = true := by
    rw [lineSums_onLine]
    exact decide_eq_true hseen
  obtain ⟨hsum, hle⟩ := lineSums_sum P cal inv s.sensorCount (by omega) hv
  have hsum2 : (lineSums P s cal inv).2.2
      = plainSum (fun i => lineValue inv (cal i)) s.sensorCount := hsum
  have hpos := plainSum_pos (fun i => lineValue inv (cal i)) s.sensorCount hseen
  refine ⟨hline, hsum2, by omega, by omega, ?_⟩
  have hne : ¬ ((lineSums P s cal inv).1 = false) := by
    rw [hline]; exact Bool.noConfusion
  have hne0 : ¬ ((lineSums P s cal inv).2.2 = 0) := by omega
  unfold readLinePrivate
  rw [if_neg hmode, hcal]
  simp only [Option.some_bind]
  rw [if_neg hne, if_neg hne0]
  exact ⟨_, rfl⟩

/-- C20, on six sensors with the calibrated values 0, 0, 0, 1000, 1000, 0: the divisor is
2000 and the position returned is 7000000 / 2000 = 3500. -/
theorem readLinePrivate_divisor_witness :
    readCalibrated demoPlatform lineSensors lineHardware 8 (fun _ => 0) ReadMode.On
        = some (lineCalibrated.1, lineCalibrated.2) ∧
      lineSums demoPlatform lineSensors lineCalibrated.1 false = (true, 7000000, 2000) ∧
      (readLinePrivate demoPlatform lineSensors lineHardware 8 (fun _ => 0) ReadMode.On
        false).map (fun r => r.1) = some (some 3500) ∧
      ((lineSums demoPlatform lineSensors lineCalibrated.1 false).1 = true ∧
        (lineSums demoPlatform lineSensors lineCalibrated.1 false).2.2
          = plainSum (fun i => lineValue false (lineCalibrated.1 i)) lineSensors.sensorCount ∧
        (lineSums demoPlatform lineSensors lineCalibrated.1 false).2.2 ≤ 64000 ∧
        0 < (lineSums demoPlatform lineSensors lineCalibrated.1 false).2.2 ∧
        ∃ r, readLinePrivate demoPlatform lineSensors lineHardware 8 (fun _ => 0) ReadMode.On
            false
          = some (some (toSigned demoPlatform.intBits
              ((wrap16 ((lineSums demoPlatform lineSensors lineCalibrated.1 false).2.1
                / (lineSums demoPlatform lineSensors lineCalibrated.1 false).2.2) : Nat)
                : Int)),
            r, lineCalibrated.1, lineCalibrated.2)) :=
  ⟨eq_some_getD _ _ (by decide), by decide, by decide,
    readLinePrivate_divisor demoPlatform lineSensors lineHardware 8 (fun _ => 0) ReadMode.On
      false lineCalibrated.1 lineCalibrated.2 (by decide) (by decide)
      (eq_some_getD _ _ (by decide)) (by decide) (by decide)⟩

/-! ## Verification: the outlier-rejecting update -/

theorem sampleExtremes_apply (n j : Nat) (r : Buffer) (m : Buffer × Buffer) :
    ∀ k,
      (forRange
        (fun i (m : Buffer × Buffer) =>
          let mx := if j = 0 ∨ m.1 i < r i then Function.update m.1 i (r i) else m.1
          let mn := if j = 0 ∨ r i < m.2 i then Function.update m.2 i (r i) else m.2
          (mx, mn)) n m).1 k
        = (if k < n then (if j = 0 ∨ m.1 k < r k then r k else m.1 k) else m.1 k) ∧
      (forRange
        (fun i (m : Buffer × Buffer) =>
          let mx := if j = 0 ∨ m.1 i < r i then Function.update m.1 i (r i) else m.1
          let mn := if j = 0 ∨ r i < m.2 i then Function.update m.2 i (r i) else m.2
          (mx, mn)) n m).2 k
        = (if k < n then (if j = 0 ∨ r k < m.2 k then r k else m.2 k) else m.2 k) := by
  induction n with
  | zero => intro k; simp [forRange]
  | succ n ih =>
    intro k
    have hn := ih n
    simp only [lt_irrefl, if_false] at hn
    simp only [forRange]
    by_cases hk : k = n
    · subst hk
      rw [hn.1, hn.2]
      constructor
      · split_ifs <;> simp_all
      · split_ifs <;> simp_all
    · have h2 : k < n + 1 ↔ k < n := by
        constructor
        · intro h
          exact (Nat.lt_succ_iff_lt_or_eq.mp h).elim id (fun h3 => absurd h3 hk)
        · exact Nat.lt_succ_of_lt
      simp only [h2]
      rw [← (ih k).1, ← (ih k).2]
      constructor
      · split_ifs
        · rw [Function.update_noteq hk]
        · rfl
      · split_ifs
        · rw [Function.update_noteq hk]
        · rfl

theorem calibrateSample_loop (P : Platform) (s : QTRSensors) (fuel : Nat) (mode : ReadMode)
    (st : Buffer × Buffer × Buffer × Hardware) :
    ∀ j rs sv hw1,
      calibrateReadings P s fuel mode j (st.1, st.2.2.2) = some (rs, sv, hw1) →
      rs.length = j ∧
      ∃ mx mn,
        forRangeM
          (fun j (a : Buffer × Buffer × Buffer × Hardware) =>
            (read P s a.2.2.2 fuel a.1 mode).bind fun r =>
              let mm : Buffer × Buffer :=
                forRange
                  (fun i (m : Buffer × Buffer) =>
                    let mx := if j = 0 ∨ m.1 i < r.1 i then Function.update m.1 i (r.1 i)
                      else m.1
                    let mn := if j = 0 ∨ r.1 i < m.2 i then Function.update m.2 i (r.1 i)
                      else m.2
                    (mx, mn))
                  s.sensorCount (a.2.1, a.2.2.1)
              some (r.1, mm.1, mm.2, r.2))
          j st = some (sv, mx, mn, hw1) ∧
        (0 < j → ∀ k, k < s.sensorCount → IsLargest rs k (mx k) ∧ IsSmallest rs k (mn k)) := by
  intro j
  induction j with
  | zero =>
    intro rs sv hw1 h
    simp only [calibrateReadings, Option.some.injEq, Prod.mk.injEq] at h
    obtain ⟨h1, h2, h3⟩ := h
    subst h1 h2 h3
    exact ⟨rfl, st.2.1, st.2.2.1, rfl, fun h => absurd h (Nat.lt_irrefl 0)⟩
  | succ j ih =>
    intro rs sv hw1 h
    simp only [calibrateReadings, Option.bind_eq_some, Option.map_eq_some'] at h
    obtain ⟨a, ha, r, hr, hres⟩ := h
    obtain ⟨hlen, mx, mn, hloop, hext⟩ := ih a.1 a.2.1 a.2.2 ha
    simp only [Prod.mk.injEq] at hres
    obtain ⟨h1, h2, h3⟩ := hres
    subst h1 h2 h3
    refine ⟨by simp [hlen], ?_⟩
    simp only [forRangeM, hloop, Option.some_bind, hr]
    refine ⟨_, _, rfl, ?_⟩
    intro _ k hk
    have hap := sampleExtremes_apply s.sensorCount j r.1 (mx, mn) k
    simp only [if_pos hk] at hap
    rw [hap.1, hap.2]
    by_cases hj : j = 0
    · subst hj
      have hnil : a.1 = [] := List.length_eq_zero.mp hlen
      simp only [hnil, List.nil_append, true_or, if_true]
      exact ⟨⟨⟨r.1, List.mem_singleton.mpr rfl, rfl⟩,
          fun x hx => by rw [List.mem_singleton.mp hx]⟩,
        ⟨⟨r.1, List.mem_singleton.mpr rfl, rfl⟩,
          fun x hx => by rw [List.mem_singleton.mp hx]⟩⟩
    · obtain ⟨⟨⟨x, hx, hxe⟩, hub⟩, ⟨⟨y, hy, hye⟩, hlb⟩⟩ := hext (Nat.pos_of_ne_zero hj) k hk
      simp only [hj, false_or]
      constructor
      · by_cases hc : mx k < r.1 k
        · rw [if_pos hc]
          refine ⟨⟨r.1, by simp, rfl⟩, ?_⟩
          intro z hz
          rcases List.mem_append.mp hz with hz | hz
          · have := hub z hz
            omega
          · rw [List.mem_singleton.mp hz]
        · rw [if_neg hc]
          refine ⟨⟨x, List.mem_append_left _ hx, hxe⟩, ?_⟩
          intro z hz
          rcases List.mem_append.mp hz with hz | hz
          · exact hub z hz
          · rw [List.mem_singleton.mp hz]
            omega
      · by_cases hc : r.1 k < mn k
        · rw [if_pos hc]
          refine ⟨⟨r.1, by simp, rfl⟩, ?_⟩
          intro z hz
          rcases List.mem_append.mp hz with hz | hz
          · have := hlb z hz
            omega
          · rw [List.mem_singleton.mp hz]
        · rw [if_neg hc]
          refine ⟨⟨y, List.mem_append_left _ hy, hye⟩, ?_⟩
          intro z hz
          rcases List.mem_append.mp hz with hz | hz
          · exact hlb z hz
          · rw [List.mem_singleton.mp hz]
            omega

/-- C12: in one calibration pass on an initialized context whose ten reads `rs` complete,
for every channel the stored maximum changes exactly when all ten readings are strictly
greater than the prior stored maximum, and it is then the smallest of the ten readings; the
stored minimum changes exactly when all ten readings are strictly less than the prior stored
minimum, and it is then the largest of the ten readings. -/
theorem calibrateOnOrOff_update (P : Platform) (s : QTRSensors) (hw : Hardware) (fuel : Nat)
    (cmin cmax : Buffer) (mode : ReadMode) (rs : List Buffer) (sv : Buffer) (hw1 : Hardware)
    (hreads : calibrateReadings P s fuel mode 10 (hw.junk, hw) = some (rs, sv, hw1)) :
    rs.length = 10 ∧
      ∃ cmin1 cmax1, calibrateOnOrOff P s hw fuel (some cmin) (some cmax) true mode
          = some ((some cmin1, some cmax1, true), hw1) ∧
        ∀ i, i < s.sensorCount →
          (cmax1 i ≠ cmax i ↔ ∀ r, r ∈ rs → cmax i < r i) ∧
          (cmax1 i ≠ cmax i → IsSmallest rs i (cmax1 i)) ∧
          (cmin1 i ≠ cmin i ↔ ∀ r, r ∈ rs → r i < cmin i) ∧
          (cmin1 i ≠ cmin i → IsLargest rs i (cmin1 i)) := by
  obtain ⟨hlen, mx, mn, hloop, hext⟩ :=
    calibrateSample_loop P s fuel mode (hw.junk, hw.junk, hw.junk, hw) 10 rs sv hw1 hreads
  have hsample : calibrateSample P s fuel mode (hw.junk, hw.junk, hw.junk, hw)
      = some (sv, mx, mn, hw1) := hloop
  refine ⟨hlen, (calibrateRecord s mx mn (cmin, cmax)).1,
    (calibrateRecord s mx mn (cmin, cmax)).2, ?_, ?_⟩
  · rw [calibrateOnOrOff_initialized, hsample]
    rfl
  · intro i hi
    have h := calibrateRecord_apply s mx mn (cmin, cmax) i
    dsimp only at h
    rw [if_pos hi, if_pos hi] at h
    obtain ⟨⟨⟨x, hx, hxe⟩, hub⟩, ⟨⟨y, hy, hye⟩, hlb⟩⟩ := hext (by decide) i hi
    rw [h.1, h.2]
    refine ⟨?_, ?_, ?_, ?_⟩
    · constructor
      · intro hne r hr
        by_cases hc : cmax i < mn i
        · have := hlb r hr
          omega
        · rw [if_neg hc] at hne
          exact absurd rfl hne
      · intro hall
        have hc : cmax i < mn i := by
          rw [hye]; exact hall y hy
        rw [if_pos hc]
        omega
    · intro hne
      by_cases hc : cmax i < mn i
      · rw [if_pos hc]
        exact ⟨⟨y, hy, hye⟩, hlb⟩
      · rw [if_neg hc] at hne
        exact absurd rfl hne
    · constructor
      · intro hne r hr
        by_cases hc : mx i < cmin i
        · have := hub r hr
          omega
        · rw [if_neg hc] at hne
          exact absurd rfl hne
      · intro hall
        have hc : mx i < cmin i := by
          rw [hxe]; exact hall x hx
        rw [if_pos hc]
        omega
    · intro hne
      by_cases hc : mx i < cmin i
      · rw [if_pos hc]
        exact ⟨⟨x, hx, hxe⟩, hub⟩
      · rw [if_neg hc] at hne
        exact absurd rfl hne

/-- C12, on one analog channel whose ten readings are 500, ..., 509: from the bounds
(600, 400) both bounds change, to the largest reading 509 and the smallest reading 500; from
the bounds (505, 503) neither changes. -/
theorem calibrateOnOrOff_update_witness :
    calibrateReadings demoPlatform freshSensors 8 ReadMode.On 10
        (rampHardware.junk, rampHardware)
        = some (rampReadings.1, rampReadings.2.1, rampReadings.2.2) ∧
      rampReadings.1.map (fun r => r 0)
        = [500, 501, 502, 503, 504, 505, 506, 507, 508, 509] ∧
      (calibrateOnOrOff demoPlatform freshSensors rampHardware 8 (some fun _ => 600)
          (some fun _ => 400) true ReadMode.On).map
          (fun r => (r.1.1.map fun b => b 0, r.1.2.1.map fun b => b 0))
        = some (some 509, some 500) ∧
      (calibrateOnOrOff demoPlatform freshSensors rampHardware 8 (some fun _ => 505)
          (some fun _ => 503) true ReadMode.On).map
          (fun r => (r.1.1.map fun b => b 0, r.1.2.1.map fun b => b 0))
        = some (some 505, some 503) ∧
      (rampReadings.1.length = 10 ∧
        ∃ cmin1 cmax1,
          calibrateOnOrOff demoPlatform freshSensors rampHardware 8 (some fun _ => 600)
              (some fun _ => 400) true ReadMode.On
            = some ((some cmin1, some cmax1, true), rampReadings.2.2) ∧
          ∀ i, i < freshSensors.sensorCount →
            (cmax1 i ≠ (fun _ => 400 : Buffer) i ↔
              ∀ r, r ∈ rampReadings.1 → (fun _ => 400 : Buffer) i < r i) ∧
            (cmax1 i ≠ (fun _ => 400 : Buffer) i → IsSmallest rampReadings.1 i (cmax1 i)) ∧
            (cmin1 i ≠ (fun _ => 600 : Buffer) i ↔
              ∀ r, r ∈ rampReadings.1 → r i < (fun _ => 600 : Buffer) i) ∧
            (cmin1 i ≠ (fun _ => 600 : Buffer) i → IsLargest rampReadings.1 i (cmin1 i))) :=
  ⟨eq_some_getD _ ([], fun _ => 0, rampHardware) (by decide), by decide, by decide, by decide,
    calibrateOnOrOff_update demoPlatform freshSensors rampHardware 8 (fun _ => 600)
      (fun _ => 400) ReadMode.On rampReadings.1 rampReadings.2.1 rampReadings.2.2
      (eq_some_getD _ ([], fun _ => 0, rampHardware) (by decide))⟩

/-! ## Verification: strided acquisition (`readPrivate`) -/

theorem strided_start (count start step : Nat) (h : start < count) :
    Strided count start step start := by
  refine ⟨h, Nat.le_refl _, ?_⟩
  rw [Nat.sub_self, Nat.zero_mod]

theorem strided_succ (count start step k : Nat) (hstep : 1 ≤ step) (hk : k ≠ start) :
    Strided count (start + step) step k ↔ Strided count start step k := by
  unfold Strided
  constructor
  · rintro ⟨h1, h2, h3⟩
    refine ⟨h1, by omega, ?_⟩
    have e : k - start = (k - (start + step)) + step := by omega
    rw [e, Nat.add_mod_right]
    exact h3
  · rintro ⟨h1, h2, h3⟩
    have hge : step ≤ k - start := by
      by_contra hlt
      rw [Nat.mod_eq_of_lt (by omega)] at h3
      omega
    refine ⟨h1, by omega, ?_⟩
    have e : k - start = (k - (start + step)) + step := by omega
    rw [e, Nat.add_mod_right] at h3
    exact h3

theorem strided_div (start step k : Nat) (hstep : 1 ≤ step) (hk : start + step ≤ k) :
    (k - start) / step = (k - (start + step)) / step + 1 := by
  have e : k - start = (k - (start + step)) + step := by omega
  rw [e, Nat.add_div_right _ (by omega)]

theorem forStride_update {α : Type} (count step : Nat) (val : Nat → α → Hardware → α)
    (nxt : Nat → Hardware → Hardware) (hstep : 1 ≤ step) (hwrap : count + step ≤ 256) :
    ∀ (fuel start : Nat) (b : Nat → α) (h : Hardware),
      forStride count step
          (fun i (a : (Nat → α) × Hardware) =>
            (Function.update a.1 i (val i (a.1 i) a.2), nxt i a.2))
          fuel start (b, h)
        = (forStride count step nxt fuel start h).map fun h1 =>
            (fun k => if Strided count start step k
              then val k (b k) (strideHardware nxt step ((k - start) / step) start h)
              else b k, h1) := by
  intro fuel
  induction fuel with
  | zero => intro start b h; rfl
  | succ fuel ih =>
    intro start b h
    by_cases hlt : start < count
    · have hw8 : wrap8 (start + step) = start + step := by
        unfold wrap8; omega
      simp only [forStride, if_pos hlt, hw8]
      rw [ih]
      congr 1
      funext h1
      congr 1
      funext k
      by_cases hk : k = start
      · subst hk
        have hn : ¬ Strided count (k + step) step k := by
          rintro ⟨-, h2, -⟩
          omega
        rw [if_neg hn, if_pos (strided_start count k step hlt), Function.update_same,
          Nat.sub_self, Nat.zero_div]
        rfl
      · rw [Function.update_noteq hk]
        by_cases hs : Strided count start step k
        · have hs1 := (strided_succ count start step k hstep hk).mpr hs
          rw [if_pos hs, if_pos hs1, strided_div start step k hstep hs1.2.1]
          rfl
        · have hs1 : ¬ Strided count (start + step) step k :=
            fun h => hs ((strided_succ count start step k hstep hk).mp h)
          rw [if_neg hs, if_neg hs1]
    · simp only [forStride, if_neg hlt, Option.map_some']
      congr 2
      funext k
      have hn : ¬ Strided count start step k := by
        rintro ⟨h1, h2, -⟩
        omega
      rw [if_neg hn]

theorem forStride_same (count step : Nat) (hstep : 1 ≤ step) (hwrap : count + step ≤ 256) :
    ∀ (fuel start : Nat) (h : Hardware), count - start < fuel →
      forStride count step (fun _ (x : Hardware) => x) fuel start h = some h := by
  intro fuel
  induction fuel with
  | zero => intro start h hf; omega
  | succ fuel ih =>
    intro start h hf
    by_cases hlt : start < count
    · have hw8 : wrap8 (start + step) = start + step := by
        unfold wrap8; omega
      simp only [forStride, if_pos hlt, hw8]
      exact ih (start + step) h (by omega)
    · simp only [forStride, if_neg hlt]

theorem forStride_isSome {σ : Type} (count step : Nat) (body : Nat → σ → σ) (hstep : 1 ≤ step)
    (hwrap : count + step ≤ 256) :
    ∀ (fuel start : Nat) (st : σ), count - start < fuel →
      (forStride count step body fuel start st).isSome = true := by
  intro fuel
  induction fuel with
  | zero => intro start h hf; omega
  | succ fuel ih =>
    intro start h hf
    by_cases hlt : start < count
    · have hw8 : wrap8 (start + step) = start + step := by
        unfold wrap8; omega
      simp only [forStride, if_pos hlt, hw8]
      exact ih (start + step) _ (by omega)
    · simp only [forStride, if_neg hlt, Option.isSome_some]

theorem rcPoll_body (pins : Buffer) (time1 : Nat) :
    (fun i (a : Buffer × Hardware) =>
      let d := a.2.digitalRead (pins i)
      if d.1 = LOW ∧ time1 < a.1 i then (Function.update a.1 i time1, d.2) else (a.1, d.2))
      = (fun i (a : Buffer × Hardware) =>
          (Function.update a.1 i
            (if (a.2.digitalRead (pins i)).1 = LOW ∧ time1 < a.1 i then time1 else a.1 i),
            (a.2.digitalRead (pins i)).2)) := by
  funext i a
  by_cases h : (a.2.digitalRead (pins i)).1 = LOW ∧ time1 < a.1 i
  · simp only [if_pos h]
  · simp only [if_neg h, Function.update_eq_self]

theorem rcPoll_eq (s : QTRSensors) (pins : Buffer) (startTime start step fuel0 : Nat)
    (hstep : 1 ≤ step) (hwrap : s.sensorCount + step ≤ 256) :
    ∀ (fuel time : Nat) (b : Buffer) (hw : Hardware),
      rcPoll s pins startTime start step fuel0 fuel time (b, hw)
        = (rcSamples s pins startTime start step fuel0 fuel time hw).map fun r =>
            (fun k => if Strided s.sensorCount start step k then decayFold k r.1 (b k) else b k,
              r.2) := by
  intro fuel
  induction fuel with
  | zero => intro time b hw; rfl
  | succ fuel ih =>
    intro time b hw
    by_cases hlt : time < s.maxValue
    · simp only [rcPoll, rcSamples, if_pos hlt, rcPoll_body]
      rw [forStride_update s.sensorCount step
        (fun i v h =>
          if (h.digitalRead (pins i)).1 = LOW ∧
              wrap16 (wrap32 (hw.noInterrupts.micros.1 + 4294967296 - startTime)) < v
            then wrap16 (wrap32 (hw.noInterrupts.micros.1 + 4294967296 - startTime)) else v)
        (fun i h => (h.digitalRead (pins i)).2) hstep hwrap]
      rw [forStride_update s.sensorCount step
        (fun i (_ : Bool) h => (h.digitalRead (pins i)).1)
        (fun i h => (h.digitalRead (pins i)).2) hstep hwrap]
      cases hf : forStride s.sensorCount step (fun i h => (h.digitalRead (pins i)).2) fuel0
          start hw.noInterrupts.micros.2 with
      | none => rfl
      | some h1 =>
        simp only [Option.map_some', Option.some_bind]
        rw [ih]
        cases hs : rcSamples s pins startTime start step fuel0 fuel
            (wrap16 (wrap32 (hw.noInterrupts.micros.1 + 4294967296 - startTime)))
            h1.interrupts with
        | none => rfl
        | some r =>
          simp only [Option.map_some', Option.some.injEq, Prod.mk.injEq, and_true]
          funext k
          by_cases hk : Strided s.sensorCount start step k
          · simp only [if_pos hk, decayFold, List.foldl_cons]
          · simp only [if_neg hk]
    · simp only [rcPoll, rcSamples, if_neg hlt, Option.map_some', decayFold, List.foldl_nil,
        ite_self]

theorem readPrivate_rc_eq (P : Platform) (s : QTRSensors) (hw : Hardware) (fuel : Nat)
    (b : Buffer) (start step : Nat) (pins : Buffer)
    (hpins : s.sensorPins = some pins) (htype : s.type = SensorType.RC)
    (hstep : 1 ≤ step) (hwrap : s.sensorCount + step ≤ 256) :
    readPrivate P s hw fuel b start step
      = (rcTrace s pins hw fuel start step).map fun r =>
          (fun k => if Strided s.sensorCount start step k then decayFold k r.1 s.maxValue
            else b k, r.2) := by
  unfold readPrivate rcTrace
  simp only [hpins, htype]
  rw [forStride_update s.sensorCount step (fun _ (_ : Nat) _ => s.maxValue)
    (fun i h => (h.pinMode (pins i) OUTPUT).digitalWrite (pins i) HIGH) hstep hwrap]
  cases h1e : forStride s.sensorCount step
      (fun i h => (h.pinMode (pins i) OUTPUT).digitalWrite (pins i) HIGH) fuel start hw with
  | none => rfl
  | some h1 =>
    simp only [Option.map_some', Option.some_bind]
    cases h2e : forStride s.sensorCount step (fun i h => h.pinMode (pins i) INPUT) fuel start
        ((h1.delayMicroseconds 10).noInterrupts).micros.2 with
    | none => rfl
    | some h2 =>
      simp only [Option.some_bind]
      rw [rcPoll_eq s pins _ start step fuel hstep hwrap]
      congr 1
      funext r
      congr 1
      funext k
      by_cases hk : Strided s.sensorCount start step k
      · simp only [if_pos hk]
      · simp only [if_neg hk]

theorem decayFold_of_le (k : Nat) (trace : List (Nat × (Nat → Bool))) :
    ∀ v, (∀ smp, smp ∈ trace → v ≤ smp.1) → decayFold k trace v = v := by
  induction trace with
  | nil => intro v _; rfl
  | cons smp rest ih =>
    intro v h
    have h1 := h smp (List.mem_cons_self _ _)
    have hn : ¬ (smp.2 k = LOW ∧ smp.1 < v) := by
      rintro ⟨-, h2⟩
      omega
    simp only [decayFold, List.foldl_cons, if_neg hn]
    exact ih v (fun x hx => h x (List.mem_cons_of_mem _ hx))

theorem decayFold_sorted (maxValue k : Nat) (trace : List (Nat × (Nat → Bool)))
    (hsorted : (trace.map Prod.fst).Pairwise (fun x y => x ≤ y)) :
    decayFold k trace maxValue = decayTime maxValue k trace := by
  induction trace with
  | nil => rfl
  | cons smp rest ih =>
    rw [List.map_cons, List.pairwise_cons] at hsorted
    obtain ⟨hhead, htail⟩ := hsorted
    by_cases hc : smp.2 k = LOW ∧ smp.1 < maxValue
    · simp only [decayFold, List.foldl_cons, decayTime, if_pos hc]
      apply decayFold_of_le
      intro x hx
      exact hhead x.1 (List.mem_map_of_mem _ hx)
    · simp only [decayFold, List.foldl_cons, decayTime, if_neg hc]
      exact ih htail

theorem analogSamples_length (s : QTRSensors) (pins : Buffer) (start step fuel0 : Nat) :
    ∀ (j : Nat) (hw : Hardware) (r : List Buffer × Hardware),
      analogSamples s pins start step fuel0 j hw = some r → r.1.length = j := by
  intro j
  induction j with
  | zero =>
    intro hw r h
    simp only [analogSamples, Option.some.injEq] at h
    subst h
    rfl
  | succ j ih =>
    intro hw r h
    simp only [analogSamples, Option.bind_eq_some, Option.map_eq_some'] at h
    obtain ⟨a, ha, c, -, hr⟩ := h
    subst hr
    simp [ih hw a ha]

theorem analogRounds_eq (s : QTRSensors) (pins : Buffer) (start step fuel0 : Nat)
    (hstep : 1 ≤ step) (hwrap : s.sensorCount + step ≤ 256) :
    ∀ (j : Nat) (b : Buffer) (hw : Hardware),
      forRangeM
          (fun _ (b : Buffer × Hardware) =>
            forStride s.sensorCount step
              (fun i (c : Buffer × Hardware) =>
                let r := c.2.analogRead (pins i)
                (Function.update c.1 i (wrap16 (c.1 i + r.1)), r.2))
              fuel0 start b)
          j (b, hw)
        = (analogSamples s pins start step fuel0 j hw).map fun r =>
            (fun k => if Strided s.sensorCount start step k then accumulate k r.1 (b k)
              else b k, r.2) := by
  intro j
  induction j with
  | zero =>
    intro b hw
    simp only [forRangeM, analogSamples, Option.map_some', accumulate, List.foldl_nil, ite_self]
  | succ j ih =>
    intro b hw
    simp only [forRangeM, analogSamples]
    rw [ih]
    cases ha : analogSamples s pins start step fuel0 j hw with
    | none => rfl
    | some a =>
      simp only [Option.map_some', Option.some_bind]
      rw [forStride_update s.sensorCount step
        (fun i v h => wrap16 (v + (h.analogRead (pins i)).1))
        (fun i h => (h.analogRead (pins i)).2) hstep hwrap]
      rw [forStride_update s.sensorCount step
        (fun i (_ : Nat) h => (h.analogRead (pins i)).1)
        (fun i h => (h.analogRead (pins i)).2) hstep hwrap]
      cases hf : forStride s.sensorCount step (fun i h => (h.analogRead (pins i)).2) fuel0
          start a.2 with
      | none => rfl
      | some h1 =>
        simp only [Option.map_some', Option.some.injEq, Prod.mk.injEq, and_true]
        funext k
        by_cases hk : Strided s.sensorCount start step k
        · simp only [if_pos hk, accumulate, List.foldl_append, List.foldl_cons, List.foldl_nil]
        · simp only [if_neg hk]

theorem readPrivate_analog_eq (P : Platform) (s : QTRSensors) (hw : Hardware) (fuel : Nat)
    (b : Buffer) (start step : Nat) (pins : Buffer)
    (hpins : s.sensorPins = some pins) (htype : s.type = SensorType.Analog)
    (hstep : 1 ≤ step) (hwrap : s.sensorCount + step ≤ 256) :
    readPrivate P s hw fuel b start step
      = (analogTrace s pins hw fuel start step).map fun r =>
          (fun k => if Strided s.sensorCount start step k
            then roundedAverage P s.samplesPerSensor (accumulate k r.1 0) else b k, r.2) := by
  unfold readPrivate analogTrace
  simp only [hpins, htype]
  rw [forStride_update s.sensorCount step (fun _ (_ : Nat) _ => 0) (fun _ h => h) hstep hwrap]
  cases h0e : forStride s.sensorCount step (fun _ (h : Hardware) => h) fuel start hw with
  | none => rfl
  | some h0 =>
    simp only [Option.map_some', Option.some_bind]
    rw [analogRounds_eq s pins start step fuel hstep hwrap]
    cases hr : analogSamples s pins start step fuel s.samplesPerSensor h0 with
    | none => rfl
    | some r =>
      simp only [Option.map_some', Option.some_bind]
      by_cases hz : s.samplesPerSensor = 0 ∧ start < s.sensorCount
      · simp only [if_pos hz, Option.map_none']
      · simp only [if_neg hz]
        rw [forStride_update s.sensorCount step
          (fun _ v _ =>
            wrap16 ((if P.intBits ≤ 16 then wrap16 (v + s.samplesPerSensor / 2)
              else v + s.samplesPerSensor / 2) / s.samplesPerSensor))
          (fun _ h => h) hstep hwrap]
        simp only [Option.map_map]
        congr 1
        funext h3
        simp only [Function.comp, Prod.mk.injEq, and_true]
        funext k
        by_cases hk : Strided s.sensorCount start step k
        · simp only [if_pos hk, roundedAverage]
        · simp only [if_neg hk]

theorem accumulate_exact (k : Nat) (rounds : List Buffer) :
    ∀ v, (∀ c, c ∈ rounds → c k ≤ 1023) → v + 1023 * rounds.length < 65536 →
      accumulate k rounds v = v + (rounds.map fun c => c k).sum ∧
      (rounds.map fun c => c k).sum ≤ 1023 * rounds.length := by
  induction rounds with
  | nil => intro v _ _; exact ⟨rfl, Nat.le_refl _⟩
  | cons c rest ih =>
    intro v hc hv
    have h1 := hc c (List.mem_cons_self _ _)
    simp only [List.length_cons] at hv
    have hw : wrap16 (v + c k) = v + c k := by
      unfold wrap16; omega
    obtain ⟨e1, e2⟩ := ih (v + c k) (fun x hx => hc x (List.mem_cons_of_mem _ hx)) (by omega)
    simp only [accumulate, List.foldl_cons, hw, List.map_cons, List.sum_cons, List.length_cons]
    have e3 : List.foldl (fun v c => wrap16 (v + c k)) (v + c k) rest
        = v + c k + (rest.map fun c => c k).sum := e1
    rw [e3]
    generalize (rest.map fun c => c k).sum = S at e2 ⊢
    clear e1 e3 ih hc
    constructor
    · omega
    · omega

theorem roundedAverage_exact (P : Platform) (n acc : Nat) (hn : 1 ≤ n) (hn64 : n ≤ 64)
    (hacc : acc ≤ 1023 * n) :
    roundedAverage P n acc = (acc + n / 2) / n ∧ (acc + n / 2) / n ≤ 1023 := by
  have hhalf : n / 2 < n := Nat.div_lt_self (by omega) (by omega)
  have hle : (acc + n / 2) / n ≤ 1023 := by
    have : (acc + n / 2) / n < 1024 := by
      rw [Nat.div_lt_iff_lt_mul (by omega)]
      omega
    omega
  have hw : wrap16 (acc + n / 2) = acc + n / 2 := by
    unfold wrap16; omega
  unfold roundedAverage
  rw [hw, ite_self]
  refine ⟨?_, hle⟩
  generalize (acc + n / 2) / n = q at hle ⊢
  unfold wrap16
  omega

theorem analogTrace_length (s : QTRSensors) (pins : Buffer) (hw : Hardware)
    (fuel start step : Nat) (rounds : List Buffer) (hw1 : Hardware)
    (h : analogTrace s pins hw fuel start step = some (rounds, hw1)) :
    rounds.length = s.samplesPerSensor := by
  unfold analogTrace at h
  simp only [Option.bind_eq_some] at h
  obtain ⟨h0, -, r, hr, hrest⟩ := h
  have hlen := analogSamples_length s pins start step fuel _ h0 r hr
  split_ifs at hrest
  simp only [Option.map_eq_some', Prod.mk.injEq] at hrest
  obtain ⟨h3, -, e1, -⟩ := hrest
  rw [← e1]
  exact hlen

theorem frame_of_map {τ : Type} (count start step : Nat) (T : Option (τ × Hardware))
    (w : τ → Nat → Nat) (b0 b1 : Buffer) (hw1 : Hardware)
    (h : (T.map fun (r : τ × Hardware) =>
        (fun k => if Strided count start step k then w r.1 k else b0 k, r.2))
      = some (b1, hw1)) (b : Buffer) :
    (T.map fun (r : τ × Hardware) =>
        (fun k => if Strided count start step k then w r.1 k else b k, r.2))
      = some (fun k => if Strided count start step k then b1 k else b k, hw1) := by
  cases T with
  | none => exact absurd h (fun h => Option.noConfusion h)
  | some r =>
    simp only [Option.map_some', Option.some.injEq, Prod.mk.injEq] at h ⊢
    obtain ⟨h1, h2⟩ := h
    refine ⟨?_, h2⟩
    funext k
    by_cases hk : Strided count start step k
    · simp only [if_pos hk]
      have := congrFun h1 k
      simp only [if_pos hk] at this
      exact this
    · simp only [if_neg hk]

theorem readPrivate_unconfigured (P : Platform) (s : QTRSensors) (hw : Hardware) (fuel : Nat)
    (b : Buffer) (start step : Nat)
    (h : s.sensorPins = none ∨ s.type = SensorType.Undefined) :
    readPrivate P s hw fuel b start step = some (b, hw) := by
  unfold readPrivate
  rcases h with h | h
  · simp only [h]
  · cases hp : s.sensorPins with
    | none => rfl
    | some pins => simp only [h]

/-- C16, refuted as stated: with two sensors in use, start index 1 and stride 255, the 8-bit
loop index goes from 1 to 0 (1 + 255 = 256 wraps), so `readPrivate` overwrites slot 0, which
is not one of the slots 1, 256, ... below the sensor count. -/
theorem readPrivate_stride_counterexample :
    (readPrivate demoPlatform pairSensors flatHardware 8 (fun _ => 7) 1 255).map
        (fun a => [a.1 0, a.1 1, a.1 2]) = some [500, 500, 7] ∧
      ¬ Strided pairSensors.sensorCount 1 255 0 := by
  decide

/-- C16, amended: for every start index and every stride at least 1 with
`sensorCount + stride ≤ 256` (the 8-bit loop index cannot wrap), when the pin array is not
allocated or no sensor type was selected `readPrivate` returns with the buffer and the
hardware untouched; otherwise an acquisition that returns writes exactly the slots `start`,
`start + stride`, ... below the sensor count: from any other prior buffer it returns too,
with the same values in those slots, whatever they held, and every other slot unchanged. -/
theorem readPrivate_strided (P : Platform) (s : QTRSensors) (hw : Hardware) (fuel : Nat)
    (start step : Nat) (hstep : 1 ≤ step) (hwrap : s.sensorCount + step ≤ 256) :
    (s.sensorPins = none ∨ s.type = SensorType.Undefined →
      ∀ b, readPrivate P s hw fuel b start step = some (b, hw)) ∧
    (s.sensorPins ≠ none → s.type ≠ SensorType.Undefined →
      ∀ b0 b1 hw1, readPrivate P s hw fuel b0 start step = some (b1, hw1) →
        ∀ b, readPrivate P s hw fuel b start step
          = some (fun k => if Strided s.sensorCount start step k then b1 k else b k, hw1)) := by
  constructor
  · intro h b
    exact readPrivate_unconfigured P s hw fuel b start step h
  · intro hp ht b0 b1 hw1 h b
    cases hpins : s.sensorPins with
    | none => exact absurd hpins hp
    | some pins =>
      cases htype : s.type with
      | Undefined => exact absurd htype ht
      | RC =>
        rw [readPrivate_rc_eq P s hw fuel b0 start step pins hpins htype hstep hwrap] at h
        rw [readPrivate_rc_eq P s hw fuel b start step pins hpins htype hstep hwrap]
        exact frame_of_map s.sensorCount start step _
          (fun tr k => decayFold k tr s.maxValue) b0 b1 hw1 h b
      | Analog =>
        rw [readPrivate_analog_eq P s hw fuel b0 start step pins hpins htype hstep hwrap] at h
        rw [readPrivate_analog_eq P s hw fuel b start step pins hpins htype hstep hwrap]
        exact frame_of_map s.sensorCount start step _
          (fun rs k => roundedAverage P s.samplesPerSensor (accumulate k rs 0)) b0 b1 hw1 h b

/-- C16, on six analog channels converting to 500, start index 1 and stride 2: the slots 1,
3 and 5 are written and the others keep their 7 or 9; without a pin array nothing is
written. -/
theorem readPrivate_strided_witness :
    (readPrivate demoPlatform lineSensors flatHardware 8 (fun _ => 7) 1 2).map
        (fun a => (List.range 7).map a.1) = some [7, 500, 7, 500, 7, 500, 7] ∧
      (readPrivate demoPlatform lineSensors flatHardware 8 (fun _ => 9) 1 2).map
        (fun a => (List.range 7).map a.1) = some [9, 500, 9, 500, 9, 500, 9] ∧
      readPrivate demoPlatform unpinnedSensors flatHardware 8 (fun _ => 9) 1 2
        = some (fun _ => 9, flatHardware) ∧
      readPrivate demoPlatform lineSensors flatHardware 8 (fun _ => 9) 1 2
        = some (fun k => if Strided lineSensors.sensorCount 1 2 k then strideRaw.1 k
            else (fun _ => 9 : Buffer) k, strideRaw.2) :=
  ⟨by decide, by decide,
    (readPrivate_strided demoPlatform unpinnedSensors flatHardware 8 1 2 (by decide)
      (by decide)).1 (Or.inl rfl) (fun _ => 9),
    (readPrivate_strided demoPlatform lineSensors flatHardware 8 1 2 (by decide)
      (by decide)).2 (fun h => Option.noConfusion h) (by decide) (fun _ => 7) strideRaw.1
      strideRaw.2 (eq_some_getD _ (fun _ => 0, flatHardware) (by decide)) (fun _ => 9)⟩

/-! ## Verification: decay times and rounded averages -/

/-- C14: in an RC acquisition without index wrap whose sampling instants `trace` (elapsed
time and line levels of every pass of the polling loop) have non-decreasing elapsed times,
`readPrivate` returns and leaves in every targeted channel the elapsed time of the first
sampling instant at which its line read low with the elapsed time below `MaxValue`, whatever
the later instants show, and exactly `MaxValue` when there is no such instant; the other
channels keep their values. -/
theorem readPrivate_decay (P : Platform) (s : QTRSensors) (hw : Hardware) (fuel : Nat)
    (b : Buffer) (start step : Nat) (pins : Buffer) (trace : List (Nat × (Nat → Bool)))
    (hw1 : Hardware)
    (hpins : s.sensorPins = some pins) (htype : s.type = SensorType.RC)
    (hstep : 1 ≤ step) (hwrap : s.sensorCount + step ≤ 256)
    (htrace : rcTrace s pins hw fuel start step = some (trace, hw1))
    (hsorted : (trace.map Prod.fst).Pairwise (fun x y => x ≤ y)) :
    readPrivate P s hw fuel b start step
      = some (fun k => if Strided s.sensorCount start step k
          then decayTime s.maxValue k trace else b k, hw1) := by
  rw [readPrivate_rc_eq P s hw fuel b start step pins hpins htype hstep hwrap, htrace]
  simp only [Option.map_some', decayFold_sorted s.maxValue _ trace hsorted]

/-- C14, on two RC channels with `MaxValue` 1000 sampled at 250, 500, 750 and 1000: channel
0, first read low at 500, reports 500 although it reads low again at 750; channel 1, never
read low, reports 1000. -/
theorem readPrivate_decay_witness :
    rcTrace combinedSensors (fun i => 14 + i) decayHardware 8 0 1
        = some (decayTrace.1, decayTrace.2) ∧
      decayTrace.1.map (fun smp => (smp.1, smp.2 0, smp.2 1))
        = [(250, true, true), (500, false, true), (750, false, true), (1000, false, true)] ∧
      (readPrivate demoPlatform combinedSensors decayHardware 8 (fun _ => 7) 0 1).map
        (fun a => [a.1 0, a.1 1, a.1 2]) = some [500, 1000, 7] ∧
      decayTime combinedSensors.maxValue 0 decayTrace.1 = 500 ∧
      decayTime combinedSensors.maxValue 1 decayTrace.1 = 1000 ∧
      readPrivate demoPlatform combinedSensors decayHardware 8 (fun _ => 7) 0 1
        = some (fun k => if Strided combinedSensors.sensorCount 0 1 k
            then decayTime combinedSensors.maxValue k decayTrace.1
            else (fun _ => 7 : Buffer) k, decayTrace.2) :=
  ⟨eq_some_getD _ ([], decayHardware) (by decide), by decide, by decide, by decide, by decide,
    readPrivate_decay demoPlatform combinedSensors decayHardware 8 (fun _ => 7) 0 1
      (fun i => 14 + i) decayTrace.1 decayTrace.2 rfl rfl (by decide) (by decide)
      (eq_some_getD _ ([], decayHardware) (by decide)) (by decide)⟩

/-- C15: in an analog acquisition without index wrap, with a configured sample count `n`,
`1 ≤ n ≤ 64`, whose conversions `rounds` (one array per sampling round) are all at most 1023
on the channels in use, there are `n` rounds and `readPrivate` returns and leaves in every
targeted channel `(sum + n / 2) / n`, rounded down, where `sum` adds its `n` conversions; the
16-bit accumulator holds `sum` exactly, `sum + n / 2` is below 65536, and the result is at
most 1023; the other channels keep their values. -/
theorem readPrivate_average (P : Platform) (s : QTRSensors) (hw : Hardware) (fuel : Nat)
    (b : Buffer) (start step : Nat) (pins : Buffer) (rounds : List Buffer) (hw1 : Hardware)
    (hpins : s.sensorPins = some pins) (htype : s.type = SensorType.Analog)
    (hstep : 1 ≤ step) (hwrap : s.sensorCount + step ≤ 256)
    (hn : 1 ≤ s.samplesPerSensor) (hn64 : s.samplesPerSensor ≤ 64)
    (hrounds : analogTrace s pins hw fuel start step = some (rounds, hw1))
    (hconv : ∀ c, c ∈ rounds → ∀ k, k < s.sensorCount → c k ≤ 1023) :
    rounds.length = s.samplesPerSensor ∧
      readPrivate P s hw fuel b start step
        = some (fun k => if Strided s.sensorCount start step k
            then ((rounds.map fun c => c k).sum + s.samplesPerSensor / 2) / s.samplesPerSensor
            else b k, hw1) ∧
      ∀ k, Strided s.sensorCount start step k →
        accumulate k rounds 0 = (rounds.map fun c => c k).sum ∧
        (rounds.map fun c => c k).sum + s.samplesPerSensor / 2 < 65536 ∧
        ((rounds.map fun c => c k).sum + s.samplesPerSensor / 2) / s.samplesPerSensor
          ≤ 1023 := by
  have hlen := analogTrace_length s pins hw fuel start step rounds hw1 hrounds
  have hacc : ∀ k, k < s.sensorCount →
      accumulate k rounds 0 = (rounds.map fun c => c k).sum ∧
      (rounds.map fun c => c k).sum ≤ 1023 * s.samplesPerSensor := by
    intro k hk
    have h := accumulate_exact k rounds 0 (fun c hc => hconv c hc k hk) (by rw [hlen]; omega)
    rw [hlen, Nat.zero_add] at h
    exact h
  refine ⟨hlen, ?_, ?_⟩
  · rw [readPrivate_analog_eq P s hw fuel b start step pins hpins htype hstep hwrap, hrounds]
    simp only [Option.map_some', Option.some.injEq, Prod.mk.injEq, and_true]
    funext k
    by_cases hk : Strided s.sensorCount start step k
    · simp only [if_pos hk]
      rw [(hacc k hk.1).1]
      exact (roundedAverage_exact P _ _ hn hn64 (hacc k hk.1).2).1
    · simp only [if_neg hk]
  · intro k hk
    have hhalf : s.samplesPerSensor / 2 < s.samplesPerSensor :=
      Nat.div_lt_self (by omega) (by omega)
    refine ⟨(hacc k hk.1).1, ?_, (roundedAverage_exact P _ _ hn hn64 (hacc k hk.1).2).2⟩
    have hsum := (hacc k hk.1).2
    generalize (rounds.map fun c => c k).sum = S at hsum ⊢
    clear hacc hconv
    omega

/-- C15, on six analog channels read four times, the even ones targeted, with the
conversions 500, 501, ..., 511 in order: channel 0 converts to 500, 503, 506 and 509, whose
sum 2018 gives (2018 + 2) / 4 = 505; channels 2 and 4 give 506 and 507. -/
theorem readPrivate_average_witness :
    averageSensors.samplesPerSensor = 4 ∧
      analogTrace averageSensors (fun i => 14 + i) rampHardware 8 0 2
        = some (averageTrace.1, averageTrace.2) ∧
      averageTrace.1.map (fun c => (List.range 6).map c)
        = [[500, 0, 501, 0, 502, 0], [503, 0, 504, 0, 505, 0], [506, 0, 507, 0, 508, 0],
          [509, 0, 510, 0, 511, 0]] ∧
      (readPrivate demoPlatform averageSensors rampHardware 8 (fun _ => 7) 0 2).map
        (fun a => (List.range 7).map a.1) = some [505, 7, 506, 7, 507, 7, 7] ∧
      (averageTrace.1.length = averageSensors.samplesPerSensor ∧
        readPrivate demoPlatform averageSensors rampHardware 8 (fun _ => 7) 0 2
          = some (fun k => if Strided averageSensors.sensorCount 0 2 k
              then ((averageTrace.1.map fun c => c k).sum + averageSensors.samplesPerSensor / 2)
                / averageSensors.samplesPerSensor
              else (fun _ => 7 : Buffer) k, averageTrace.2) ∧
        ∀ k, Strided averageSensors.sensorCount 0 2 k →
          accumulate k averageTrace.1 0 = (averageTrace.1.map fun c => c k).sum ∧
          (averageTrace.1.map fun c => c k).sum + averageSensors.samplesPerSensor / 2
            < 65536 ∧
          ((averageTrace.1.map fun c => c k).sum + averageSensors.samplesPerSensor / 2)
            / averageSensors.samplesPerSensor ≤ 1023) :=
  ⟨by decide, eq_some_getD _ ([], rampHardware) (by decide), by decide, by decide,
    readPrivate_average demoPlatform averageSensors rampHardware 8 (fun _ => 7) 0 2
      (fun i => 14 + i) averageTrace.1 averageTrace.2 rfl rfl (by decide) (by decide)
      (by decide) (by decide) (eq_some_getD _ ([], rampHardware) (by decide)) (by decide)⟩

/-! ## Verification: emitters -/

namespace Hardware

@[simp]
theorem tick_log (h : Hardware) : h.tick.log = h.log := rfl

@[simp]
theorem tick_latch (h : Hardware) : h.tick.latch = h.latch := rfl

@[simp]
theorem tick_output (h : Hardware) : h.tick.output = h.output := rfl

@[simp]
theorem tick_masked (h : Hardware) : h.tick.masked = h.masked := rfl

@[simp]
theorem tick_line (h : Hardware) : h.tick.line = h.line := rfl

@[simp]
theorem digitalWrite_log (h : Hardware) (pin : Nat) (v : Bool) :
    (h.digitalWrite pin v).log = h.log ++ [HwEvent.digitalWrite pin v] := rfl

@[simp]
theorem digitalWrite_latch (h : Hardware) (pin : Nat) (v : Bool) :
    (h.digitalWrite pin v).latch = Function.update h.latch pin v := rfl

@[simp]
theorem digitalWrite_output (h : Hardware) (pin : Nat) (v : Bool) :
    (h.digitalWrite pin v).output = h.output := rfl

@[simp]
theorem digitalWrite_masked (h : Hardware) (pin : Nat) (v : Bool) :
    (h.digitalWrite pin v).masked = h.masked := rfl

@[simp]
theorem digitalWrite_line (h : Hardware) (pin : Nat) (v : Bool) :
    (h.digitalWrite pin v).line = h.line := rfl

@[simp]
theorem delayMicroseconds_log (h : Hardware) (us : Nat) :
    (h.delayMicroseconds us).log = h.log ++ [HwEvent.delayMicroseconds us] := rfl

@[simp]
theorem delayMicroseconds_latch (h : Hardware) (us : Nat) :
    (h.delayMicroseconds us).latch = h.latch := rfl

@[simp]
theorem delayMicroseconds_output (h : Hardware) (us : Nat) :
    (h.delayMicroseconds us).output = h.output := rfl

@[simp]
theorem delayMicroseconds_masked (h : Hardware) (us : Nat) :
    (h.delayMicroseconds us).masked = h.masked := rfl

@[simp]
theorem delayMicroseconds_line (h : Hardware) (us : Nat) :
    (h.delayMicroseconds us).line = h.line := rfl

@[simp]
theorem digitalRead_snd (h : Hardware) (pin : Nat) : (h.digitalRead pin).2 = h.tick := rfl

@[simp]
theorem micros_snd (h : Hardware) : h.micros.2 = h.tick := rfl

@[simp]
theorem noInterrupts_log (h : Hardware) :
    h.noInterrupts.log = h.log ++ [HwEvent.noInterrupts] := rfl

@[simp]
theorem noInterrupts_latch (h : Hardware) : h.noInterrupts.latch = h.latch := rfl

@[simp]
theorem noInterrupts_output (h : Hardware) : h.noInterrupts.output = h.output := rfl

@[simp]
theorem noInterrupts_masked (h : Hardware) : h.noInterrupts.masked = true := rfl

@[simp]
theorem interrupts_log (h : Hardware) :
    h.interrupts.log = h.log ++ [HwEvent.interrupts] := rfl

@[simp]
theorem interrupts_latch (h : Hardware) : h.interrupts.latch = h.latch := rfl

@[simp]
theorem interrupts_output (h : Hardware) : h.interrupts.output = h.output := rfl

@[simp]
theorem interrupts_masked (h : Hardware) : h.interrupts.masked = false := rfl

end Hardware

theorem pulses_spec (pin : Nat) (h : Hardware) (d : Nat) :
    (forRange
        (fun _ h =>
          (((h.delayMicroseconds 1).digitalWrite pin LOW).delayMicroseconds 1).digitalWrite
            pin HIGH) d h).log = h.log ++ pulseTrain pin d ∧
      (forRange
        (fun _ h =>
          (((h.delayMicroseconds 1).digitalWrite pin LOW).delayMicroseconds 1).digitalWrite
            pin HIGH) d h).masked = h.masked ∧
      (0 < d → (forRange
        (fun _ h =>
          (((h.delayMicroseconds 1).digitalWrite pin LOW).delayMicroseconds 1).digitalWrite
            pin HIGH) d h).latch pin = HIGH) := by
  induction d with
  | zero => simp [forRange, pulseTrain]
  | succ d ih =>
    obtain ⟨h1, h2, -⟩ := ih
    simp only [forRange, pulseTrain]
    generalize forRange
      (fun _ h =>
        (((h.delayMicroseconds 1).digitalWrite pin LOW).delayMicroseconds 1).digitalWrite
          pin HIGH) d h = x at h1 h2 ⊢
    refine ⟨?_, ?_, ?_⟩
    · simp [h1]
    · simp [h2]
    · intro _
      simp

/-- C18: for dimmable emitters, a dimming level configured by `setDimmingLevel` from a
request `d` of at least 1 (the level is `d` capped at 31, so `d` itself for `d` in 1..31) and
an emitter pin that reads high, `emittersOnWithPin` issues exactly these events: write low,
delay 1200 us, write high, disable interrupts, as many repetitions of (delay 1 us, write
low, delay 1 us, write high) as the level, enable interrupts; the pin ends high, and the
pulses lie between the disabling and the enabling of the interrupts, which end enabled. -/
theorem emittersOnWithPin_pulses (s : QTRSensors) (hw : Hardware) (pin d : Nat)
    (hdim : s.dimmable = true) (hd : 1 ≤ d) (hhigh : (hw.digitalRead pin).1 = HIGH) :
    (setDimmingLevel s d).dimmingLevel = min d 31 ∧
      (emittersOnWithPin (setDimmingLevel s d) hw pin).2.log
        = hw.log ++
          [HwEvent.digitalWrite pin LOW, HwEvent.delayMicroseconds 1200,
            HwEvent.digitalWrite pin HIGH, HwEvent.noInterrupts] ++
          pulseTrain pin (min d 31) ++ [HwEvent.interrupts] ∧
      (emittersOnWithPin (setDimmingLevel s d) hw pin).2.latch pin = HIGH ∧
      (emittersOnWithPin (setDimmingLevel s d) hw pin).2.masked = false := by
  have hlevel : (setDimmingLevel s d).dimmingLevel = min d 31 := by
    unfold setDimmingLevel
    simp only
    split_ifs <;> omega
  have hdim1 : (setDimmingLevel s d).dimmable = true := hdim
  have hpos : 0 < min d 31 := by omega
  refine ⟨hlevel, ?_⟩
  have key : (emittersOnWithPin (setDimmingLevel s d) hw pin).2
      = (forRange
          (fun _ h =>
            (((h.delayMicroseconds 1).digitalWrite pin LOW).delayMicroseconds 1).digitalWrite
              pin HIGH)
          (min d 31)
          ((((hw.digitalRead pin).2.digitalWrite pin LOW).delayMicroseconds 1200).digitalWrite
            pin HIGH).micros.2.noInterrupts).interrupts := by
    unfold emittersOnWithPin
    simp only [hdim1, hlevel, if_true, hhigh, hpos, and_self]
  obtain ⟨h1, -, h3⟩ := pulses_spec pin
    ((((hw.digitalRead pin).2.digitalWrite pin LOW).delayMicroseconds 1200).digitalWrite pin
      HIGH).micros.2.noInterrupts (min d 31)
  have ebase : ((((hw.digitalRead pin).2.digitalWrite pin LOW).delayMicroseconds
      1200).digitalWrite pin HIGH).micros.2.noInterrupts.log
      = hw.log ++ [HwEvent.digitalWrite pin LOW, HwEvent.delayMicroseconds 1200,
          HwEvent.digitalWrite pin HIGH, HwEvent.noInterrupts] := by
    simp
  rw [key, Hardware.interrupts_log, Hardware.interrupts_latch, h1, ebase, h3 hpos]
  exact ⟨rfl, rfl, rfl⟩

/-- C18, on dimmable emitters with the level 2 and pin 3 reading high: the events are write
low, delay 1200, write high, disable interrupts, two pulses, enable interrupts. -/
theorem emittersOnWithPin_pulses_witness :
    dimmableSensors.dimmable = true ∧ 1 ≤ 2 ∧ (flatHardware.digitalRead 3).1 = HIGH ∧
      (emittersOnWithPin (setDimmingLevel dimmableSensors 2) flatHardware 3).2.log
        = [HwEvent.digitalWrite 3 LOW, HwEvent.delayMicroseconds 1200,
          HwEvent.digitalWrite 3 HIGH, HwEvent.noInterrupts,
          HwEvent.delayMicroseconds 1, HwEvent.digitalWrite 3 LOW,
          HwEvent.delayMicroseconds 1, HwEvent.digitalWrite 3 HIGH,
          HwEvent.delayMicroseconds 1, HwEvent.digitalWrite 3 LOW,
          HwEvent.delayMicroseconds 1, HwEvent.digitalWrite 3 HIGH, HwEvent.interrupts] ∧
      ((setDimmingLevel dimmableSensors 2).dimmingLevel = min 2 31 ∧
        (emittersOnWithPin (setDimmingLevel dimmableSensors 2) flatHardware 3).2.log
          = flatHardware.log ++
            [HwEvent.digitalWrite 3 LOW, HwEvent.delayMicroseconds 1200,
              HwEvent.digitalWrite 3 HIGH, HwEvent.noInterrupts] ++
            pulseTrain 3 (min 2 31) ++ [HwEvent.interrupts] ∧
        (emittersOnWithPin (setDimmingLevel dimmableSensors 2) flatHardware 3).2.latch 3
          = HIGH ∧
        (emittersOnWithPin (setDimmingLevel dimmableSensors 2) flatHardware 3).2.masked
          = false) :=
  ⟨by decide, by decide, by decide, by decide,
    emittersOnWithPin_pulses dimmableSensors flatHardware 3 2 (by decide) (by decide)
      (by decide)⟩

theorem digitalRead_of_readsLevel (hw h : Hardware) (pin : Nat) (level : Bool)
    (hr : ReadsLevel hw pin level) (ho : h.output = hw.output) (hl : h.latch = hw.latch)
    (hn : h.line = hw.line) : (h.digitalRead pin).1 = level := by
  have := hr h.calls
  unfold Hardware.digitalRead
  simp only [ho, hl, hn]
  exact this

theorem emittersOff_eq (P : Platform) (s : QTRSensors) (hw : Hardware) (emitters : Emitters)
    (wait : Bool) :
    emittersOff P s hw emitters wait
      = (if wait = true ∧ (emittersOffBanks P s hw emitters).1 = true then
          if s.dimmable then (emittersOffBanks P s hw emitters).2.delayMicroseconds 1200
          else (emittersOffBanks P s hw emitters).2.delayMicroseconds 200
        else (emittersOffBanks P s hw emitters).2) := by
  have h1 : (if emitters = Emitters.All ∨ (s.emitterPinCount = 2 ∧ emitters = Emitters.Odd) then
        if s.oddEmitterPin ≠ P.NoEmitterPin then emittersOffBank hw s.oddEmitterPin false
        else (false, hw)
      else (false, hw))
      = (if oddTargeted P s emitters then emittersOffBank hw s.oddEmitterPin false
          else (false, hw)) := by
    unfold oddTargeted
    split_ifs <;> simp_all
  have h2 : ∀ r : Bool × Hardware,
      (if s.emitterPinCount = 2 ∧ (emitters = Emitters.All ∨ emitters = Emitters.Even) then
        if s.evenEmitterPin ≠ P.NoEmitterPin then emittersOffBank r.2 s.evenEmitterPin r.1
        else r
      else r)
      = (if evenTargeted P s emitters then emittersOffBank r.2 s.evenEmitterPin r.1 else r) := by
    intro r
    unfold evenTargeted
    split_ifs <;> simp_all
  unfold emittersOffBanks
  rw [← h1, ← h2]
  rfl

theorem emittersOffBank_frame (hw : Hardware) (pin : Nat) (c : Bool) :
    (emittersOffBank hw pin c).2.output = hw.output ∧
      (emittersOffBank hw pin c).2.line = hw.line ∧
      (∀ q, (emittersOffBank hw pin c).2.latch q = LOW ∨
        (emittersOffBank hw pin c).2.latch q = hw.latch q) ∧
      (hw.output pin = true → (emittersOffBank hw pin c).2.latch pin = LOW) := by
  unfold emittersOffBank
  by_cases h : (hw.digitalRead pin).1 = HIGH
  · simp only [h, if_true]
    refine ⟨rfl, rfl, ?_, ?_⟩
    · intro q
      by_cases hq : q = pin
      · left; subst hq; simp
      · right; simp [Function.update_noteq hq]
    · intro _; simp
  · simp only [h, if_false]
    refine ⟨rfl, rfl, fun q => Or.inr rfl, ?_⟩
    intro ho
    have : (hw.digitalRead pin).1 = hw.latch pin := by
      unfold Hardware.digitalRead
      simp [ho]
    rw [this] at h
    simpa using h

theorem emittersOffBank_of_low (hw : Hardware) (pin : Nat) (c : Bool)
    (h : (hw.digitalRead pin).1 = LOW) : emittersOffBank hw pin c = (c, hw.tick) := by
  unfold emittersOffBank
  simp [h]

theorem readsLevel_congr (h hw : Hardware) (pin : Nat) (level : Bool)
    (ho : h.output = hw.output) (hl : h.latch = hw.latch) (hn : h.line = hw.line) :
    ReadsLevel h pin level ↔ ReadsLevel hw pin level := by
  unfold ReadsLevel
  rw [ho, hl, hn]

theorem readsLevel_of_output (hw : Hardware) (pin : Nat) (ho : hw.output pin = true) :
    ReadsLevel hw pin (hw.latch pin) := by
  intro k
  simp [ho]

theorem emittersOffBanks_of_low (P : Platform) (s : QTRSensors) (hw : Hardware)
    (emitters : Emitters)
    (hodd : oddTargeted P s emitters → ReadsLevel hw s.oddEmitterPin LOW)
    (heven : evenTargeted P s emitters → ReadsLevel hw s.evenEmitterPin LOW) :
    (emittersOffBanks P s hw emitters).1 = false ∧
      (emittersOffBanks P s hw emitters).2.log = hw.log ∧
      (emittersOffBanks P s hw emitters).2.latch = hw.latch ∧
      (emittersOffBanks P s hw emitters).2.output = hw.output ∧
      (emittersOffBanks P s hw emitters).2.line = hw.line := by
  unfold emittersOffBanks
  by_cases c1 : oddTargeted P s emitters <;> by_cases c2 : evenTargeted P s emitters
  · have r1 := digitalRead_of_readsLevel hw hw s.oddEmitterPin LOW (hodd c1) rfl rfl rfl
    have r2 := digitalRead_of_readsLevel hw hw.tick s.evenEmitterPin LOW (heven c2) rfl rfl rfl
    simp [if_pos c1, if_pos c2, emittersOffBank_of_low _ _ _ r1, emittersOffBank_of_low _ _ _ r2]
  · have r1 := digitalRead_of_readsLevel hw hw s.oddEmitterPin LOW (hodd c1) rfl rfl rfl
    simp [if_pos c1, if_neg c2, emittersOffBank_of_low _ _ _ r1]
  · have r2 := digitalRead_of_readsLevel hw hw s.evenEmitterPin LOW (heven c2) rfl rfl rfl
    simp [if_neg c1, if_pos c2, emittersOffBank_of_low _ _ _ r2]
  · simp [if_neg c1, if_neg c2]

theorem emittersOff_of_low (P : Platform) (s : QTRSensors) (hw : Hardware)
    (emitters : Emitters) (wait : Bool)
    (hodd : oddTargeted P s emitters → ReadsLevel hw s.oddEmitterPin LOW)
    (heven : evenTargeted P s emitters → ReadsLevel hw s.evenEmitterPin LOW) :
    (emittersOff P s hw emitters wait).log = hw.log ∧
      (emittersOff P s hw emitters wait).latch = hw.latch ∧
      (emittersOff P s hw emitters wait).output = hw.output ∧
      (emittersOff P s hw emitters wait).line = hw.line := by
  obtain ⟨h0, h1, h2, h3, h4⟩ := emittersOffBanks_of_low P s hw emitters hodd heven
  rw [emittersOff_eq]
  have hne : ¬ (wait = true ∧ (emittersOffBanks P s hw emitters).1 = true) := by
    rw [h0]
    rintro ⟨-, h⟩
    exact Bool.false_ne_true h
  rw [if_neg hne]
  exact ⟨h1, h2, h3, h4⟩

theorem emittersOffBanks_post (P : Platform) (s : QTRSensors) (hw : Hardware)
    (emitters : Emitters) :
    (emittersOffBanks P s hw emitters).2.output = hw.output ∧
      (emittersOffBanks P s hw emitters).2.line = hw.line ∧
      (oddTargeted P s emitters → hw.output s.oddEmitterPin = true →
        (emittersOffBanks P s hw emitters).2.latch s.oddEmitterPin = LOW) ∧
      (evenTargeted P s emitters → hw.output s.evenEmitterPin = true →
        (emittersOffBanks P s hw emitters).2.latch s.evenEmitterPin = LOW) := by
  unfold emittersOffBanks
  by_cases c1 : oddTargeted P s emitters <;> by_cases c2 : evenTargeted P s emitters
  · simp only [if_pos c1, if_pos c2]
    obtain ⟨a1, a2, a3, a4⟩ := emittersOffBank_frame hw s.oddEmitterPin false
    obtain ⟨b1, b2, b3, b4⟩ := emittersOffBank_frame (emittersOffBank hw s.oddEmitterPin false).2
      s.evenEmitterPin (emittersOffBank hw s.oddEmitterPin false).1
    refine ⟨b1.trans a1, b2.trans a2, ?_, ?_⟩
    · intro _ ho
      rcases b3 s.oddEmitterPin with h | h
      · exact h
      · rw [h]; exact a4 ho
    · intro _ ho
      apply b4
      rw [a1]; exact ho
  · simp only [if_pos c1, if_neg c2]
    obtain ⟨a1, a2, a3, a4⟩ := emittersOffBank_frame hw s.oddEmitterPin false
    exact ⟨a1, a2, fun _ ho => a4 ho, fun h => absurd h c2⟩
  · simp only [if_neg c1, if_pos c2]
    obtain ⟨b1, b2, b3, b4⟩ := emittersOffBank_frame hw s.evenEmitterPin false
    exact ⟨b1, b2, fun h => absurd h c1, fun _ ho => b4 ho⟩
  · rw [if_neg c1, if_neg c2]
    exact ⟨rfl, rfl, fun h => absurd h c1, fun h => absurd h c2⟩

theorem emittersOff_post (P : Platform) (s : QTRSensors) (hw : Hardware)
    (emitters : Emitters) (wait : Bool) :
    (emittersOff P s hw emitters wait).output = hw.output ∧
      (emittersOff P s hw emitters wait).line = hw.line ∧
      (oddTargeted P s emitters → hw.output s.oddEmitterPin = true →
        (emittersOff P s hw emitters wait).latch s.oddEmitterPin = LOW) ∧
      (evenTargeted P s emitters → hw.output s.evenEmitterPin = true →
        (emittersOff P s hw emitters wait).latch s.evenEmitterPin = LOW) := by
  have h := emittersOffBanks_post P s hw emitters
  rw [emittersOff_eq]
  split_ifs <;> exact h

theorem emittersOff_twice (P : Platform) (s : QTRSensors) (hw : Hardware)
    (emitters : Emitters) (wait wait2 : Bool)
    (hodd : oddTargeted P s emitters → hw.output s.oddEmitterPin = true)
    (heven : evenTargeted P s emitters → hw.output s.evenEmitterPin = true) :
    (emittersOff P s (emittersOff P s hw emitters wait) emitters wait2).log
        = (emittersOff P s hw emitters wait).log ∧
      (emittersOff P s (emittersOff P s hw emitters wait) emitters wait2).latch
        = (emittersOff P s hw emitters wait).latch ∧
      (emittersOff P s (emittersOff P s hw emitters wait) emitters wait2).output
        = (emittersOff P s hw emitters wait).output := by
  obtain ⟨p1, p2, p3, p4⟩ := emittersOff_post P s hw emitters wait
  have q := emittersOff_of_low P s (emittersOff P s hw emitters wait) emitters wait2
    (fun c => by
      have ho : (emittersOff P s hw emitters wait).output s.oddEmitterPin = true := by
        rw [p1]; exact hodd c
      have := readsLevel_of_output _ _ ho
      rw [p3 c (hodd c)] at this
      exact this)
    (fun c => by
      have ho : (emittersOff P s hw emitters wait).output s.evenEmitterPin = true := by
        rw [p1]; exact heven c
      have := readsLevel_of_output _ _ ho
      rw [p4 c (heven c)] at this
      exact this)
  exact ⟨q.1, q.2.1, q.2.2.1⟩

theorem emittersOn_eq (P : Platform) (s : QTRSensors) (hw : Hardware) (fuel : Nat)
    (emitters : Emitters) (wait : Bool) :
    emittersOn P s hw fuel emitters wait
      = (if wait = true ∧ (emittersOnBanks P s hw emitters).1 = true then
          if s.dimmable then
            waitSince (emittersOnBanks P s hw emitters).2.1 300 fuel
              (emittersOnBanks P s hw emitters).2.2
          else some ((emittersOnBanks P s hw emitters).2.2.delayMicroseconds 200)
        else some (emittersOnBanks P s hw emitters).2.2) := by
  have h1 : (if emitters = Emitters.All ∨ (s.emitterPinCount = 2 ∧ emitters = Emitters.Odd) then
        if s.oddEmitterPin ≠ P.NoEmitterPin then emittersOnBank s hw s.oddEmitterPin false 0
        else (false, 0, hw)
      else (false, 0, hw))
      = (if oddTargeted P s emitters then emittersOnBank s hw s.oddEmitterPin false 0
          else (false, 0, hw)) := by
    unfold oddTargeted
    split_ifs <;> simp_all
  have h2 : ∀ r : Bool × Nat × Hardware,
      (if s.emitterPinCount = 2 ∧ (emitters = Emitters.All ∨ emitters = Emitters.Even) then
        if s.evenEmitterPin ≠ P.NoEmitterPin then
          emittersOnBank s r.2.2 s.evenEmitterPin r.1 r.2.1
        else r
      else r)
      = (if evenTargeted P s emitters then emittersOnBank s r.2.2 s.evenEmitterPin r.1 r.2.1
          else r) := by
    intro r
    unfold evenTargeted
    split_ifs <;> simp_all
  unfold emittersOnBanks
  rw [← h1, ← h2]
  rfl

theorem emittersOnWithPin_plain (s : QTRSensors) (hw : Hardware) (pin : Nat)
    (hdim : s.dimmable = false) :
    (emittersOnWithPin s hw pin).2 = (hw.digitalWrite pin HIGH).tick := by
  unfold emittersOnWithPin
  simp [hdim]

theorem emittersOnBank_frame (s : QTRSensors) (hw : Hardware) (pin : Nat) (c : Bool)
    (t : Nat) (hdim : s.dimmable = false) :
    (emittersOnBank s hw pin c t).2.2.output = hw.output ∧
      (emittersOnBank s hw pin c t).2.2.line = hw.line ∧
      (∀ q, (emittersOnBank s hw pin c t).2.2.latch q = HIGH ∨
        (emittersOnBank s hw pin c t).2.2.latch q = hw.latch q) ∧
      (hw.output pin = true → (emittersOnBank s hw pin c t).2.2.latch pin = HIGH) := by
  unfold emittersOnBank
  by_cases h : (hw.digitalRead pin).1 = LOW
  · simp only [hdim, h, if_true, Bool.false_eq_true, if_false,
      emittersOnWithPin_plain s _ pin hdim]
    refine ⟨rfl, rfl, ?_, ?_⟩
    · intro q
      by_cases hq : q = pin
      · left; subst hq; simp
      · right; simp [Function.update_noteq hq]
    · intro _; simp
  · simp only [hdim, h, if_false, Bool.false_eq_true]
    refine ⟨rfl, rfl, fun q => Or.inr rfl, ?_⟩
    intro ho
    have : (hw.digitalRead pin).1 = hw.latch pin := by
      unfold Hardware.digitalRead
      simp [ho]
    rw [this] at h
    simpa using h

theorem emittersOnBank_of_high (s : QTRSensors) (hw : Hardware) (pin : Nat) (c : Bool)
    (t : Nat) (hdim : s.dimmable = false) (h : (hw.digitalRead pin).1 = HIGH) :
    emittersOnBank s hw pin c t = (c, t, hw.tick) := by
  unfold emittersOnBank
  simp [hdim, h]

theorem emittersOnBanks_of_high (P : Platform) (s : QTRSensors) (hw : Hardware)
    (emitters : Emitters) (hdim : s.dimmable = false)
    (hodd : oddTargeted P s emitters → ReadsLevel hw s.oddEmitterPin HIGH)
    (heven : evenTargeted P s emitters → ReadsLevel hw s.evenEmitterPin HIGH) :
    (emittersOnBanks P s hw emitters).1 = false ∧
      (emittersOnBanks P s hw emitters).2.2.log = hw.log ∧
      (emittersOnBanks P s hw emitters).2.2.latch = hw.latch ∧
      (emittersOnBanks P s hw emitters).2.2.output = hw.output ∧
      (emittersOnBanks P s hw emitters).2.2.line = hw.line := by
  unfold emittersOnBanks
  by_cases c1 : oddTargeted P s emitters <;> by_cases c2 : evenTargeted P s emitters
  · have r1 := digitalRead_of_readsLevel hw hw s.oddEmitterPin HIGH (hodd c1) rfl rfl rfl
    have r2 := digitalRead_of_readsLevel hw hw.tick s.evenEmitterPin HIGH (heven c2) rfl rfl rfl
    simp [if_pos c1, if_pos c2, emittersOnBank_of_high s _ _ _ _ hdim r1,
      emittersOnBank_of_high s _ _ _ _ hdim r2]
  · have r1 := digitalRead_of_readsLevel hw hw s.oddEmitterPin HIGH (hodd c1) rfl rfl rfl
    simp [if_pos c1, if_neg c2, emittersOnBank_of_high s _ _ _ _ hdim r1]
  · have r2 := digitalRead_of_readsLevel hw hw s.evenEmitterPin HIGH (heven c2) rfl rfl rfl
    simp [if_neg c1, if_pos c2, emittersOnBank_of_high s _ _ _ _ hdim r2]
  · simp [if_neg c1, if_neg c2]

theorem emittersOn_of_high (P : Platform) (s : QTRSensors) (hw : Hardware) (fuel : Nat)
    (emitters : Emitters) (wait : Bool) (hdim : s.dimmable = false)
    (hodd : oddTargeted P s emitters → ReadsLevel hw s.oddEmitterPin HIGH)
    (heven : evenTargeted P s emitters → ReadsLevel hw s.evenEmitterPin HIGH) :
    ∃ h1, emittersOn P s hw fuel emitters wait = some h1 ∧ h1.log = hw.log ∧
      h1.latch = hw.latch ∧ h1.output = hw.output ∧ h1.line = hw.line := by
  obtain ⟨h0, h1, h2, h3, h4⟩ := emittersOnBanks_of_high P s hw emitters hdim hodd heven
  rw [emittersOn_eq]
  have hne : ¬ (wait = true ∧ (emittersOnBanks P s hw emitters).1 = true) := by
    rw [h0]
    rintro ⟨-, h⟩
    exact Bool.false_ne_true h
  rw [if_neg hne]
  exact ⟨_, rfl, h1, h2, h3, h4⟩

theorem emittersOnBanks_post (P : Platform) (s : QTRSensors) (hw : Hardware)
    (emitters : Emitters) (hdim : s.dimmable = false) :
    (emittersOnBanks P s hw emitters).2.2.output = hw.output ∧
      (emittersOnBanks P s hw emitters).2.2.line = hw.line ∧
      (oddTargeted P s emitters → hw.output s.oddEmitterPin = true →
        (emittersOnBanks P s hw emitters).2.2.latch s.oddEmitterPin = HIGH) ∧
      (evenTargeted P s emitters → hw.output s.evenEmitterPin = true →
        (emittersOnBanks P s hw emitters).2.2.latch s.evenEmitterPin = HIGH) := by
  unfold emittersOnBanks
  by_cases c1 : oddTargeted P s emitters <;> by_cases c2 : evenTargeted P s emitters
  · simp only [if_pos c1, if_pos c2]
    obtain ⟨a1, a2, a3, a4⟩ := emittersOnBank_frame s hw s.oddEmitterPin false 0 hdim
    obtain ⟨b1, b2, b3, b4⟩ := emittersOnBank_frame s
      (emittersOnBank s hw s.oddEmitterPin false 0).2.2 s.evenEmitterPin
      (emittersOnBank s hw s.oddEmitterPin false 0).1
      (emittersOnBank s hw s.oddEmitterPin false 0).2.1 hdim
    refine ⟨b1.trans a1, b2.trans a2, ?_, ?_⟩
    · intro _ ho
      rcases b3 s.oddEmitterPin with h | h
      · exact h
      · rw [h]; exact a4 ho
    · intro _ ho
      apply b4
      rw [a1]; exact ho
  · simp only [if_pos c1, if_neg c2]
    obtain ⟨a1, a2, a3, a4⟩ := emittersOnBank_frame s hw s.oddEmitterPin false 0 hdim
    exact ⟨a1, a2, fun _ ho => a4 ho, fun h => absurd h c2⟩
  · simp only [if_neg c1, if_pos c2]
    obtain ⟨b1, b2, b3, b4⟩ := emittersOnBank_frame s hw s.evenEmitterPin false 0 hdim
    exact ⟨b1, b2, fun h => absurd h c1, fun _ ho => b4 ho⟩
  · rw [if_neg c1, if_neg c2]
    exact ⟨rfl, rfl, fun h => absurd h c1, fun h => absurd h c2⟩

theorem emittersOn_post (P : Platform) (s : QTRSensors) (hw : Hardware) (fuel : Nat)
    (emitters : Emitters) (wait : Bool) (hdim : s.dimmable = false) :
    ∃ h1, emittersOn P s hw fuel emitters wait = some h1 ∧ h1.output = hw.output ∧
      h1.line = hw.line ∧
      (oddTargeted P s emitters → hw.output s.oddEmitterPin = true →
        h1.latch s.oddEmitterPin = HIGH) ∧
      (evenTargeted P s emitters → hw.output s.evenEmitterPin = true →
        h1.latch s.evenEmitterPin = HIGH) := by
  have h := emittersOnBanks_post P s hw emitters hdim
  rw [emittersOn_eq]
  simp only [hdim, Bool.false_eq_true, if_false]
  split_ifs
  · exact ⟨_, rfl, h⟩
  · exact ⟨_, rfl, h⟩

theorem emittersOn_twice (P : Platform) (s : QTRSensors) (hw : Hardware) (fuel : Nat)
    (emitters : Emitters) (wait wait2 : Bool) (hdim : s.dimmable = false)
    (hodd : oddTargeted P s emitters → hw.output s.oddEmitterPin = true)
    (heven : evenTargeted P s emitters → hw.output s.evenEmitterPin = true) :
    ∃ h1 h2, emittersOn P s hw fuel emitters wait = some h1 ∧
      emittersOn P s h1 fuel emitters wait2 = some h2 ∧ h2.log = h1.log ∧
      h2.latch = h1.latch ∧ h2.output = h1.output := by
  obtain ⟨h1, e1, p1, p2, p3, p4⟩ := emittersOn_post P s hw fuel emitters wait hdim
  obtain ⟨h2, e2, q1, q2, q3, -⟩ := emittersOn_of_high P s h1 fuel emitters wait2 hdim
    (fun c => by
      have ho : h1.output s.oddEmitterPin = true := by
        rw [p1]; exact hodd c
      have := readsLevel_of_output _ _ ho
      rw [p3 c (hodd c)] at this
      exact this)
    (fun c => by
      have ho : h1.output s.evenEmitterPin = true := by
        rw [p1]; exact heven c
      have := readsLevel_of_output _ _ ho
      rw [p4 c (heven c)] at this
      exact this)
  exact ⟨h1, h2, e1, e2, q1, q2, q3⟩

theorem readsLevel_of_latch (hw : Hardware) (pin : Nat) (level : Bool)
    (ho : hw.output pin = true) (hl : hw.latch pin = level) : ReadsLevel hw pin level := by
  rw [← hl]
  exact readsLevel_of_output hw pin ho

/-- C17: with non-dimmable emitters, for every selection and either wait setting:
`emittersOff` called when every targeted configured pin reads low issues no event (no pin
write, no delay) and leaves the pins as they are; `emittersOn` called when every targeted
configured pin reads high returns, issues no event and leaves the pins as they are; and when
the targeted configured pins are outputs, as `setEmitterPin` and `setEmitterPins` make them,
a second `emittersOff` right after a first one, or a second `emittersOn` right after a first
one, issues no event and leaves the pins in the state the first call left them in. -/
theorem emitters_idempotent (P : Platform) (s : QTRSensors) (hw : Hardware) (fuel : Nat)
    (emitters : Emitters) (wait wait2 : Bool) (hdim : s.dimmable = false) :
    ((oddTargeted P s emitters → ReadsLevel hw s.oddEmitterPin LOW) →
      (evenTargeted P s emitters → ReadsLevel hw s.evenEmitterPin LOW) →
      (emittersOff P s hw emitters wait).log = hw.log ∧
        (emittersOff P s hw emitters wait).latch = hw.latch ∧
        (emittersOff P s hw emitters wait).output = hw.output) ∧
    ((oddTargeted P s emitters → ReadsLevel hw s.oddEmitterPin HIGH) →
      (evenTargeted P s emitters → ReadsLevel hw s.evenEmitterPin HIGH) →
      ∃ h1, emittersOn P s hw fuel emitters wait = some h1 ∧ h1.log = hw.log ∧
        h1.latch = hw.latch ∧ h1.output = hw.output) ∧
    ((oddTargeted P s emitters → hw.output s.oddEmitterPin = true) →
      (evenTargeted P s emitters → hw.output s.evenEmitterPin = true) →
      ((emittersOff P s (emittersOff P s hw emitters wait) emitters wait2).log
          = (emittersOff P s hw emitters wait).log ∧
        (emittersOff P s (emittersOff P s hw emitters wait) emitters wait2).latch
          = (emittersOff P s hw emitters wait).latch ∧
        (emittersOff P s (emittersOff P s hw emitters wait) emitters wait2).output
          = (emittersOff P s hw emitters wait).output) ∧
      ∃ h1 h2, emittersOn P s hw fuel emitters wait = some h1 ∧
        emittersOn P s h1 fuel emitters wait2 = some h2 ∧ h2.log = h1.log ∧
        h2.latch = h1.latch ∧ h2.output = h1.output) := by
  refine ⟨?_, ?_, ?_⟩
  · intro hodd heven
    have h := emittersOff_of_low P s hw emitters wait hodd heven
    exact ⟨h.1, h.2.1, h.2.2.1⟩
  · intro hodd heven
    obtain ⟨h1, e, a1, a2, a3, -⟩ := emittersOn_of_high P s hw fuel emitters wait hdim hodd heven
    exact ⟨h1, e, a1, a2, a3⟩
  · intro hodd heven
    exact ⟨emittersOff_twice P s hw emitters wait wait2 hodd heven,
      emittersOn_twice P s hw fuel emitters wait wait2 hdim hodd heven⟩

/-- C17, on non-dimmable emitters on the output pins 3 and 4, all selected, with waiting:
while both pins drive low `emittersOff` issues no event; while both drive high `emittersOn`
issues no event and a first `emittersOff` writes both pins low and waits 200 us, after which
a second one issues nothing more. -/
theorem emitters_idempotent_witness :
    emitterConfig.1.dimmable = false ∧
      litHardware.log
        = [HwEvent.pinMode 3 OUTPUT, HwEvent.pinMode 4 OUTPUT, HwEvent.digitalWrite 3 HIGH,
          HwEvent.digitalWrite 4 HIGH] ∧
      (emittersOff demoPlatform emitterConfig.1 litHardware Emitters.All true).log
        = litHardware.log ++
          [HwEvent.digitalWrite 3 LOW, HwEvent.digitalWrite 4 LOW,
            HwEvent.delayMicroseconds 200] ∧
      ((emittersOff demoPlatform emitterConfig.1 emitterConfig.2 Emitters.All true).log
          = emitterConfig.2.log ∧
        (emittersOff demoPlatform emitterConfig.1 emitterConfig.2 Emitters.All true).latch
          = emitterConfig.2.latch ∧
        (emittersOff demoPlatform emitterConfig.1 emitterConfig.2 Emitters.All true).output
          = emitterConfig.2.output) ∧
      (∃ h1, emittersOn demoPlatform emitterConfig.1 litHardware 8 Emitters.All true = some h1 ∧
        h1.log = litHardware.log ∧ h1.latch = litHardware.latch ∧
        h1.output = litHardware.output) ∧
      (((emittersOff demoPlatform emitterConfig.1
            (emittersOff demoPlatform emitterConfig.1 litHardware Emitters.All true)
            Emitters.All true).log
          = (emittersOff demoPlatform emitterConfig.1 litHardware Emitters.All true).log ∧
        (emittersOff demoPlatform emitterConfig.1
            (emittersOff demoPlatform emitterConfig.1 litHardware Emitters.All true)
            Emitters.All true).latch
          = (emittersOff demoPlatform emitterConfig.1 litHardware Emitters.All true).latch ∧
        (emittersOff demoPlatform emitterConfig.1
            (emittersOff demoPlatform emitterConfig.1 litHardware Emitters.All true)
            Emitters.All true).output
          = (emittersOff demoPlatform emitterConfig.1 litHardware Emitters.All true).output) ∧
        ∃ h1 h2, emittersOn demoPlatform emitterConfig.1 litHardware 8 Emitters.All true
            = some h1 ∧
          emittersOn demoPlatform emitterConfig.1 h1 8 Emitters.All true = some h2 ∧
          h2.log = h1.log ∧ h2.latch = h1.latch ∧ h2.output = h1.output) :=
  ⟨by decide, by decide, by decide,
    (emitters_idempotent demoPlatform emitterConfig.1 emitterConfig.2 8 Emitters.All true true
      (by decide)).1
      (fun _ => readsLevel_of_latch _ _ _ (by decide) (by decide))
      (fun _ => readsLevel_of_latch _ _ _ (by decide) (by decide)),
    (emitters_idempotent demoPlatform emitterConfig.1 litHardware 8 Emitters.All true true
      (by decide)).2.1
      (fun _ => readsLevel_of_latch _ _ _ (by decide) (by decide))
      (fun _ => readsLevel_of_latch _ _ _ (by decide) (by decide)),
    (emitters_idempotent demoPlatform emitterConfig.1 litHardware 8 Emitters.All true true
      (by decide)).2.2 (fun _ => by decide) (fun _ => by decide)⟩

/-! ## Verification: the last position while the line is lost -/

theorem readLinePrivate_lost_frame (P : Platform) (s : QTRSensors) (hw : Hardware)
    (fuel : Nat) (sensorValues : Buffer) (mode : ReadMode) (inv : Bool) (cal : Buffer)
    (hw1 : Hardware) (hmode : mode ≠ ReadMode.Manual)
    (hcal : readCalibrated P s hw fuel sensorValues mode = some (cal, hw1))
    (hlost : ∀ i, i < s.sensorCount → lineValue inv (cal i) ≤ 200) :
    readLinePrivate P s hw fuel sensorValues mode inv
      = some (some (lostLineValue P s), s, cal, hw1) := by
  have hline : (lineSums P s cal inv).1 = false := by
    rw [lineSums_onLine]
    apply decide_eq_false
    rintro ⟨i, hi, hv⟩
    have := hlost i hi
    omega
  unfold readLinePrivate
  rw [if_neg hmode, hcal]
  simp only [Option.some_bind]
  rw [if_pos hline]
  unfold lostLineValue
  split_ifs <;> rfl

theorem lostLineValue_edge (P : Platform) (s : QTRSensors) (hb : 16 ≤ P.intBits)
    (hfit : ((s.sensorCount : Int) - 1) * 1000 < (2 : Int) ^ (P.intBits - 1))
    (hn : 1 ≤ s.sensorCount) :
    lostLineValue P s
      = if s.lastPosition < (s.sensorCount - 1) * 1000 / 2 then (0 : Int)
        else (((s.sensorCount - 1) * 1000 : Nat) : Int) := by
  have hc : ((s.sensorCount : Int) - 1) * 1000 = (((s.sensorCount - 1) * 1000 : Nat) : Int) := by
    omega
  rw [hc] at hfit
  have hpow : (0 : Int) ≤ (2 : Int) ^ (P.intBits - 1) := by positivity
  have hsigned : toSigned P.intBits ((((s.sensorCount - 1) * 1000 : Nat) : Int))
      = (((s.sensorCount - 1) * 1000 : Nat) : Int) := by
    apply toSigned_of_fits
    · omega
    · omega
    · exact hfit
  have hlt : ltUInt16Int P s.lastPosition
      (Int.tdiv ((((s.sensorCount - 1) * 1000 : Nat) : Int)) 2)
      = decide (s.lastPosition < (s.sensorCount - 1) * 1000 / 2) := by
    have hdiv : Int.tdiv ((((s.sensorCount - 1) * 1000 : Nat) : Int)) 2
        = ((((s.sensorCount - 1) * 1000 / 2 : Nat)) : Int) :=
      (Int.ofNat_tdiv ((s.sensorCount - 1) * 1000) 2).symm
    rw [hdiv]
    unfold ltUInt16Int
    by_cases h16 : P.intBits ≤ 16
    · rw [if_pos h16]
      have hb16 : P.intBits = 16 := by omega
      rw [hb16] at hfit
      norm_num at hfit
      have hu : toUnsigned 16 ((((s.sensorCount - 1) * 1000 / 2 : Nat)) : Int)
          = (s.sensorCount - 1) * 1000 / 2 := by
        unfold toUnsigned
        norm_num
        omega
      rw [hu]
    · rw [if_neg h16]
      apply decide_eq_decide.mpr
      exact Int.ofNat_lt
  unfold lostLineValue
  rw [hc, hsigned, hlt]
  by_cases hlast : s.lastPosition < (s.sensorCount - 1) * 1000 / 2
  · simp only [hlast, decide_True, if_true]
  · simp only [hlast, decide_False, if_false, Bool.false_eq_true]

theorem readLineRun_lost (P : Platform) (s : QTRSensors) (hw : Hardware) (fuel : Nat)
    (sensorValues : Buffer) (mode : ReadMode) (inv : Bool) (hmode : mode ≠ ReadMode.Manual) :
    ∀ k cals b1 hw1,
      readCalibratedRun P s fuel mode k (sensorValues, hw) = some (cals, b1, hw1) →
      (∀ c, c ∈ cals → ∀ i, i < s.sensorCount → lineValue inv (c i) ≤ 200) →
      cals.length = k ∧
      readLineRun P fuel mode inv k (s, sensorValues, hw)
        = some (List.replicate k (some (lostLineValue P s)), s, b1, hw1) := by
  intro k
  induction k with
  | zero =>
    intro cals b1 hw1 h _
    simp only [readCalibratedRun, Option.some.injEq, Prod.mk.injEq] at h
    obtain ⟨h1, h2, h3⟩ := h
    subst h1 h2 h3
    exact ⟨rfl, rfl⟩
  | succ k ih =>
    intro cals b1 hw1 h hlost
    simp only [readCalibratedRun, Option.bind_eq_some, Option.map_eq_some'] at h
    obtain ⟨a, ha, r, hr, hres⟩ := h
    simp only [Prod.mk.injEq] at hres
    obtain ⟨h1, h2, h3⟩ := hres
    subst h1 h2 h3
    obtain ⟨hlen, hrun⟩ := ih a.1 a.2.1 a.2.2 ha
      (fun c hc => hlost c (List.mem_append_left _ hc))
    have hstep := readLinePrivate_lost_frame P s a.2.2 fuel a.2.1 mode inv r.1 r.2 hmode hr
      (hlost r.1 (List.mem_append_right _ (List.mem_singleton.mpr rfl)))
    refine ⟨by simp [hlen], ?_⟩
    simp only [readLineRun, hrun, Option.some_bind, hstep, Option.map_some',
      List.replicate_succ']

/-- C21: for every state, every mode other than `Manual` and every run of `k` consecutive
position estimates whose calibrated reads `cals` complete and hold no (optionally inverted)
value above 200 on the channels in use, the run returns, the object, and so `LastPosition`,
is unchanged at its end, and all `k` estimates return the same value: 0 or the largest
position `(sensorCount − 1) × 1000` as an `int`, which, where that position fits `int`, is 0
if the last position is below `(sensorCount − 1) × 1000 / 2` and the largest position
otherwise. -/
theorem readLinePrivate_frozen (P : Platform) (s : QTRSensors) (hw : Hardware) (fuel : Nat)
    (sensorValues : Buffer) (mode : ReadMode) (inv : Bool) (k : Nat) (cals : List Buffer)
    (b1 : Buffer) (hw1 : Hardware) (hmode : mode ≠ ReadMode.Manual)
    (hrun : readCalibratedRun P s fuel mode k (sensorValues, hw) = some (cals, b1, hw1))
    (hlost : ∀ c, c ∈ cals → ∀ i, i < s.sensorCount → lineValue inv (c i) ≤ 200) :
    cals.length = k ∧
      readLineRun P fuel mode inv k (s, sensorValues, hw)
        = some (List.replicate k (some (lostLineValue P s)), s, b1, hw1) ∧
      (lostLineValue P s = 0 ∨
        lostLineValue P s = toSigned P.intBits (((s.sensorCount : Int) - 1) * 1000)) ∧
      (16 ≤ P.intBits → ((s.sensorCount : Int) - 1) * 1000 < (2 : Int) ^ (P.intBits - 1) →
        1 ≤ s.sensorCount →
        lostLineValue P s
          = if s.lastPosition < (s.sensorCount - 1) * 1000 / 2 then (0 : Int)
            else (((s.sensorCount - 1) * 1000 : Nat) : Int)) := by
  obtain ⟨hlen, hres⟩ := readLineRun_lost P s hw fuel sensorValues mode inv hmode k cals b1 hw1
    hrun hlost
  refine ⟨hlen, hres, ?_, lostLineValue_edge P s⟩
  unfold lostLineValue
  split_ifs
  · exact Or.inl rfl
  · exact Or.inr rfl

/-- C21, on six sensors that all read 0, from the last position 4000: three consecutive
estimates all return 5000 and the last position is still 4000. -/
theorem readLinePrivate_frozen_witness :
    readCalibratedRun demoPlatform rightSensors 8 ReadMode.On 3 (fun _ => 0, darkHardware)
        = some (darkRun.1, darkRun.2.1, darkRun.2.2) ∧
      darkRun.1.map (fun c => (List.range 6).map c)
        = [[0, 0, 0, 0, 0, 0], [0, 0, 0, 0, 0, 0], [0, 0, 0, 0, 0, 0]] ∧
      (readLineRun demoPlatform 8 ReadMode.On false 3
          (rightSensors, fun _ => 0, darkHardware)).map (fun r => (r.1, r.2.1.lastPosition))
        = some ([some 5000, some 5000, some 5000], 4000) ∧
      (darkRun.1.length = 3 ∧
        readLineRun demoPlatform 8 ReadMode.On false 3 (rightSensors, fun _ => 0, darkHardware)
          = some (List.replicate 3 (some (lostLineValue demoPlatform rightSensors)),
            rightSensors, darkRun.2.1, darkRun.2.2) ∧
        (lostLineValue demoPlatform rightSensors = 0 ∨
          lostLineValue demoPlatform rightSensors
            = toSigned demoPlatform.intBits (((rightSensors.sensorCount : Int) - 1) * 1000)) ∧
        (16 ≤ demoPlatform.intBits →
          ((rightSensors.sensorCount : Int) - 1) * 1000
            < (2 : Int) ^ (demoPlatform.intBits - 1) →
          1 ≤ rightSensors.sensorCount →
          lostLineValue demoPlatform rightSensors
            = if rightSensors.lastPosition < (rightSensors.sensorCount - 1) * 1000 / 2
              then (0 : Int) else (((rightSensors.sensorCount - 1) * 1000 : Nat) : Int))) :=
  ⟨eq_some_getD _ ([], fun _ => 0, darkHardware) (by decide), by decide, by decide,
    readLinePrivate_frozen demoPlatform rightSensors darkHardware 8 (fun _ => 0) ReadMode.On
      false 3 darkRun.1 darkRun.2.1 darkRun.2.2 (by decide)
      (eq_some_getD _ ([], fun _ => 0, darkHardware) (by decide)) (by decide)⟩

end QTR
